/-
  Verification of the RefactFlow static-analysis engine
  (src/modules/analyze_module.py) against its specification.

  The Python source is shallowly embedded: strings are `List Char`/`String`,
  Python numbers are `ℚ` (all arithmetic appearing in the claims is exact in
  binary floating point or is compared symbolically), Python dicts are
  insertion-ordered association lists, and the external `javalang` parser is
  an oracle parameter (`Option JTree`): the module only ever observes whether
  `javalang.parse.parse` raised, and the node shapes it walks.  Python
  exceptions raised inside a detector's `try:` block are modelled with an
  explicit exception value threaded next to the accumulated report list,
  mirroring the fact that reports appended before the exception survive.

  Regular expressions from the source are embedded as specialised scanners.
  Every pattern used by a claim is of the "maximal munch safe" kind (each
  repeated character class is followed by a disjoint class or literal), so a
  deterministic longest-run scanner has exactly the semantics of Python's
  backtracking engine on that pattern; optional groups are embedded with an
  explicit try-with / else-without step, again matching `re`'s semantics.
-/
import Mathlib

/-! ## Python primitives -/

/-- Character class of the regex `\w` (ASCII view, as in the Java sources
the module consumes): letters, digits and underscore. -/
def isPyWord (c : Char) : Bool :=
  (('a' ≤ c && c ≤ 'z') || ('A' ≤ c && c ≤ 'Z') || ('0' ≤ c && c ≤ '9') || c = '_')

/-- Character class of the regex `\s`: the six ASCII whitespace characters
recognised by Python's `re` module. -/
def isPySpace (c : Char) : Bool :=
  (c = ' ' || c = '\t' || c = '\n' || c = '\x0b' || c = '\x0c' || c = '\r')

theorem word_not_space {c : Char} (h : isPyWord c = true) : isPySpace c = false := by
  by_contra hs
  simp only [Bool.not_eq_false] at hs
  simp only [isPySpace, Bool.or_eq_true, decide_eq_true_eq] at hs
  rcases hs with ((((h1 | h1) | h1) | h1) | h1) | h1 <;>
    (subst h1; simp [isPyWord] at h)

/-- Python `str.splitlines` restricted to the line breaks `\n`, `\r`, `\r\n`
(the breaks that occur in the analysed sources); a trailing break produces no
extra empty line, exactly as in Python. -/
def splitlinesAux : List Char → List Char → List String
  | [], acc => if acc.isEmpty then [] else [String.mk acc.reverse]
  | '\r' :: '\n' :: rest, acc => String.mk acc.reverse :: splitlinesAux rest []
  | '\r' :: rest, acc => String.mk acc.reverse :: splitlinesAux rest []
  | '\n' :: rest, acc => String.mk acc.reverse :: splitlinesAux rest []
  | c :: rest, acc => splitlinesAux rest (c :: acc)

/-- Embedding of Python `code.splitlines()`. -/
def pySplitlines (s : String) : List String :=
  splitlinesAux s.data []

/-- Embedding of `len(code.splitlines())`, the module's notion of LOC. -/
def pyLoc (s : String) : Nat := (pySplitlines s).length

/-- Python `min(1.0, x)` as it appears in every confidence computation. -/
def pyMin (a b : ℚ) : ℚ := if a ≤ b then a else b

/-- Python `str.strip()` (ASCII whitespace). -/
def pyStrip (s : String) : String :=
  String.mk (((s.data.dropWhile isPySpace).reverse.dropWhile isPySpace).reverse)

/-- Python `str.lower()` restricted to ASCII, as applied to Java identifiers. -/
def pyLower (s : String) : String := String.mk (s.data.map Char.toLower)

/-- Python `sub in s` (substring test) on character lists. -/
def listContainsSub (needle : List Char) : List Char → Bool
  | [] => needle.isEmpty
  | c :: rest => (needle.isPrefixOf (c :: rest)) || listContainsSub needle rest

/-- Python `s.count(sub)` : non-overlapping occurrence count, scanning left to
right (for the nonempty needles the module uses). -/
def countSubAux : Nat → List Char → List Char → Nat
  | 0, _, _ => 0
  | _ + 1, _, [] => 0
  | fuel + 1, needle, c :: rest =>
    if needle.isPrefixOf (c :: rest) then
      1 + countSubAux fuel needle (List.drop (needle.length - 1) rest)
    else
      countSubAux fuel needle rest

def pyCountSub (hay needle : String) : Nat :=
  countSubAux hay.data.length needle.data hay.data

/-! ## Generic scanning helpers

`span2 p s` splits `s` into its longest prefix of characters satisfying `p`
and the remainder; on the "maximal munch safe" patterns of the module this is
exactly what `re`'s greedy `+`/`*` consume. -/

def span2 (p : Char → Bool) (s : List Char) : List Char × List Char :=
  (s.takeWhile p, s.dropWhile p)

theorem span2_exact (p : Char → Bool) (u v : List Char)
    (hu : ∀ c ∈ u, p c = true)
    (hv : ∀ c, v.head? = some c → p c = false) :
    span2 p (u ++ v) = (u, v) := by
  induction u with
  | nil =>
    cases v with
    | nil => rfl
    | cons c rest =>
      have := hv c rfl
      simp [span2, List.takeWhile, List.dropWhile, this]
  | cons c u ih =>
    have hc : p c = true := hu c (List.mem_cons_self ..)
    have ih' := ih (fun d hd => hu d (List.mem_cons_of_mem _ hd))
    simp only [span2, Prod.mk.injEq] at ih'
    simp [span2, List.takeWhile, List.dropWhile, hc, ih'.1, ih'.2]

theorem span2_append (p : Char → Bool) (s : List Char) :
    (span2 p s).1 ++ (span2 p s).2 = s := by
  simp [span2, List.takeWhile_append_dropWhile]

theorem span2_all (p : Char → Bool) (s : List Char) :
    ∀ c ∈ (span2 p s).1, p c = true := by
  intro c hc
  exact List.mem_takeWhile_imp hc

/-- Consume an exact literal: `dropLit lit s = some rest` iff `s = lit ++ rest`. -/
def dropLit : List Char → List Char → Option (List Char)
  | [], s => some s
  | _ :: _, [] => none
  | l :: ls, c :: cs => if c = l then dropLit ls cs else none

theorem dropLit_sound : ∀ (lit s rest : List Char),
    dropLit lit s = some rest → s = lit ++ rest
  | [], s, rest, h => by simpa [dropLit, eq_comm] using h.symm
  | l :: ls, [], rest, h => by simp [dropLit] at h
  | l :: ls, c :: cs, rest, h => by
    by_cases hc : c = l
    · subst hc
      simp only [dropLit, if_pos rfl] at h
      simpa using dropLit_sound ls cs rest h
    · simp [dropLit, hc] at h

theorem dropLit_complete : ∀ (lit rest : List Char),
    dropLit lit (lit ++ rest) = some rest
  | [], rest => rfl
  | l :: ls, rest => by simp [dropLit, dropLit_complete ls rest]

/-! ## The SmellReport record (class `SmellReport` in the source).

`lines` keeps the formatted `Line Numbers` payload, `confidence` the raw
(un-rounded) score the detector computed. -/

structure SmellReport where
  file_name : String
  location : String
  category : String
  smell_type : String
  description : String
  lines : String
  confidence : ℚ
  refactor : String
  suggestion : String
  reason : String
  deriving DecidableEq, Repr

/-- Nonempty greedy run of characters satisfying `p` (regex `p+`). -/
def munch1 (p : Char → Bool) (s : List Char) : Option (List Char × List Char) :=
  if (s.takeWhile p).isEmpty then none else some (s.takeWhile p, s.dropWhile p)

theorem munch1_sound {p : Char → Bool} {s t r : List Char}
    (h : munch1 p s = some (t, r)) :
    s = t ++ r ∧ t ≠ [] ∧ ∀ c ∈ t, p c = true := by
  unfold munch1 at h
  split at h
  · exact absurd h (by simp)
  · rename_i hne
    simp only [Option.some.injEq, Prod.mk.injEq] at h
    obtain ⟨rfl, rfl⟩ := h
    refine ⟨(List.takeWhile_append_dropWhile ..).symm, ?_, ?_⟩
    · simpa [List.isEmpty_iff] using hne
    · intro c hc; exact List.mem_takeWhile_imp hc

theorem munch1_complete {p : Char → Bool} {t r : List Char}
    (ht : t ≠ []) (hall : ∀ c ∈ t, p c = true)
    (hr : ∀ c, r.head? = some c → p c = false) :
    munch1 p (t ++ r) = some (t, r) := by
  have := span2_exact p t r hall hr
  simp only [span2, Prod.mk.injEq] at this
  unfold munch1
  rw [this.1, this.2, if_neg (by simpa [List.isEmpty_iff] using ht)]

/-! ## FieldSmellAgent (class `FieldSmellAgent` in the source)

The Public Field rule scans the raw text with the pattern
`public\s+\w+\s+(\w+)\s*;` and emits one confidence-1.0 report per match.
The pattern is maximal-munch safe, so the deterministic scanner below has
exactly Python's matching semantics. -/

def pubLit : List Char := "public".data

/-- Match of `public\s+\w+\s+(\w+)\s*;` at the head of `s`; returns the
captured group and the unconsumed remainder. -/
def pfMatchAt (s : List Char) : Option (List Char × List Char) :=
  match dropLit pubLit s with
  | none => none
  | some s1 =>
  match munch1 isPySpace s1 with
  | none => none
  | some (_, r1) =>
  match munch1 isPyWord r1 with
  | none => none
  | some (_, r2) =>
  match munch1 isPySpace r2 with
  | none => none
  | some (_, r3) =>
  match munch1 isPyWord r3 with
  | none => none
  | some (y, r4) =>
  match (span2 isPySpace r4).2 with
  | ';' :: r6 => some (y, r6)
  | _ => none

/-- A witnessing decomposition of a match of the Public Field pattern. -/
def PFDecomp (s y rest : List Char) : Prop :=
  ∃ w1 t w2 w3,
    s = pubLit ++ w1 ++ t ++ w2 ++ y ++ w3 ++ ';' :: rest ∧
    w1 ≠ [] ∧ (∀ c ∈ w1, isPySpace c = true) ∧
    t ≠ [] ∧ (∀ c ∈ t, isPyWord c = true) ∧
    w2 ≠ [] ∧ (∀ c ∈ w2, isPySpace c = true) ∧
    y ≠ [] ∧ (∀ c ∈ y, isPyWord c = true) ∧
    (∀ c ∈ w3, isPySpace c = true)

theorem space_not_word {c : Char} (h : isPySpace c = true) : isPyWord c = false := by
  by_contra hw
  simp only [Bool.not_eq_false] at hw
  have := word_not_space hw
  rw [h] at this
  exact Bool.true_eq_false.mp this

theorem pfMatchAt_sound {s y rest : List Char}
    (h : pfMatchAt s = some (y, rest)) : PFDecomp s y rest := by
  unfold pfMatchAt at h
  cases hd : dropLit pubLit s with
  | none => simp only [hd] at h; exact absurd h (by simp)
  | some s1 =>
  simp only [hd] at h
  cases hm1 : munch1 isPySpace s1 with
  | none => simp only [hm1] at h; exact absurd h (by simp)
  | some p1 =>
  obtain ⟨w1, r1⟩ := p1
  simp only [hm1] at h
  cases hm2 : munch1 isPyWord r1 with
  | none => simp only [hm2] at h; exact absurd h (by simp)
  | some p2 =>
  obtain ⟨t, r2⟩ := p2
  simp only [hm2] at h
  cases hm3 : munch1 isPySpace r2 with
  | none => simp only [hm3] at h; exact absurd h (by simp)
  | some p3 =>
  obtain ⟨w2, r3⟩ := p3
  simp only [hm3] at h
  cases hm4 : munch1 isPyWord r3 with
  | none => simp only [hm4] at h; exact absurd h (by simp)
  | some p4 =>
  obtain ⟨yv, r4⟩ := p4
  simp only [hm4] at h
  obtain ⟨e1, hw1ne, hw1⟩ := munch1_sound hm1
  obtain ⟨e2, htne, ht⟩ := munch1_sound hm2
  obtain ⟨e3, hw2ne, hw2⟩ := munch1_sound hm3
  obtain ⟨e4, hyne, hy⟩ := munch1_sound hm4
  have e5 := span2_append isPySpace r4
  have hw3 := span2_all isPySpace r4
  cases hr : (span2 isPySpace r4).2 with
  | nil => simp only [hr] at h; exact absurd h (by simp)
  | cons c r6 =>
  simp only [hr] at h
  by_cases hc : c = ';'
  · subst hc
    simp only [Option.some.injEq, Prod.mk.injEq] at h
    obtain ⟨rfl, rfl⟩ := h
    set w3v := (span2 isPySpace r4).1 with hw3v
    have e6 : r4 = w3v ++ ';' :: r6 := by rw [hr] at e5; exact e5.symm
    refine ⟨w1, t, w2, w3v, ?_, hw1ne, hw1, htne, ht,
      hw2ne, hw2, hyne, hy, hw3⟩
    rw [dropLit_sound _ _ _ hd, e1, e2, e3, e4, e6]
    simp
  · have hmatch : (match c :: r6 with
        | ';' :: r6 => some (yv, r6)
        | _ => (none : Option (List Char × List Char))) = none := by
      cases c with
      | mk v hv =>
        split
        · rename_i heq
          exact absurd (List.cons.inj heq).1 hc
        · rfl
    simp only [hmatch] at h
    exact absurd h (by simp)

theorem pfMatchAt_complete {s y rest : List Char}
    (h : PFDecomp s y rest) : pfMatchAt s = some (y, rest) := by
  obtain ⟨w1, t, w2, w3, rfl, hw1ne, hw1, htne, ht, hw2ne, hw2, hyne, hy, hw3⟩ := h
  have m1 : munch1 isPySpace (w1 ++ (t ++ (w2 ++ (y ++ (w3 ++ ';' :: rest))))) =
      some (w1, t ++ (w2 ++ (y ++ (w3 ++ ';' :: rest)))) := by
    refine munch1_complete hw1ne hw1 ?_
    intro c hc
    cases t with
    | nil => exact absurd rfl htne
    | cons a as =>
      simp only [List.cons_append, List.head?_cons, Option.some.injEq] at hc
      subst hc
      exact word_not_space (ht a (List.mem_cons_self ..))
  have m2 : munch1 isPyWord (t ++ (w2 ++ (y ++ (w3 ++ ';' :: rest)))) =
      some (t, w2 ++ (y ++ (w3 ++ ';' :: rest))) := by
    refine munch1_complete htne ht ?_
    intro c hc
    cases w2 with
    | nil => exact absurd rfl hw2ne
    | cons a as =>
      simp only [List.cons_append, List.head?_cons, Option.some.injEq] at hc
      subst hc
      exact space_not_word (hw2 a (List.mem_cons_self ..))
  have m3 : munch1 isPySpace (w2 ++ (y ++ (w3 ++ ';' :: rest))) =
      some (w2, y ++ (w3 ++ ';' :: rest)) := by
    refine munch1_complete hw2ne hw2 ?_
    intro c hc
    cases y with
    | nil => exact absurd rfl hyne
    | cons a as =>
      simp only [List.cons_append, List.head?_cons, Option.some.injEq] at hc
      subst hc
      exact word_not_space (hy a (List.mem_cons_self ..))
  have m4 : munch1 isPyWord (y ++ (w3 ++ ';' :: rest)) =
      some (y, w3 ++ ';' :: rest) := by
    refine munch1_complete hyne hy ?_
    intro c hc
    cases w3 with
    | nil =>
      simp only [List.nil_append, List.head?_cons, Option.some.injEq] at hc
      subst hc
      decide
    | cons a as =>
      simp only [List.cons_append, List.head?_cons, Option.some.injEq] at hc
      subst hc
      exact space_not_word (hw3 a (List.mem_cons_self ..))
  have m5 : (span2 isPySpace (w3 ++ ';' :: rest)).2 = ';' :: rest := by
    have hx := span2_exact isPySpace w3 (';' :: rest) hw3 (by
      intro c hc
      simp only [List.head?_cons, Option.some.injEq] at hc
      subst hc
      decide)
    rw [hx]
  have assoc1 : pubLit ++ w1 ++ t ++ w2 ++ y ++ w3 ++ ';' :: rest =
      pubLit ++ (w1 ++ (t ++ (w2 ++ (y ++ (w3 ++ ';' :: rest))))) := by simp
  rw [assoc1]
  unfold pfMatchAt
  simp only [dropLit_complete, m1, m2, m3, m4, m5]

def pfOcc : List Char := "public int x;".data

def pfOccBody : List Char := "public int x".data

theorem pfDecomp_split {s y rest : List Char} (h : PFDecomp s y rest) :
    ∃ body, s = body ++ ';' :: rest ∧ ';' ∉ body := by
  obtain ⟨w1, t, w2, w3, rfl, _, hw1, _, ht, _, hw2, _, hy, hw3⟩ := h
  refine ⟨pubLit ++ w1 ++ t ++ w2 ++ y ++ w3, by simp, ?_⟩
  intro hmem
  simp only [List.append_assoc, List.mem_append] at hmem
  rcases hmem with h' | h' | h' | h' | h' | h'
  · revert h'; decide
  · have := hw1 _ h'; revert this; decide
  · have := ht _ h'; revert this; decide
  · have := hw2 _ h'; revert this; decide
  · have := hy _ h'; revert this; decide
  · have := hw3 _ h'; revert this; decide

theorem pf_capture_x {a y : List Char} (pre w3 : List Char)
    (hy : ∀ c ∈ y, isPyWord c = true) (hyne : y ≠ [])
    (hw3 : ∀ c ∈ w3, isPySpace c = true)
    (heq : a ++ pfOccBody = pre ++ y ++ w3) : y = ['x'] := by
  have hbody : pfOccBody = "public int ".data ++ ['x'] := rfl
  rcases List.eq_nil_or_concat w3 with hw3nil | ⟨w3', cw, hw3eq⟩
  · subst hw3nil
    simp only [List.append_nil] at heq
    rcases List.eq_nil_or_concat y with hynil | ⟨y', cy, hyeq⟩
    · exact absurd hynil hyne
    · rw [List.concat_eq_append] at hyeq
      subst hyeq
      have h1 : (a ++ "public int ".data) ++ ['x'] = (pre ++ y') ++ [cy] := by
        rw [hbody] at heq
        simpa [List.append_assoc] using heq
      have hlast := congrArg List.getLast? h1
      rw [List.getLast?_concat, List.getLast?_concat] at hlast
      have hcy : cy = 'x' := by simpa using hlast.symm
      subst hcy
      have h2 : a ++ "public int ".data = pre ++ y' :=
        (List.append_inj' h1 rfl).1
      rcases List.eq_nil_or_concat y' with hynil' | ⟨y'', cd, hyeq'⟩
      · subst hynil'; simp
      · rw [List.concat_eq_append] at hyeq'
        subst hyeq'
        have h3 : (a ++ "public int".data) ++ [' '] = (pre ++ y'') ++ [cd] := by
          have hsp : ("public int ".data : List Char) = "public int".data ++ [' '] := rfl
          rw [hsp] at h2
          simpa [List.append_assoc] using h2
        have hlast2 := congrArg List.getLast? h3
        rw [List.getLast?_concat, List.getLast?_concat] at hlast2
        have hcd : cd = ' ' := by simpa using hlast2.symm
        have hword : isPyWord cd = true := hy cd (by simp)
        rw [hcd] at hword
        exact absurd hword (by decide)
  · rw [List.concat_eq_append] at hw3eq
    subst hw3eq
    have h1 : (a ++ "public int ".data) ++ ['x'] = (pre ++ y ++ w3') ++ [cw] := by
      rw [hbody] at heq
      simpa [List.append_assoc] using heq
    have hlast := congrArg List.getLast? h1
    rw [List.getLast?_concat, List.getLast?_concat] at hlast
    have hcw : cw = 'x' := by simpa using hlast.symm
    have hsp : isPySpace cw = true := hw3 cw (by simp)
    rw [hcw] at hsp
    exact absurd hsp (by decide)

/-- Left-to-right non-overlapping scan of the Public Field pattern
(`finditer`); yields (start, end, capture) triples. -/
def pfScanAux : Nat → Nat → List Char → List (Nat × Nat × List Char)
  | 0, _, _ => []
  | _ + 1, _, [] => []
  | fuel + 1, pos, c :: tail =>
    match pfMatchAt (c :: tail) with
    | some (y, rest) =>
      (pos, pos + ((c :: tail).length - rest.length), y) ::
        pfScanAux fuel (pos + ((c :: tail).length - rest.length)) rest
    | none => pfScanAux fuel (pos + 1) tail

theorem pfScan_finds :
    ∀ fuel (a b : List Char) (pos : Nat), (a ++ pfOcc ++ b).length ≤ fuel →
    ∃ st en, (st, en, ['x']) ∈ pfScanAux fuel pos (a ++ pfOcc ++ b) := by
  intro fuel
  induction fuel using Nat.strong_induction_on with
  | _ fuel ih =>
  intro a b pos hlen
  have hoccLen : pfOcc.length = 13 := rfl
  have hsLen : (a ++ pfOcc ++ b).length = a.length + 13 + b.length := by
    simp [hoccLen]; omega
  match fuel, hlen with
  | 0, hlen => omega
  | f + 1, hlen =>
  cases hs : (a ++ pfOcc ++ b) with
  | nil => rw [hs] at hsLen; simp at hsLen; omega
  | cons c tail =>
  have hctLen : (c :: tail).length = a.length + 13 + b.length := by
    rw [← hs, hsLen]
  have hctf : (c :: tail).length ≤ f + 1 := by rw [← hs]; exact hlen
  cases hm : pfMatchAt (c :: tail) with
  | none =>
    cases a with
    | nil =>
      exfalso
      have hdec : PFDecomp (pfOcc ++ b) ['x'] b := by
        refine ⟨[' '], "int".data, [' '], [], ?_, by simp, by decide,
          by simp, by decide, by simp, by decide, by simp, by decide, by simp⟩
        rfl
      have hcomp := pfMatchAt_complete hdec
      rw [List.nil_append] at hs
      rw [hs, hm] at hcomp
      exact absurd hcomp (by simp)
    | cons ac atail =>
      have hinj := List.cons.inj (by simpa using hs)
      obtain ⟨rfl, htail⟩ := hinj
      have hrec := ih f (by omega) atail b (pos + 1) (by
        rw [List.append_assoc, htail]
        simp only [List.length_cons] at hctf
        omega)
      rw [List.append_assoc, htail] at hrec
      obtain ⟨st, en, hmem⟩ := hrec
      refine ⟨st, en, ?_⟩
      simp only [pfScanAux, hm]
      exact hmem
  | some p =>
    obtain ⟨y, rest⟩ := p
    obtain ⟨body, hsplit, hnos⟩ := pfDecomp_split (pfMatchAt_sound hm)
    rw [← hs] at hsplit
    have hrestLen : a.length + 13 + b.length = body.length + 1 + rest.length := by
      rw [← hsLen, hsplit]; simp; omega
    set L := body.length with hL
    by_cases hcase1 : L + 1 ≤ a.length
    · -- the match ends inside the leading junk: recurse on the remainder
      have hrest : rest = a.drop (L + 1) ++ (pfOcc ++ b) := by
        have h1 : (body ++ [';']) ++ rest =
            a.take (L + 1) ++ (a.drop (L + 1) ++ (pfOcc ++ b)) := by
          have hta : a = a.take (L + 1) ++ a.drop (L + 1) := (List.take_append_drop ..).symm
          have hx : (body ++ [';']) ++ rest = a ++ (pfOcc ++ b) := by
            simpa [List.append_assoc] using hsplit.symm
          rw [hx]
          conv_rhs => rw [← List.append_assoc, List.take_append_drop]
        have hlen1 : (body ++ [';']).length = (a.take (L + 1)).length := by
          simp [List.length_take]
          omega
        exact (List.append_inj h1 hlen1).2
      have hrec := ih f (by omega) (a.drop (L + 1)) b
        (pos + ((c :: tail).length - rest.length)) (by
          rw [List.append_assoc, ← hrest]
          simp only [List.length_cons] at hctf
          omega)
      rw [List.append_assoc, ← hrest] at hrec
      obtain ⟨st, en, hmem⟩ := hrec
      refine ⟨st, en, ?_⟩
      simp only [pfScanAux, hm]
      exact List.mem_cons_of_mem _ hmem
    · by_cases hcase2 : L = a.length + 12
      · -- the match ends exactly at the occurrence's semicolon: capture is x
        have hsplit2 : (body ++ [';']) ++ rest = ((a ++ pfOccBody) ++ [';']) ++ b := by
          calc (body ++ [';']) ++ rest = body ++ ';' :: rest := by simp
            _ = a ++ pfOcc ++ b := hsplit.symm
            _ = ((a ++ pfOccBody) ++ [';']) ++ b := by
                have hocc : pfOcc = pfOccBody ++ [';'] := rfl
                rw [hocc]; simp
        have hlen2 : (body ++ [';']).length = ((a ++ pfOccBody) ++ [';']).length := by
          have hob : pfOccBody.length = 12 := rfl
          simp [hob]
          omega
        obtain ⟨hbody, hrest⟩ := List.append_inj hsplit2 hlen2
        have hbody2 : body = a ++ pfOccBody := (List.append_inj' hbody rfl).1
        obtain ⟨w1, t, w2, w3, hdecomp, _, _, _, _, _, _, hyne, hy, hw3⟩ :=
          pfMatchAt_sound hm
        have hpre : body = (pubLit ++ w1 ++ t ++ w2) ++ y ++ w3 := by
          have h1 : (body ++ [';']) ++ rest =
              (((pubLit ++ w1 ++ t ++ w2) ++ y ++ w3) ++ [';']) ++ rest := by
            calc (body ++ [';']) ++ rest = body ++ ';' :: rest := by simp
              _ = a ++ pfOcc ++ b := hsplit.symm
              _ = (c :: tail) := hs
              _ = pubLit ++ w1 ++ t ++ w2 ++ y ++ w3 ++ ';' :: rest := hdecomp
              _ = (((pubLit ++ w1 ++ t ++ w2) ++ y ++ w3) ++ [';']) ++ rest := by simp
          have h2 := (List.append_inj' h1 rfl).1
          exact (List.append_inj' h2 rfl).1
        have hx : y = ['x'] := by
          refine pf_capture_x (a := a) (pubLit ++ w1 ++ t ++ w2) w3 hy hyne hw3 ?_
          rw [← hbody2, hpre]
        subst hx
        refine ⟨pos, pos + ((c :: tail).length - rest.length), ?_⟩
        simp only [pfScanAux, hm]
        exact List.mem_cons_self ..
      · by_cases hcase3 : L < a.length + 12
        · -- impossible: the final semicolon would sit inside "public int x"
          exfalso
          have h1 : (a ++ pfOcc ++ b)[L]? = some ';' := by
            rw [hsplit, List.getElem?_append_right (by omega : body.length ≤ L)]
            simp [hL]
          have h2 : (a ++ pfOcc ++ b)[L]? = pfOccBody[L - a.length]? := by
            rw [List.append_assoc, List.getElem?_append_right (by omega : a.length ≤ L)]
            have hocc : pfOcc ++ b = pfOccBody ++ (';' :: b) := rfl
            rw [hocc, List.getElem?_append_left (by
              have hob : pfOccBody.length = 12 := rfl
              rw [hob]; omega)]
          rw [h1] at h2
          have h3 := List.getElem?_eq_some.mp h2.symm
          obtain ⟨hlt, hget⟩ := h3
          have h5 : (';' : Char) ∈ pfOccBody := by
            rw [← hget]; exact List.getElem_mem _
          revert h5; decide
        · -- impossible: the match body would swallow the occurrence's semicolon
          exfalso
          have hge : a.length + 13 ≤ L := by omega
          have htake1 : (a ++ pfOcc ++ b).take (a.length + 13) = a ++ pfOcc :=
            List.take_left' (by simp [hoccLen])
          have htake2 : (a ++ pfOcc ++ b).take (a.length + 13) =
              body.take (a.length + 13) := by
            rw [hsplit]
            exact List.take_append_of_le_length (by omega)
          have hmem : (';' : Char) ∈ body := by
            apply List.take_subset (a.length + 13) body
            rw [← htake2, htake1]
            refine List.mem_append_right a ?_
            decide
          exact hnos hmem

/-- Consume a keyword literal followed by `\s+` (the shape of the optional
groups `(public\s+)?` etc. in the Constant Interface field pattern). -/
def tryKw (kw : List Char) (s : List Char) : Option (List Char) :=
  match dropLit kw s with
  | none => none
  | some r =>
    if (span2 isPySpace r).1.isEmpty then none else some (span2 isPySpace r).2

/-- Core `\w+\s+\w+\s*;` of the interface-field pattern. -/
def ciFieldCore (s : List Char) : Option (List Char) :=
  match munch1 isPyWord s with
  | none => none
  | some (_, r1) =>
  match munch1 isPySpace r1 with
  | none => none
  | some (_, r2) =>
  match munch1 isPyWord r2 with
  | none => none
  | some (_, r3) =>
  match (span2 isPySpace r3).2 with
  | ';' :: r4 => some r4
  | _ => none

/-- Optional `(final\s+)?` with the one backtracking step `re` performs. -/
def ciFieldFinal (s : List Char) : Option (Bool × List Char) :=
  match tryKw "final".data s with
  | some r =>
    match ciFieldCore r with
    | some rest => some (true, rest)
    | none => (ciFieldCore s).map (fun rest => (false, rest))
  | none => (ciFieldCore s).map (fun rest => (false, rest))

/-- Optional `(static\s+)?` layer. -/
def ciFieldStatic (s : List Char) : Option (Bool × Bool × List Char) :=
  match tryKw "static".data s with
  | some r =>
    match ciFieldFinal r with
    | some (f, rest) => some (true, f, rest)
    | none => (ciFieldFinal s).map (fun p => (false, p.1, p.2))
  | none => (ciFieldFinal s).map (fun p => (false, p.1, p.2))

/-- Match of `(public\s+)?(static\s+)?(final\s+)?\w+\s+\w+\s*;`; the returned
booleans are the truthiness of the `static` and `final` groups. -/
def ciFieldMatchAt (s : List Char) : Option (Bool × Bool × List Char) :=
  match tryKw "public".data s with
  | some r =>
    match ciFieldStatic r with
    | some res => some res
    | none => ciFieldStatic s
  | none => ciFieldStatic s

/-- Python `re.findall` of the interface-field pattern over a body. -/
def ciFieldScan : Nat → List Char → List (Bool × Bool)
  | 0, _ => []
  | _ + 1, [] => []
  | fuel + 1, c :: tail =>
    match ciFieldMatchAt (c :: tail) with
    | some (st, fn, rest) => (st, fn) :: ciFieldScan fuel rest
    | none => ciFieldScan fuel tail

/-- Match of `interface\s+(\w+)[^{]*\{([^}]*)\}` (DOTALL) at the head:
returns interface name, brace-delimited body and the remainder. -/
def ciMatchAt (s : List Char) : Option (List Char × List Char × List Char) :=
  match dropLit "interface".data s with
  | none => none
  | some r0 =>
  match munch1 isPySpace r0 with
  | none => none
  | some (_, r1) =>
  match munch1 isPyWord r1 with
  | none => none
  | some (iname, r2) =>
  match (span2 (fun c => !(c = '\x7b')) r2).2 with
  | '\x7b' :: r3 =>
    match (span2 (fun c => !(c = '\x7d')) r3).2 with
    | '\x7d' :: r4 => some (iname, (span2 (fun c => !(c = '\x7d')) r3).1, r4)
    | _ => none
  | _ => none

/-- finditer of the interface pattern with positions. -/
def ciScanAux : Nat → Nat → List Char → List (List Char × List Char × Nat × Nat)
  | 0, _, _ => []
  | _ + 1, _, [] => []
  | fuel + 1, pos, c :: tail =>
    match ciMatchAt (c :: tail) with
    | some (iname, ibody, rest) =>
      (iname, ibody, pos, pos + ((c :: tail).length - rest.length)) ::
        ciScanAux fuel (pos + ((c :: tail).length - rest.length)) rest
    | none => ciScanAux fuel (pos + 1) tail

/-- Tail `\s+static\s+(?!final)\w+\s+(\w+)\s*;` of the Mutable Static Field
pattern (after the optional access-modifier group). -/
def msfTail (s : List Char) : Option (List Char × List Char) :=
  match munch1 isPySpace s with
  | none => none
  | some (_, r1) =>
  match dropLit "static".data r1 with
  | none => none
  | some r2 =>
  match munch1 isPySpace r2 with
  | none => none
  | some (_, r3) =>
  if "final".data.isPrefixOf r3 then none else
  match munch1 isPyWord r3 with
  | none => none
  | some (_, r4) =>
  match munch1 isPySpace r4 with
  | none => none
  | some (_, r5) =>
  match munch1 isPyWord r5 with
  | none => none
  | some (fname, r6) =>
  match (span2 isPySpace r6).2 with
  | ';' :: r7 => some (fname, r7)
  | _ => none

/-- Match of `(public|private|protected)?\s+static\s+(?!final)\w+\s+(\w+)\s*;`
with `re`'s try-each-alternative-then-unmatched handling of the optional
group. -/
def msfMatchAt (s : List Char) : Option (List Char × List Char) :=
  match dropLit "public".data s with
  | some r => match msfTail r with
    | some res => some res
    | none => msfTail s
  | none =>
  match dropLit "private".data s with
  | some r => match msfTail r with
    | some res => some res
    | none => msfTail s
  | none =>
  match dropLit "protected".data s with
  | some r => match msfTail r with
    | some res => some res
    | none => msfTail s
  | none => msfTail s

/-- finditer of the mutable-static pattern. -/
def msfScanAux : Nat → Nat → List Char → List (List Char × Nat × Nat)
  | 0, _, _ => []
  | _ + 1, _, [] => []
  | fuel + 1, pos, c :: tail =>
    match msfMatchAt (c :: tail) with
    | some (fname, rest) =>
      (fname, pos, pos + ((c :: tail).length - rest.length)) ::
        msfScanAux fuel (pos + ((c :: tail).length - rest.length)) rest
    | none => msfScanAux fuel (pos + 1) tail

def fieldCategory : String := "Field-Level Code Smells"

/-- The Public Fields section of `FieldSmellAgent.detect`. -/
def FieldSmellAgent.publicFieldReports (code file_name : String) : List SmellReport :=
  (pfScanAux code.data.length 0 code.data).map (fun m =>
    { file_name := file_name
      location := String.mk m.2.2
      category := fieldCategory
      smell_type := "Public Field"
      description := "Field '" ++ String.mk m.2.2 ++ "' is public."
      lines := toString m.1 ++ "-" ++ toString m.2.1
      confidence := 1
      refactor := "Yes"
      suggestion := "Encapsulate Field, Use Getter/Setter"
      reason := "Field is declared public." })

/-- The Constant Interface section of `FieldSmellAgent.detect`. -/
def FieldSmellAgent.constantInterfaceReports (code file_name : String) :
    List SmellReport :=
  (ciScanAux code.data.length 0 code.data).filterMap (fun m =>
    let fields := ciFieldScan m.2.1.length m.2.1
    let nonConstant := fields.filter (fun p => !(p.1 && p.2))
    if !fields.isEmpty && nonConstant.isEmpty then
      some { file_name := file_name
             location := String.mk m.1
             category := fieldCategory
             smell_type := "Constant Interface"
             description := "Interface '" ++ String.mk m.1 ++
               "' is a constant interface (only static final fields)."
             lines := toString m.2.2.1 ++ "-" ++ toString m.2.2.2
             confidence := 1
             refactor := "Yes"
             suggestion := "Refactor to Utility Class or Enum"
             reason := "All fields in interface '" ++ String.mk m.1 ++
               "' are static final." }
    else none)

/-- The Mutable Static Fields section of `FieldSmellAgent.detect`. -/
def FieldSmellAgent.mutableStaticReports (code file_name : String) :
    List SmellReport :=
  (msfScanAux code.data.length 0 code.data).map (fun m =>
    { file_name := file_name
      location := String.mk m.1
      category := fieldCategory
      smell_type := "Mutable Static Field"
      description := "Field '" ++ String.mk m.1 ++ "' is static and mutable."
      lines := toString m.2.1 ++ "-" ++ toString m.2.2
      confidence := 1
      refactor := "Yes"
      suggestion := "Make Field Final or Refactor"
      reason := "Static field is mutable (not final)." })

/-- Embedding of `FieldSmellAgent.detect` (pure regex rules; it receives no
parser output, so its result is the same whichever parser strategy is in
effect for the file). -/
def FieldSmellAgent.detect (code file_name : String) : List SmellReport :=
  FieldSmellAgent.publicFieldReports code file_name
    ++ FieldSmellAgent.constantInterfaceReports code file_name
    ++ FieldSmellAgent.mutableStaticReports code file_name

theorem fieldDetect_confidence_one {code file_name : String} :
    ∀ r ∈ FieldSmellAgent.detect code file_name, r.confidence = 1 := by
  intro r hr
  simp only [FieldSmellAgent.detect, List.mem_append] at hr
  rcases hr with (hr | hr) | hr
  · simp only [FieldSmellAgent.publicFieldReports, List.mem_map] at hr
    obtain ⟨m, _, rfl⟩ := hr
    rfl
  · simp only [FieldSmellAgent.constantInterfaceReports, List.mem_filterMap] at hr
    obtain ⟨m, _, hm⟩ := hr
    split at hm
    · simp only [Option.some.injEq] at hm
      rw [← hm]
    · exact absurd hm (by simp)
  · simp only [FieldSmellAgent.mutableStaticReports, List.mem_map] at hr
    obtain ⟨m, _, rfl⟩ := hr
    rfl

/-- Claim C5: any input text that contains the declaration `public int x;`
(whatever surrounds it — in particular inside any class body) makes the
field-level detector emit a "Public Field" report for `x` with confidence
exactly 1.0.  `FieldSmellAgent.detect` receives no parser output, so the
result holds regardless of which parser strategy (AST or regex fallback) is
in effect for the file. -/
theorem C5_public_field_always_reported (a b : List Char) (fn : String) :
    ∃ r ∈ FieldSmellAgent.detect (String.mk (a ++ pfOcc ++ b)) fn,
      r.smell_type = "Public Field" ∧ r.location = "x" ∧ r.confidence = 1 := by
  obtain ⟨st, en, hmem⟩ :=
    pfScan_finds (a ++ pfOcc ++ b).length a b 0 (le_refl _)
  refine ⟨{ file_name := fn
            location := String.mk ['x']
            category := fieldCategory
            smell_type := "Public Field"
            description := "Field '" ++ String.mk ['x'] ++ "' is public."
            lines := toString st ++ "-" ++ toString en
            confidence := 1
            refactor := "Yes"
            suggestion := "Encapsulate Field, Use Getter/Setter"
            reason := "Field is declared public." }, ?_, rfl, rfl, rfl⟩
  unfold FieldSmellAgent.detect
  refine List.mem_append_left _ (List.mem_append_left _ ?_)
  unfold FieldSmellAgent.publicFieldReports
  exact List.mem_map_of_mem _ hmem

/-! ## Generic finditer/findall drivers over specialised matchers -/

/-- `re.findall`-style count of non-overlapping matches. -/
def scanCount (m : List Char → Option (List Char)) : Nat → List Char → Nat
  | 0, _ => 0
  | _ + 1, [] => 0
  | fuel + 1, c :: tail =>
    match m (c :: tail) with
    | some rest => 1 + scanCount m fuel rest
    | none => scanCount m fuel tail

/-- `re.search`-style existence of a match. -/
def scanExists (m : List Char → Option (List Char)) : Nat → List Char → Bool
  | 0, _ => false
  | _ + 1, [] => false
  | fuel + 1, c :: tail =>
    match m (c :: tail) with
    | some _ => true
    | none => scanExists m fuel tail

/-- `re.findall`-style collection of captures. -/
def scanCollect {α : Type} (m : List Char → Option (α × List Char)) :
    Nat → List Char → List α
  | 0, _ => []
  | _ + 1, [] => []
  | fuel + 1, c :: tail =>
    match m (c :: tail) with
    | some (a, rest) => a :: scanCollect m fuel rest
    | none => scanCollect m fuel tail

/-- `re.finditer`-style collection of captures with match spans. -/
def scanCollectPos {α : Type} (m : List Char → Option (α × List Char)) :
    Nat → Nat → List Char → List (α × Nat × Nat)
  | 0, _, _ => []
  | _ + 1, _, [] => []
  | fuel + 1, pos, c :: tail =>
    match m (c :: tail) with
    | some (a, rest) =>
      (a, pos, pos + ((c :: tail).length - rest.length)) ::
        scanCollectPos m fuel (pos + ((c :: tail).length - rest.length)) rest
    | none => scanCollectPos m fuel (pos + 1) tail

/-- Python `s.split(sep)` for a single-character separator (keeps empties). -/
def pySplitOn (sep : Char) : List Char → List (List Char)
  | [] => [[]]
  | c :: rest =>
    if c = sep then [] :: pySplitOn sep rest
    else
      match pySplitOn sep rest with
      | [] => [[c]]
      | p :: ps => (c :: p) :: ps

/-- Python `s.split()` (whitespace tokens, no empties). -/
def pyWhitespaceSplit : List Char → List (List Char)
  | [] => []
  | c :: rest =>
    if isPySpace c then pyWhitespaceSplit rest
    else
      match pyWhitespaceSplit rest with
      | [] => [[c]]
      | p :: ps =>
        match rest with
        | [] => [[c]]
        | d :: _ => if isPySpace d then [c] :: p :: ps else (c :: p) :: ps

/-! ## MethodSmellAgent (class `MethodSmellAgent` in the source)

Method headers are found with
`(public|private|protected)?\s+\w+\s+(\w+)\s*\(([^)]*)\)\s*\{` and the body is
then carved out by the source's manual brace scan.  That scan seeds
`brace_count = 1` and re-reads the opening brace (`code[i-1]` on the first
iteration), so it only stops at the brace that closes the *enclosing* block
(or at end of input), and the final character read is excluded — the
embedding reproduces this behaviour exactly. -/

structure PyMethod where
  name : String
  body : String
  paramsStr : String
  startPos : Nat
  endPos : Nat
  deriving DecidableEq, Repr

/-- Tail `\s+\w+\s+(\w+)\s*\(([^)]*)\)\s*\{` of the method-header pattern:
returns (name capture, params capture, rest after the brace). -/
def msigTail (s : List Char) : Option ((List Char × List Char) × List Char) :=
  match munch1 isPySpace s with
  | none => none
  | some (_, r1) =>
  match munch1 isPyWord r1 with
  | none => none
  | some (_, r2) =>
  match munch1 isPySpace r2 with
  | none => none
  | some (_, r3) =>
  match munch1 isPyWord r3 with
  | none => none
  | some (mname, r4) =>
  match (span2 isPySpace r4).2 with
  | '(' :: r5 =>
    match (span2 (fun c => !(c = ')')) r5).2 with
    | ')' :: r6 =>
      match (span2 isPySpace r6).2 with
      | '\x7b' :: r7 => some ((mname, (span2 (fun c => !(c = ')')) r5).1), r7)
      | _ => none
    | _ => none
  | _ => none

/-- Full method-header pattern with the optional access-modifier group. -/
def msigMatchAt (s : List Char) : Option ((List Char × List Char) × List Char) :=
  match dropLit "public".data s with
  | some r => match msigTail r with
    | some res => some res
    | none => msigTail s
  | none =>
  match dropLit "private".data s with
  | some r => match msigTail r with
    | some res => some res
    | none => msigTail s
  | none =>
  match dropLit "protected".data s with
  | some r => match msigTail r with
    | some res => some res
    | none => msigTail s
  | none => msigTail s

/-- Number of characters the source's brace loop reads after the opening
brace, starting from `brace_count = 2` (the loop's double-count of `{`);
includes the character that zeroes the count, stops at end of input. -/
def braceReadCount : List Char → Nat → Nat
  | [], _ => 0
  | c :: rest, bc =>
    let bc' := if c = '\x7b' then bc + 1 else if c = '\x7d' then bc - 1 else bc
    if bc' = 0 then 1 else 1 + braceReadCount rest bc'

/-- Embedding of `MethodSmellAgent.detect`'s header scan plus body carving:
for a match ending at the brace at absolute position `bracePos`, Python sets
`mbody = code[bracePos : bracePos + k]` and `i = bracePos + 1 + k` where `k`
is `braceReadCount` of the text after the brace. -/
def extractMethodsAux : Nat → Nat → List Char → List PyMethod
  | 0, _, _ => []
  | _ + 1, _, [] => []
  | fuel + 1, pos, c :: tail =>
    match msigMatchAt (c :: tail) with
    | some ((mname, params), rest) =>
      let len := (c :: tail).length - rest.length
      let k := braceReadCount rest 2
      { name := String.mk mname
        body := String.mk (('\x7b' :: rest).take k)
        paramsStr := String.mk params
        startPos := pos
        endPos := pos + len + k } ::
        extractMethodsAux fuel (pos + len) rest
    | none => extractMethodsAux fuel (pos + 1) tail

def extractMethods (code : String) : List PyMethod :=
  extractMethodsAux code.data.length 0 code.data

def methodCategory : String := "Method-Level Code Smells"

/-- Matcher of `(\w+)\.(\w+)` capturing the object part. -/
def dotRefMatchAt (s : List Char) : Option (List Char × List Char) :=
  match munch1 isPyWord s with
  | none => none
  | some (obj, r1) =>
  match r1 with
  | '.' :: r2 =>
    match munch1 isPyWord r2 with
    | none => none
    | some (_, r3) => some (obj, r3)
  | _ => none

/-- Matcher of `\.[a-zA-Z_][a-zA-Z0-9_]*\(` (message-chain links). -/
def chainMatchAt (s : List Char) : Option (List Char) :=
  match s with
  | '.' :: c :: r1 =>
    if (('a' ≤ c && c ≤ 'z') || ('A' ≤ c && c ≤ 'Z') || c = '_') then
      match (span2 isPyWord r1).2 with
      | '(' :: r2 => some r2
      | _ => none
    else none
  | _ => none

/-- Matcher of `switch\s*\(`. -/
def switchCallMatchAt (s : List Char) : Option (List Char) :=
  match dropLit "switch".data s with
  | none => none
  | some r =>
    match (span2 isPySpace r).2 with
    | '(' :: r2 => some r2
    | _ => none

/-- Matcher of `switch\s*\((\w+)\)` capturing the discriminant. -/
def switchVarMatchAt (s : List Char) : Option (List Char × List Char) :=
  match dropLit "switch".data s with
  | none => none
  | some r =>
  match (span2 isPySpace r).2 with
  | '(' :: r2 =>
    match munch1 isPyWord r2 with
    | none => none
    | some (v, r3) =>
      match r3 with
      | ')' :: r4 => some (v, r4)
      | _ => none
  | _ => none

/-- Core `\w+\.\w+\(.*\);` of the Middle Man line pattern. -/
def mmCore (s : List Char) : Bool :=
  match munch1 isPyWord s with
  | none => false
  | some (_, r1) =>
  match r1 with
  | '.' :: r2 =>
    match munch1 isPyWord r2 with
    | none => false
    | some (_, r3) =>
      match r3 with
      | '(' :: r4 => listContainsSub ");".data r4
      | _ => false
  | _ => false

/-- `re.match(r'(return\s+)?\w+\.\w+\(.*\);', line)` truthiness. -/
def mmMatch (line : List Char) : Bool :=
  match dropLit "return".data line with
  | some r =>
    match munch1 isPySpace r with
    | some (_, r2) => if mmCore r2 then true else mmCore line
    | none => mmCore line
  | none => mmCore line

/-- Matcher of `boolean\s+(\w+)`. -/
def boolVarMatchAt (s : List Char) : Option (List Char × List Char) :=
  match dropLit "boolean".data s with
  | none => none
  | some r =>
  match munch1 isPySpace r with
  | none => none
  | some (_, r1) =>
  match munch1 isPyWord r1 with
  | none => none
  | some (v, r2) => some (v, r2)

/-- Matcher of `{var}\s*=\s*(true|false)` for a concrete variable name. -/
def flagSetMatchAt (v : List Char) (s : List Char) : Option (List Char) :=
  match dropLit v s with
  | none => none
  | some r =>
  match (span2 isPySpace r).2 with
  | '=' :: r1 =>
    match dropLit "true".data ((span2 isPySpace r1).2) with
    | some r2 => some r2
    | none =>
      match dropLit "false".data ((span2 isPySpace r1).2) with
      | some r2 => some r2
      | none => none
  | _ => none

/-- Matcher of `if\s*\(\s*{var}\s*\)` for a concrete variable name. -/
def flagCheckMatchAt (v : List Char) (s : List Char) : Option (List Char) :=
  match dropLit "if".data s with
  | none => none
  | some r =>
  match (span2 isPySpace r).2 with
  | '(' :: r1 =>
    match dropLit v ((span2 isPySpace r1).2) with
    | none => none
    | some r2 =>
      match (span2 isPySpace r2).2 with
      | ')' :: r3 => some r3
      | _ => none
  | _ => none

/-- Matcher of `abstract\s+class\s+(\w+)`. -/
def absClassMatchAt (s : List Char) : Option (List Char × List Char) :=
  match dropLit "abstract".data s with
  | none => none
  | some r =>
  match munch1 isPySpace r with
  | none => none
  | some (_, r1) =>
  match dropLit "class".data r1 with
  | none => none
  | some r2 =>
  match munch1 isPySpace r2 with
  | none => none
  | some (_, r3) =>
  match munch1 isPyWord r3 with
  | none => none
  | some (v, r4) => some (v, r4)

/-- Matcher of `interface\s+(\w+)`. -/
def ifaceNameMatchAt (s : List Char) : Option (List Char × List Char) :=
  match dropLit "interface".data s with
  | none => none
  | some r =>
  match munch1 isPySpace r with
  | none => none
  | some (_, r1) =>
  match munch1 isPyWord r1 with
  | none => none
  | some (v, r2) => some (v, r2)

/-- Matcher of `abstract\s+\w+\s+(\w+)\s*\(`. -/
def absMethodMatchAt (s : List Char) : Option (List Char × List Char) :=
  match dropLit "abstract".data s with
  | none => none
  | some r =>
  match munch1 isPySpace r with
  | none => none
  | some (_, r1) =>
  match munch1 isPyWord r1 with
  | none => none
  | some (_, r2) =>
  match munch1 isPySpace r2 with
  | none => none
  | some (_, r3) =>
  match munch1 isPyWord r3 with
  | none => none
  | some (v, r4) =>
  match (span2 isPySpace r4).2 with
  | '(' :: r5 => some (v, r5)
  | _ => none

def primitiveTypes : List String :=
  ["int", "float", "double", "long", "short", "byte", "boolean", "char", "String"]

/-- `param_types` extraction from the parameter-list capture. -/
def paramTypesOf (paramsStr : String) : List String :=
  ((pySplitOn ',' paramsStr.data).filter
      (fun p => !(pyStrip (String.mk p)).data.isEmpty &&
        (pyWhitespaceSplit p).length > 1)).map
    (fun p => String.mk ((pyWhitespaceSplit p).headD []))

/-- Project statistics dict produced by `compute_project_stats`. -/
structure PStats where
  class_median : ℚ
  method_median : ℚ
  deriving DecidableEq, Repr

/-- Long Method threshold:
`project_stats['method_median']*1.5 if project_stats and
project_stats['method_median'] else 50`. -/
def longMethodThreshold (stats : Option PStats) : ℚ :=
  match stats with
  | some s => if s.method_median = 0 then 50 else s.method_median * 1.5
  | none => 50

/-- The persistent `MethodSmellAgent._method_hashes` dict (md5 of the body,
modelled by the body itself, mapped to the first method name seen). -/
abbrev DupState := List (String × String)

def dupLookup (st : DupState) (k : String) : Option String :=
  match st.find? (fun p => p.1 = k) with
  | some p => some p.2
  | none => none

/-- Deduplication keeping first occurrences (Python `set` cardinality /
`Counter` key order). -/
def firstDedupAux : List String → List String → List String
  | _, [] => []
  | seen, x :: r =>
    if x ∈ seen then firstDedupAux seen r else x :: firstDedupAux (x :: seen) r

def firstDedup (l : List String) : List String := firstDedupAux [] l

def wordRunMatchAt (s : List Char) : Option (List Char × List Char) :=
  munch1 isPyWord s

/-- The per-method block of `MethodSmellAgent.detect` (the body of the
`for m in method_pattern.finditer(code)` loop), with its mutation of the
duplicated-code dict made explicit. -/
def perMethodReports (file_name : String) (stats : Option PStats)
    (st : DupState) (m : PyMethod) : List SmellReport × DupState :=
  let mbody := m.body.data
  let fuelB := mbody.length
  let linesStr := toString m.startPos ++ "-" ++ toString m.endPos
  let objects := firstDedup ((scanCollect dotRefMatchAt fuelB mbody).map String.mk)
  let feR : List SmellReport :=
    if objects.length > 3 then
      [{ file_name := file_name, location := m.name, category := methodCategory
         smell_type := "Feature Envy"
         description := "Method '" ++ m.name ++ "' may be envious of other classes' data."
         lines := linesStr
         confidence := pyMin 1 (((objects.length : ℚ) - 3) / 3 + 1/2)
         refactor := "Yes", suggestion := "Move Method, Reduce External Field Access"
         reason := "Method uses fields of " ++ toString objects.length ++
           " different objects." }]
    else []
  let loc := (pySplitlines m.body).length
  let threshold := longMethodThreshold stats
  let lmR : List SmellReport :=
    if (loc : ℚ) > threshold then
      [{ file_name := file_name, location := m.name, category := methodCategory
         smell_type := "Long Method"
         description := "Method '" ++ m.name ++ "' is very long (" ++
           toString loc ++ " LOC)."
         lines := linesStr
         confidence := pyMin 1 (((loc : ℚ) - threshold) / threshold + 1/2)
         refactor := "Yes", suggestion := "Extract Method, Decompose Logic"
         reason := "LOC=" ++ toString loc ++ ", threshold=" ++ toString threshold }]
    else []
  let params := scanCollect wordRunMatchAt m.paramsStr.data.length m.paramsStr.data
  let lplR : List SmellReport :=
    if params.length > 5 then
      [{ file_name := file_name, location := m.name, category := methodCategory
         smell_type := "Long Parameter List"
         description := "Method '" ++ m.name ++ "' has a long parameter list (" ++
           toString params.length ++ " params)."
         lines := linesStr
         confidence := pyMin 1 (((params.length : ℚ) - 5) / 5 + 1/2)
         refactor := "Yes", suggestion := "Introduce Parameter Object"
         reason := toString params.length ++ " parameters" }]
    else []
  let dupPair : List SmellReport × DupState :=
    match dupLookup st m.body with
    | some prev =>
      ([{ file_name := file_name, location := m.name, category := methodCategory
          smell_type := "Duplicated Code"
          description := "Method '" ++ m.name ++ "' is a duplicate of another method."
          lines := linesStr
          confidence := 1
          refactor := "Yes", suggestion := "Remove Duplicate, Refactor"
          reason := "Method body duplicated with '" ++ prev ++ "'" }], st)
    | none => ([], st ++ [(m.body, m.name)])
  let mcR : List SmellReport :=
    if scanCount chainMatchAt fuelB mbody > 3 then
      [{ file_name := file_name, location := m.name, category := methodCategory
         smell_type := "Message Chains"
         description := "Method '" ++ m.name ++ "' contains a long message chain."
         lines := linesStr
         confidence := 0.8
         refactor := "Maybe", suggestion := "Reduce Chaining, Use Intermediate Variables"
         reason := "Long message chain detected." }]
    else []
  let swR : List SmellReport :=
    if scanExists switchCallMatchAt fuelB mbody then
      [{ file_name := file_name, location := m.name, category := methodCategory
         smell_type := "Switch Statement"
         description := "Method '" ++ m.name ++ "' contains a switch statement."
         lines := linesStr
         confidence := 0.7
         refactor := "Maybe", suggestion := "Replace with Polymorphism"
         reason := "Switch statement present." }]
    else []
  let primitiveCount :=
    ((paramTypesOf m.paramsStr).filter (fun t => t ∈ primitiveTypes)).length
  let poR : List SmellReport :=
    if primitiveCount > 3 then
      [{ file_name := file_name, location := m.name, category := methodCategory
         smell_type := "Primitive Obsession"
         description := "Method '" ++ m.name ++ "' has many primitive parameters."
         lines := linesStr
         confidence := pyMin 1 (((primitiveCount : ℚ) - 3) / 3 + 1/2)
         refactor := "Yes", suggestion := "Use Value Objects, Refactor Params"
         reason := toString primitiveCount ++ " primitive parameters." }]
    else []
  let strippedLines := ((pySplitlines m.body).map pyStrip).filter
    (fun l => !l.data.isEmpty && !("//".data.isPrefixOf l.data))
  let mmR : List SmellReport :=
    if strippedLines.length = 1 && mmMatch (strippedLines.headD "").data then
      [{ file_name := file_name, location := m.name, category := methodCategory
         smell_type := "Middle Man"
         description := "Method '" ++ m.name ++ "' only delegates to another method."
         lines := linesStr
         confidence := 0.9
         refactor := "Maybe", suggestion := "Inline Method, Remove Middle Man"
         reason := "Method only delegates: " ++ strippedLines.headD "" }]
    else []
  (feR ++ lmR ++ lplR ++ dupPair.1 ++ mcR ++ swR ++ poR ++ mmR, dupPair.2)

/-- The method loop threading the duplicated-code dict. -/
def methodLoop (file_name : String) (stats : Option PStats) :
    List PyMethod → DupState → List SmellReport × DupState
  | [], st => ([], st)
  | m :: ms, st =>
    let p := perMethodReports file_name stats st m
    let rest := methodLoop file_name stats ms p.2
    (p.1 ++ rest.1, rest.2)

/-- Repeated Switches section. -/
def repeatedSwitchReports (file_name : String) (ms : List PyMethod) :
    List SmellReport :=
  let switchVars := (ms.map (fun m =>
    (scanCollect switchVarMatchAt m.body.data.length m.body.data).map String.mk)).flatten
  ((firstDedup switchVars).map (fun v => (v, switchVars.count v))).filterMap
    (fun p =>
      if p.2 > 1 then
        some { file_name := file_name, location := p.1, category := methodCategory
               smell_type := "Repeated Switches"
               description := "Multiple switch statements on variable '" ++ p.1 ++ "'."
               lines := "?"
               confidence := pyMin 1 (((p.2 : ℚ) - 1) / 2 + 1/2)
               refactor := "Yes", suggestion := "Replace with Polymorphism, Refactor"
               reason := "Switch on '" ++ p.1 ++ "' appears " ++ toString p.2 ++ " times." }
      else none)

/-- Speculative Generality sections driven by file-level patterns. -/
def speculativeReports (code file_name : String) : List SmellReport :=
  let d := code.data
  let absClasses := scanCollectPos absClassMatchAt d.length 0 d
  let ifaces := scanCollectPos ifaceNameMatchAt d.length 0 d
  let absMethods := scanCollectPos absMethodMatchAt d.length 0 d
  (absClasses.filterMap (fun t =>
    let cname := String.mk t.1
    if pyCountSub code cname = 1 then
      some { file_name := file_name, location := cname, category := methodCategory
             smell_type := "Speculative Generality"
             description := "Abstract class '" ++ cname ++ "' appears unused."
             lines := toString t.2.1 ++ "-" ++ toString t.2.2
             confidence := 0.8
             refactor := "Maybe", suggestion := "Remove or Implement Class"
             reason := "Abstract class '" ++ cname ++ "' not used in file." }
    else none))
  ++ (ifaces.filterMap (fun t =>
    let iname := String.mk t.1
    if pyCountSub code iname = 1 then
      some { file_name := file_name, location := iname, category := methodCategory
             smell_type := "Speculative Generality"
             description := "Interface '" ++ iname ++ "' appears unused."
             lines := toString t.2.1 ++ "-" ++ toString t.2.2
             confidence := 0.8
             refactor := "Maybe", suggestion := "Remove or Implement Interface"
             reason := "Interface '" ++ iname ++ "' not used in file." }
    else none))
  ++ (absMethods.filterMap (fun t =>
    let mname := String.mk t.1
    if pyCountSub code mname = 1 then
      some { file_name := file_name, location := mname, category := methodCategory
             smell_type := "Speculative Generality"
             description := "Abstract method '" ++ mname ++ "' appears unused."
             lines := toString t.2.1 ++ "-" ++ toString t.2.2
             confidence := 0.8
             refactor := "Maybe", suggestion := "Remove or Implement Method"
             reason := "Abstract method '" ++ mname ++ "' not used in file." }
    else none))

/-- Speculatively-named (`hook`/`extension`/`future`) never-called methods. -/
def hookReports (code file_name : String) (ms : List PyMethod) : List SmellReport :=
  ms.filterMap (fun m =>
    if (["hook", "extension", "future"].any
          (fun x => listContainsSub x.data (pyLower m.name).data)) &&
        pyCountSub code m.name = 1 then
      some { file_name := file_name, location := m.name, category := methodCategory
             smell_type := "Speculative Generality"
             description := "Method '" ++ m.name ++ "' appears to be speculative and unused."
             lines := toString m.startPos ++ "-" ++ toString m.endPos
             confidence := 0.7
             refactor := "Maybe", suggestion := "Remove or Use Method"
             reason := "Method '" ++ m.name ++ "' has speculative name and is not called." }
    else none)

/-- Control Flag section. -/
def controlFlagReports (file_name : String) (ms : List PyMethod) : List SmellReport :=
  (ms.map (fun m =>
    let mbody := m.body.data
    let fuelB := mbody.length
    ((scanCollect boolVarMatchAt fuelB mbody).map String.mk).filterMap (fun v =>
      let sets := scanCount (flagSetMatchAt v.data) fuelB mbody
      let checks := scanCount (flagCheckMatchAt v.data) fuelB mbody
      if sets = 1 && checks > 1 then
        some { file_name := file_name, location := m.name, category := methodCategory
               smell_type := "Control Flag"
               description := "Method '" ++ m.name ++ "' uses control flag '" ++ v ++
                 "' for flow control."
               lines := toString m.startPos ++ "-" ++ toString m.endPos
               confidence := pyMin 1 (((checks : ℚ) - 1) / 2 + 1/2)
               refactor := "Maybe"
               suggestion := "Refactor to use break/return, Remove Flag"
               reason := "Boolean flag '" ++ v ++ "' set once, checked " ++
                 toString checks ++ " times." }
      else none))).flatten

/-- `MethodSmellAgent.detect` split at the extraction boundary: the smell
logic applied to an arbitrary extracted method list. -/
def MethodSmellAgent.detectFromMethods (code file_name : String)
    (stats : Option PStats) (st : DupState) (ms : List PyMethod) :
    List SmellReport × DupState :=
  let p := methodLoop file_name stats ms st
  (p.1 ++ repeatedSwitchReports file_name ms ++ speculativeReports code file_name
     ++ hookReports code file_name ms ++ controlFlagReports file_name ms, p.2)

/-- Embedding of `MethodSmellAgent.detect`; `st` is the incoming value of the
class attribute `MethodSmellAgent._method_hashes`, which Python initialises
once per process and never clears. -/
def MethodSmellAgent.detect (code file_name : String) (stats : Option PStats)
    (st : DupState) : List SmellReport × DupState :=
  MethodSmellAgent.detectFromMethods code file_name stats st (extractMethods code)

/-- The Long Method report `perMethodReports` emits for `m`. -/
def longMethodReportOf (file_name : String) (stats : Option PStats)
    (m : PyMethod) : SmellReport :=
  { file_name := file_name, location := m.name, category := methodCategory
    smell_type := "Long Method"
    description := "Method '" ++ m.name ++ "' is very long (" ++
      toString (pySplitlines m.body).length ++ " LOC)."
    lines := toString m.startPos ++ "-" ++ toString m.endPos
    confidence := pyMin 1 ((((pySplitlines m.body).length : ℚ) -
      longMethodThreshold stats) / longMethodThreshold stats + 1/2)
    refactor := "Yes", suggestion := "Extract Method, Decompose Logic"
    reason := "LOC=" ++ toString (pySplitlines m.body).length ++ ", threshold=" ++
      toString (longMethodThreshold stats) }

theorem longMethod_mem_perMethod (file_name : String) (stats : Option PStats)
    (st : DupState) (m : PyMethod)
    (hloc : ((pySplitlines m.body).length : ℚ) > longMethodThreshold stats) :
    longMethodReportOf file_name stats m ∈ (perMethodReports file_name stats st m).1 := by
  unfold perMethodReports
  simp only [gt_iff_lt] at hloc
  refine List.mem_append_left _ (List.mem_append_left _ (List.mem_append_left _
    (List.mem_append_left _ (List.mem_append_left _ (List.mem_append_left _
      (List.mem_append_right _ ?_))))))
  rw [if_pos hloc]
  exact List.mem_singleton.mpr rfl

theorem longMethod_mem_loop (file_name : String) (stats : Option PStats)
    (ms : List PyMethod) (m : PyMethod) (hm : m ∈ ms)
    (hloc : ((pySplitlines m.body).length : ℚ) > longMethodThreshold stats) :
    ∀ st, longMethodReportOf file_name stats m ∈
      (methodLoop file_name stats ms st).1 := by
  induction ms with
  | nil => cases hm
  | cons hd tl ih =>
    intro st
    rcases List.mem_cons.mp hm with rfl | hmem
    · exact List.mem_append_left _ (longMethod_mem_perMethod file_name stats st m hloc)
    · exact List.mem_append_right _ (ih hmem _)

/-- Claim C4: any extracted method whose body line count exceeds the
threshold (1.5 × the project method-median when that median is nonzero,
otherwise the fixed fallback 50) is reported as "Long Method" with
confidence `min(1.0, (LOC − threshold)/threshold + 0.5)`. -/
theorem C4_long_method_threshold (code file_name : String) (stats : Option PStats)
    (st : DupState) (ms : List PyMethod) (m : PyMethod) (hm : m ∈ ms)
    (hloc : ((pySplitlines m.body).length : ℚ) > longMethodThreshold stats) :
    (∀ s, stats = some s → s.method_median ≠ 0 →
      longMethodThreshold stats = s.method_median * 1.5) ∧
    (∀ s, stats = some s → s.method_median = 0 → longMethodThreshold stats = 50) ∧
    ∃ r ∈ (MethodSmellAgent.detectFromMethods code file_name stats st ms).1,
      r.smell_type = "Long Method" ∧ r.location = m.name ∧
      r.confidence = pyMin 1 ((((pySplitlines m.body).length : ℚ) -
        longMethodThreshold stats) / longMethodThreshold stats + 1/2) := by
  refine ⟨?_, ?_, longMethodReportOf file_name stats m, ?_, rfl, rfl, rfl⟩
  · intro s hs hnz
    subst hs
    simp [longMethodThreshold, hnz]
  · intro s hs hz
    subst hs
    simp [longMethodThreshold, hz]
  · unfold MethodSmellAgent.detectFromMethods
    refine List.mem_append_left _ (List.mem_append_left _ (List.mem_append_left _
      (List.mem_append_left _ ?_)))
    exact longMethod_mem_loop file_name stats ms m hm hloc st

/-- An 80-line method body (79 newlines). -/
def body80 : String := String.mk ('\x7b' :: (List.replicate 79 '\n').flatMap (fun c => [c, 'y']))

/-- Witness for C4: the spec scenario — an 80-line body against a
method-median of 40 (threshold 60) is flagged with confidence
`min(1.0, (80-60)/60+0.5) = 5/6`. -/
theorem C4_long_method_threshold_witness :
    ∃ r ∈ (MethodSmellAgent.detectFromMethods "" "A.java" (some ⟨100, 40⟩) []
        [⟨"f", body80, "", 0, 160⟩]).1,
      r.smell_type = "Long Method" ∧ r.location = "f" ∧ r.confidence = 5/6 := by
  have h80 : (pySplitlines body80).length = 80 := by rfl
  have hth : longMethodThreshold (some ⟨100, 40⟩) = 60 := by
    simp [longMethodThreshold]
    norm_num
  obtain ⟨-, -, r, hr, h1, h2, h3⟩ := C4_long_method_threshold "" "A.java"
    (some ⟨100, 40⟩) [] [⟨"f", body80, "", 0, 160⟩] ⟨"f", body80, "", 0, 160⟩
    (List.mem_singleton.mpr rfl)
    (by rw [h80, hth]; norm_num)
  refine ⟨r, hr, h1, h2, ?_⟩
  rw [h3, h80, hth]
  simp [pyMin]
  norm_num

/-- A one-method corpus file for exercising the duplicated-code dict. -/
def dupCode6 : String := "public void foo() \x7b int a = 0; \x7d"

/-- Claim C6 counterexample: running `MethodSmellAgent.detect` twice on the
same unchanged file is not idempotent, because the class attribute
`_method_hashes` persists between runs: the first run emits no
"Duplicated Code" report, the second flags the very same (unique) method as a
duplicate of itself. -/
theorem C6_duplicated_code_state_leak :
    (MethodSmellAgent.detect dupCode6 "A.java" (some ⟨0, 0⟩) []).1.countP
        (fun r => r.smell_type == "Duplicated Code") = 0 ∧
    ((MethodSmellAgent.detect dupCode6 "A.java" (some ⟨0, 0⟩)
        (MethodSmellAgent.detect dupCode6 "A.java" (some ⟨0, 0⟩) []).2).1.countP
        (fun r => r.smell_type == "Duplicated Code") = 1) ∧
    (MethodSmellAgent.detect dupCode6 "A.java" (some ⟨0, 0⟩) []).1 ≠
      (MethodSmellAgent.detect dupCode6 "A.java" (some ⟨0, 0⟩)
        (MethodSmellAgent.detect dupCode6 "A.java" (some ⟨0, 0⟩) []).2).1 := by
  refine ⟨rfl, rfl, ?_⟩
  intro h
  have hc := congrArg (List.countP (fun r => r.smell_type == "Duplicated Code")) h
  rw [show (MethodSmellAgent.detect dupCode6 "A.java" (some ⟨0, 0⟩) []).1.countP
        (fun r => r.smell_type == "Duplicated Code") = 0 from rfl,
      show ((MethodSmellAgent.detect dupCode6 "A.java" (some ⟨0, 0⟩)
        (MethodSmellAgent.detect dupCode6 "A.java" (some ⟨0, 0⟩) []).2).1.countP
        (fun r => r.smell_type == "Duplicated Code")) = 1 from rfl] at hc
  exact absurd hc (by decide)

/-! ## The javalang parse-tree model

`javalang` is an external library; the module only observes whether
`javalang.parse.parse(code)` raised, and the following node features while
walking `for path, node in tree`: the node class name, `position` presence,
and for classes/interfaces their `name`, `extends`, `implements`, `methods`
and `fields`.  A parse outcome is therefore an `Option JTree` oracle
parameter; `none` models a raising parse. -/

structure JStmt where
  hasStatement : Bool
  hasExpression : Bool
  hasBlock : Bool
  hasCondition : Bool
  deriving DecidableEq, Repr

structure JMethod where
  name : String
  /-- Whether `MethodDeclaration.body` is `None` (abstract method); a list
  body never contains a string, so `fname in m.body` is `False` for list
  bodies and a `TypeError` for `None`. -/
  bodyNone : Bool
  deriving DecidableEq, Repr

structure JFieldDecl where
  /-- Names of `field.declarators`. -/
  declarators : List String
  deriving DecidableEq, Repr

inductive JNode where
  | classDecl (name : String) (ext : Option String) (impls : List String)
      (methods : List JMethod) (fields : List JFieldDecl) (posLine : Option Nat)
  | interfaceDecl (name : String) (methods : List JMethod)
      (fields : List JFieldDecl) (posLine : Option Nat)
  | methodDecl (name : String) (body : Option (List JStmt)) (posLine : Option Nat)
  | packageDecl
  | switchStmtNode
  | loopOrIfNode
  | otherNode
  deriving DecidableEq, Repr

abbrev JTree := List JNode

/-- A per-source-text parsing oracle standing for `javalang.parse.parse`. -/
abbrev ParseOracle := String → Option JTree

/-- Python exceptions observable inside the detectors' `try:` blocks. -/
inductive PyExn where
  | nameError
  | typeError
  | zeroDivision
  deriving DecidableEq, Repr

/-! ## ClassSmellAgent (class `ClassSmellAgent` in the source) -/

def classCategory : String := "Class-Level Code Smells"

/-- Python dict assignment `d[k] = v` on an insertion-ordered assoc list. -/
def dictInsert (d : List (String × String)) (k v : String) :
    List (String × String) :=
  if d.any (fun p => p.1 = k) then
    d.map (fun p => if p.1 = k then (k, v) else p)
  else d ++ [(k, v)]

/-- Count of the (buggy) Inappropriate Intimacy pattern `rf'{other}\\.'`,
which matches the class name followed by a literal backslash and any
non-newline character. -/
def intimacyMatchAt (other : List Char) (s : List Char) : Option (List Char) :=
  match dropLit other s with
  | none => none
  | some r =>
    match r with
    | '\\' :: c :: r2 => if c = '\n' then none else some r2
    | _ => none

def countIntimacy (other : String) (code : String) : Nat :=
  scanCount (intimacyMatchAt other.data) code.data.length code.data

/-- The Data-Class / Temporary-Field / Swiss-Army-Knife checks of a class
node, reached once the `methods`/`fields` locals are bound (`mf = some _`);
the Data Class count reads the locals unconditionally, `used` in the
Temporary Field check compares the field name with statement nodes (always
`False`) and raises `TypeError` on a `None` method body. -/
def classStepTail2 (file_name : String) (cname : String) (impls : List String)
    (classNames : List String) (parentMap : List (String × String))
    (mf : Option (List JMethod × List JFieldDecl))
    (ms : List JMethod) (fs : List JFieldDecl) (acc : List SmellReport) :
    List SmellReport × List String × List (String × String) ×
      Option (List JMethod × List JFieldDecl) × Option PyExn :=
  let acc := acc ++
    (if fs.length > 3 ∧ ms.length ≤ 2 then
      [{ file_name := file_name, location := cname, category := classCategory
         smell_type := "Data Class"
         description := "Class '" ++ cname ++
           "' is a Data Class (mostly fields, few methods)."
         lines := "?"
         confidence := 0.8
         refactor := "Yes", suggestion := "Encapsulate Data, Add Behavior"
         reason := "fields=" ++ toString fs.length ++ ", methods=" ++
           toString ms.length }]
    else [])
  -- Temporary Field
  if fs.length ≠ 0 ∧ ms.any (fun m => m.bodyNone) then
    (acc, classNames, parentMap, mf, some PyExn.typeError)
  else
  let acc := acc ++ fs.map (fun f =>
    let fname := match f.declarators.head? with
      | some n => n
      | none => "?"
    { file_name := file_name, location := fname, category := classCategory
      smell_type := "Temporary Field"
      description := "Field '" ++ fname ++ "' is only used in a subset of methods."
      lines := "?"
      confidence := 0.7
      refactor := "Maybe", suggestion := "Move Field, Refactor"
      reason := "Field '" ++ fname ++ "' not used in most methods." })
  -- Swiss Army Knife
  let acc := acc ++
    (if impls ≠ [] ∧ impls.length > 3 then
      [{ file_name := file_name, location := cname, category := classCategory
         smell_type := "Swiss Army Knife"
         description := "Class '" ++ cname ++ "' implements many interfaces."
         lines := "?"
         confidence := pyMin 1 (((impls.length : ℚ) - 3) / 3 + 1/2)
         refactor := "Maybe", suggestion := "Split Responsibilities, Reduce Interfaces"
         reason := "Implements " ++ toString impls.length ++ " interfaces." }]
    else [])
  (acc, classNames, parentMap, mf, none)

/-- Steps Large Class → Lazy Class → Data/Temporary/Swiss tail of the
per-class block of `ClassSmellAgent.detect`; the Data Class check reads the
`fields` local unconditionally, so it raises `NameError` whenever no
`extends` branch has bound it yet. -/
def classNodeStepTail (file_name : String) (st : PStats) (cname : String)
    (impls : List String) (loc : ℚ)
    (classNames : List String) (parentMap : List (String × String))
    (mf : Option (List JMethod × List JFieldDecl)) (acc : List SmellReport) :
    List SmellReport × List String × List (String × String) ×
      Option (List JMethod × List JFieldDecl) × Option PyExn :=
  -- Large Class
  let largeStep : List SmellReport × Option PyExn :=
    if loc > st.class_median * 1.5 then
      if st.class_median = 0 then ([], some PyExn.zeroDivision)
      else
        ([{ file_name := file_name, location := cname, category := classCategory
            smell_type := "Large Class"
            description := "Class '" ++ cname ++ "' is large (" ++
              toString loc ++ " LOC)."
            lines := "?"
            confidence := pyMin 1 ((loc - st.class_median) / st.class_median)
            refactor := "Yes", suggestion := "Extract Class, Reduce Size"
            reason := "LOC=" ++ toString loc ++ ", median LOC=" ++
              toString st.class_median }], none)
    else ([], none)
  let acc := acc ++ largeStep.1
  match largeStep.2 with
  | some e => (acc, classNames, parentMap, mf, some e)
  | none =>
  -- Lazy Class
  let lazyStep : List SmellReport × Option PyExn :=
    if loc < st.class_median * 0.3 then
      match mf with
      | none => ([], some PyExn.nameError)
      | some (ms, _) =>
        if ms.length < 2 then
          ([{ file_name := file_name, location := cname, category := classCategory
              smell_type := "Lazy Class"
              description := "Class '" ++ cname ++
                "' is very small and may not justify its existence."
              lines := "?"
              confidence := 0.9
              refactor := "Yes", suggestion := "Inline Class, Merge with another"
              reason := "LOC=" ++ toString loc ++ ", methods=" ++
                toString ms.length ++ ", median LOC=" ++
                toString st.class_median }], none)
        else ([], none)
    else ([], none)
  let acc := acc ++ lazyStep.1
  match lazyStep.2 with
  | some e => (acc, classNames, parentMap, mf, some e)
  | none =>
  -- Data Class (reads the fields/methods locals unconditionally)
  match mf with
  | none => (acc, classNames, parentMap, mf, some PyExn.nameError)
  | some (ms, fs) =>
    classStepTail2 file_name cname impls classNames parentMap mf ms fs acc

/-- One `ClassDeclaration` iteration of the first loop of
`ClassSmellAgent.detect`: Refused Bequest → Inappropriate Intimacy →
God Class, then the tail checks. -/
def classNodeStep (code file_name : String) (stats : Option PStats)
    (cname : String) (ext : Option String) (impls : List String)
    (nodeMethods : List JMethod) (nodeFields : List JFieldDecl)
    (classNames : List String) (parentMap : List (String × String))
    (mf : Option (List JMethod × List JFieldDecl)) (acc : List SmellReport) :
    List SmellReport × List String × List (String × String) ×
      Option (List JMethod × List JFieldDecl) × Option PyExn :=
  let classNames := if cname ∈ classNames then classNames else classNames ++ [cname]
  let rb : List SmellReport × List (String × String) ×
      Option (List JMethod × List JFieldDecl) :=
    match ext with
    | some parent =>
      (if nodeMethods.length < 2 ∧ nodeFields.length < 2 then
        [{ file_name := file_name, location := cname, category := classCategory
           smell_type := "Refused Bequest"
           description := "Class '" ++ cname ++ "' extends '" ++ parent ++
             "' but does not use much of its inheritance."
           lines := "?"
           confidence := 0.7
           refactor := "Maybe", suggestion := "Review Inheritance, Refactor"
           reason := "Class '" ++ cname ++ "' extends '" ++ parent ++
             "' but has few own members." }]
      else [], dictInsert parentMap cname parent, some (nodeMethods, nodeFields))
    | none => ([], parentMap, mf)
  let acc := acc ++ rb.1
  let parentMap := rb.2.1
  let mf := rb.2.2
  let acc := acc ++ (classNames.filterMap (fun other =>
    if other ≠ cname ∧ countIntimacy other code > 5 then
      some { file_name := file_name, location := cname, category := classCategory
             smell_type := "Inappropriate Intimacy"
             description := "Class '" ++ cname ++ "' is too intimate with '" ++
               other ++ "'."
             lines := "?"
             confidence := 0.8
             refactor := "Yes", suggestion := "Reduce Coupling, Refactor"
             reason := "Class '" ++ cname ++ "' accesses '" ++ other ++
               "' members >5 times." }
    else none))
  match stats with
  | none => (acc, classNames, parentMap, mf, some PyExn.typeError)
  | some st =>
  let loc : ℚ := (pyLoc code : ℚ)
  -- God Class
  if loc > st.class_median * 2 then
    match mf with
    | none => (acc, classNames, parentMap, mf, some PyExn.nameError)
    | some (ms, fs) =>
      if ms.length > 10 ∧ fs.length > 10 then
        if st.class_median = 0 then
          (acc, classNames, parentMap, mf, some PyExn.zeroDivision)
        else
          let acc := acc ++
            [{ file_name := file_name, location := cname, category := classCategory
               smell_type := "God Class"
               description := "Class '" ++ cname ++
                 "' is a God Class (large, many methods/fields)."
               lines := "?"
               confidence := pyMin 1 ((loc - st.class_median) / st.class_median)
               refactor := "Yes", suggestion := "Extract Class, Reduce Responsibilities"
               reason := "LOC=" ++ toString (pyLoc code) ++ ", methods=" ++
                 toString ms.length ++ ", fields=" ++ toString fs.length ++
                 ", median LOC=" ++ toString st.class_median }]
          classNodeStepTail file_name st cname impls loc classNames parentMap mf acc
      else classNodeStepTail file_name st cname impls loc classNames parentMap mf acc
  else classNodeStepTail file_name st cname impls loc classNames parentMap mf acc

/-- The first node loop of `ClassSmellAgent.detect`, threading
`class_names`, `parent_map` and the `methods`/`fields` locals; stops at the
first Python exception, keeping the reports already appended. -/
def classAstLoop (code file_name : String) (stats : Option PStats) :
    List JNode → List String → List (String × String) →
    Option (List JMethod × List JFieldDecl) → List SmellReport →
    List SmellReport × List (String × String) × Option PyExn
  | [], _, parentMap, _, acc => (acc, parentMap, none)
  | node :: rest, classNames, parentMap, mf, acc =>
    match node with
    | .classDecl name ext impls ms fs _ =>
      let r := classNodeStep code file_name stats name ext impls ms fs
        classNames parentMap mf acc
      match r.2.2.2.2 with
      | some e => (r.1, r.2.2.1, some e)
      | none => classAstLoop code file_name stats rest r.2.1 r.2.2.1 r.2.2.2.1 r.1
    | _ => classAstLoop code file_name stats rest classNames parentMap mf acc

/-- Python `name.split('_')[0]`. -/
def underscoreHead (name : String) : String :=
  String.mk (name.data.takeWhile (fun c => !(c = '_')))

/-- The Divergent Change loop (second pass over the tree). -/
def divergentReports (file_name : String) (tree : JTree) : List SmellReport :=
  tree.filterMap (fun node =>
    match node with
    | .classDecl name _ _ ms _ _ =>
      let prefixSet := firstDedup (ms.map (fun m => underscoreHead m.name))
      if prefixSet.length > 5 then
        some { file_name := file_name, location := name, category := classCategory
               smell_type := "Divergent Change"
               description := "Class '" ++ name ++
                 "' may have too many responsibilities."
               lines := "?"
               confidence := 0.7
               refactor := "Maybe", suggestion := "Split Class, Single Responsibility"
               reason := "Class has methods with many different prefixes: " ++
                 toString prefixSet }
      else none
    | _ => none)

/-- The Parallel Inheritance Hierarchies loop (re-parses every other file,
skipping files whose parse raises). -/
def parallelReports (oracle : ParseOracle) (file_name : String)
    (parentMap : List (String × String)) (allFiles : Option (List String))
    (fileContents : Option (List (String × String))) : List SmellReport :=
  match allFiles, fileContents with
  | some af, some fc =>
    if af.isEmpty ∨ fc.isEmpty then [] else
    (fc.map (fun entry =>
      if entry.1 = file_name then [] else
      match oracle entry.2 with
      | none => []
      | some t2 =>
        (t2.map (fun node2 =>
          match node2 with
          | .classDecl name2 (some parent2) _ _ _ _ =>
            parentMap.filterMap (fun pm =>
              if parent2 ≠ pm.2 ∧
                  ((pyLower pm.2).data.take 3).isPrefixOf (pyLower parent2).data then
                some { file_name := entry.1, location := name2
                       category := classCategory
                       smell_type := "Parallel Inheritance Hierarchies"
                       description := "Class '" ++ name2 ++ "' and '" ++ pm.1 ++
                         "' may be part of parallel hierarchies."
                       lines := "?"
                       confidence := 0.7
                       refactor := "Maybe", suggestion := "Review Hierarchies, Refactor"
                       reason := "Class '" ++ name2 ++ "' extends '" ++ parent2 ++
                         "', similar to '" ++ pm.2 ++ "'." }
              else none)
          | _ => [])).flatten)).flatten
  | _, _ => []

/-- Matcher of `class\s+(\w+)[^{]*\{` (regex fallback of the class agent). -/
def classDeclMatchAt (s : List Char) : Option (List Char × List Char) :=
  match dropLit "class".data s with
  | none => none
  | some r =>
  match munch1 isPySpace r with
  | none => none
  | some (_, r1) =>
  match munch1 isPyWord r1 with
  | none => none
  | some (name, r2) =>
  match (span2 (fun c => !(c = '\x7b')) r2).2 with
  | '\x7b' :: r3 => some (name, r3)
  | _ => none

def ifaceClsChar (c : Char) : Bool := isPyWord c || c = ',' || isPySpace c

/-- Matcher of `implements\s+([\w,\s]+)`, including the single backtracking
step `re` takes when only whitespace follows (the capture then keeps the last
whitespace character). -/
def implMatchAt (s : List Char) : Option (List Char × List Char) :=
  match dropLit "implements".data s with
  | none => none
  | some r =>
  match munch1 isPySpace r with
  | none => none
  | some (sp, r1) =>
  match munch1 ifaceClsChar r1 with
  | some (cap, r2) => some (cap, r2)
  | none => if sp.length ≥ 2 then some ([sp.getLastD ' '], r1) else none

/-- First match of a findall (`interfaces[0]` in the source). -/
def scanFirst {α : Type} (m : List Char → Option (α × List Char)) :
    Nat → List Char → Option α
  | 0, _ => none
  | _ + 1, [] => none
  | fuel + 1, c :: tail =>
    match m (c :: tail) with
    | some (a, _) => some a
    | none => scanFirst m fuel tail

/-- The `except`-branch of `ClassSmellAgent.detect`: regex scan for classes,
Swiss Army Knife from the 100-character header before each match. -/
def classRegexFallback (code file_name : String) : List SmellReport :=
  (scanCollectPos classDeclMatchAt code.data.length 0 code.data).filterMap (fun t =>
    let cname := String.mk t.1
    let headerStart := t.2.1 - 100
    let header := (code.data.drop headerStart).take (t.2.1 - headerStart)
    match scanFirst implMatchAt header.length header with
    | some cap =>
      let ifaceList := (((pySplitOn ',' cap).map
        (fun i => pyStrip (String.mk i))).filter (fun i => !i.data.isEmpty))
      if ifaceList.length > 3 then
        some { file_name := file_name, location := cname, category := classCategory
               smell_type := "Swiss Army Knife"
               description := "Class '" ++ cname ++ "' implements many interfaces."
               lines := toString t.2.1 ++ "-" ++ toString t.2.2
               confidence := pyMin 1 (((ifaceList.length : ℚ) - 3) / 3 + 1/2)
               refactor := "Maybe"
               suggestion := "Split Responsibilities, Reduce Interfaces"
               reason := "Implements " ++ toString ifaceList.length ++ " interfaces." }
      else none
    | none => none)

/-- Embedding of `ClassSmellAgent.detect`: the AST path under the oracle,
with every internal exception (including the parse failure itself) diverting
to the regex fallback while keeping the reports already gathered. -/
def ClassSmellAgent.detect (oracle : ParseOracle) (code file_name : String)
    (stats : Option PStats) (allFiles : Option (List String))
    (fileContents : Option (List (String × String))) : List SmellReport :=
  match oracle code with
  | none => classRegexFallback code file_name
  | some tree =>
    let r := classAstLoop code file_name stats tree [] [] none []
    match r.2.2 with
    | some _ => r.1 ++ classRegexFallback code file_name
    | none =>
      r.1 ++ divergentReports file_name tree ++
        parallelReports oracle file_name r.2.1 allFiles fileContents

/-- The claim-C3 scenario file: 300 lines, in a corpus with class-median 100. -/
def code300 : String := String.intercalate "\n" (List.replicate 300 "q")

def methods15 : List JMethod := (List.range 15).map (fun i => ⟨"m" ++ toString i, false⟩)

def fields12 : List JFieldDecl := (List.range 12).map (fun i => ⟨["f" ++ toString i]⟩)

/-- Parse oracle: the file parses to a single 15-method, 12-field class with
no `extends` clause. -/
def tree3 : JTree := [.classDecl "Big" none [] methods15 fields12 (some 1)]

def oracle3 : ParseOracle := fun _ => some tree3

set_option maxRecDepth 40000 in
theorem code300_loc : pyLoc code300 = 300 := by rfl

set_option maxRecDepth 40000 in
/-- Claim C3 failing run: on a 300-LOC file whose single class has 15 methods
and 12 fields (class-median 100) but no `extends` clause, the God Class
condition consults the `methods` local that only the `extends` branch binds,
raises `NameError`, and the detector falls back to the regex path — emitting
no God Class report at all, against the claim's required confidence-1.0
report. -/
theorem C3_god_class_lost_to_name_error :
    ClassSmellAgent.detect oracle3 code300 "Big.java" (some ⟨100, 100⟩)
      none none = [] ∧
    (classAstLoop code300 "Big.java" (some ⟨100, 100⟩) tree3 [] [] none
      []).2.2 = some PyExn.nameError := by
  have hm2 : (100 : ℚ) * 2 = 200 := by norm_num
  have hloop : classAstLoop code300 "Big.java" (some ⟨100, 100⟩) tree3 [] [] none
      [] = ([], [], some PyExn.nameError) := by
    unfold tree3 classAstLoop classNodeStep
    dsimp only
    rw [hm2]
    rfl
  have hfb : classRegexFallback code300 "Big.java" = [] := by rfl
  constructor
  · unfold ClassSmellAgent.detect oracle3
    dsimp only
    rw [hloop]
    dsimp only
    rw [hfb]
    rfl
  · rw [hloop]

/-! ## compute_project_stats (function `compute_project_stats` in the source) -/

/-- Insertion into a sorted list (ascending), used to model the sort behind
`np.median`. -/
def insSorted (x : ℚ) : List ℚ → List ℚ
  | [] => [x]
  | y :: r => if x ≤ y then x :: y :: r else y :: insSorted x r

def insSort : List ℚ → List ℚ
  | [] => []
  | x :: r => insSorted x (insSort r)

/-- `float(np.median(sizes))`: middle element of the ascending sort, or the
mean of the two middle elements for an even count. -/
def pyMedian (l : List ℚ) : ℚ :=
  let s := insSort l
  if l.length % 2 = 1 then s.getD (l.length / 2) 0
  else (s.getD (l.length / 2 - 1) 0 + s.getD (l.length / 2) 0) / 2

theorem mem_insSorted {x a : ℚ} {l : List ℚ} (h : x ∈ insSorted a l) :
    x = a ∨ x ∈ l := by
  induction l with
  | nil => simpa [insSorted] using h
  | cons y r ih =>
    unfold insSorted at h
    split at h
    · rcases List.mem_cons.mp h with h | h
      · exact Or.inl h
      · exact Or.inr h
    · rcases List.mem_cons.mp h with h | h
      · exact Or.inr (List.mem_cons.mpr (Or.inl h))
      · rcases ih h with h | h
        · exact Or.inl h
        · exact Or.inr (List.mem_cons.mpr (Or.inr h))

theorem mem_insSort {x : ℚ} {l : List ℚ} (h : x ∈ insSort l) : x ∈ l := by
  induction l with
  | nil => simp [insSort] at h
  | cons y r ih =>
    unfold insSort at h
    rcases mem_insSorted h with h | h
    · exact h ▸ List.mem_cons_self ..
    · exact List.mem_cons.mpr (Or.inr (ih h))

theorem getD_nonneg {s : List ℚ} (hall : ∀ x ∈ s, 0 ≤ x) (i : Nat) :
    0 ≤ s.getD i 0 := by
  by_cases hi : i < s.length
  · rw [List.getD_eq_getElem s 0 hi]
    exact hall _ (List.getElem_mem hi)
  · rw [List.getD_eq_default s 0 (by omega)]

theorem pyMedian_nonneg {l : List ℚ} (hall : ∀ x ∈ l, 0 ≤ x) : 0 ≤ pyMedian l := by
  have hs : ∀ x ∈ insSort l, 0 ≤ x := fun x hx => hall x (mem_insSort hx)
  unfold pyMedian
  split
  · exact getD_nonneg hs _
  · have h1 := getD_nonneg hs (l.length / 2 - 1)
    have h2 := getD_nonneg hs (l.length / 2)
    positivity

/-- Matcher of `class\s+\w+[^{]*\{[^}]*\}` (DOTALL), the stats fallback for
class sizes. -/
def classStatMatchAt (s : List Char) : Option (List Char) :=
  match dropLit "class".data s with
  | none => none
  | some r =>
  match munch1 isPySpace r with
  | none => none
  | some (_, r1) =>
  match munch1 isPyWord r1 with
  | none => none
  | some (_, r2) =>
  match (span2 (fun c => !(c = '\x7b')) r2).2 with
  | '\x7b' :: r3 =>
    match (span2 (fun c => !(c = '\x7d')) r3).2 with
    | '\x7d' :: r4 => some r4
    | _ => none
  | _ => none

/-- Tail of `(public|private|protected)?\s+\w+\s+\w+\s*\([^)]*\)\s*\{[^}]*\}`. -/
def methodStatTail (s : List Char) : Option (List Char) :=
  match munch1 isPySpace s with
  | none => none
  | some (_, r1) =>
  match munch1 isPyWord r1 with
  | none => none
  | some (_, r2) =>
  match munch1 isPySpace r2 with
  | none => none
  | some (_, r3) =>
  match munch1 isPyWord r3 with
  | none => none
  | some (_, r4) =>
  match (span2 isPySpace r4).2 with
  | '(' :: r5 =>
    match (span2 (fun c => !(c = ')')) r5).2 with
    | ')' :: r6 =>
      match (span2 isPySpace r6).2 with
      | '\x7b' :: r7 =>
        match (span2 (fun c => !(c = '\x7d')) r7).2 with
        | '\x7d' :: r8 => some r8
        | _ => none
      | _ => none
    | _ => none
  | _ => none

/-- The stats method pattern with its optional access-modifier group. -/
def methodStatMatchAt (s : List Char) : Option (List Char) :=
  match dropLit "public".data s with
  | some r => match methodStatTail r with
    | some res => some res
    | none => methodStatTail s
  | none =>
  match dropLit "private".data s with
  | some r => match methodStatTail r with
    | some res => some res
    | none => methodStatTail s
  | none =>
  match dropLit "protected".data s with
  | some r => match methodStatTail r with
    | some res => some res
    | none => methodStatTail s
  | none => methodStatTail s

/-- finditer collecting the full matched texts. -/
def scanMatchTexts (m : List Char → Option (List Char)) :
    Nat → List Char → List (List Char)
  | 0, _ => []
  | _ + 1, [] => []
  | fuel + 1, c :: tail =>
    match m (c :: tail) with
    | some rest =>
      ((c :: tail).take ((c :: tail).length - rest.length)) ::
        scanMatchTexts m fuel rest
    | none => scanMatchTexts m fuel tail

/-- Class/method size samples contributed by one file. -/
def statSizesOfFile (oracle : ParseOracle) (code : String) : List ℚ × List ℚ :=
  match oracle code with
  | some tree =>
    (tree.filterMap (fun n => match n with
        | .classDecl _ _ _ _ _ (some _) => some ((pyLoc code : ℚ))
        | _ => none),
     tree.filterMap (fun n => match n with
        | .methodDecl _ _ (some _) => some ((pyLoc code : ℚ))
        | _ => none))
  | none =>
    ((scanMatchTexts classStatMatchAt code.data.length code.data).map
        (fun t => ((pySplitlines (String.mk t)).length : ℚ)),
     (scanMatchTexts methodStatMatchAt code.data.length code.data).map
        (fun t => ((pySplitlines (String.mk t)).length : ℚ)))

/-- Embedding of `compute_project_stats`. -/
def compute_project_stats (oracle : ParseOracle) (all_files : List String)
    (file_contents : List (String × String)) : PStats :=
  let sizes := all_files.foldl (fun (acc : List ℚ × List ℚ) fname =>
    let code := ((file_contents.find? (fun p => p.1 = fname)).map
      (fun p => p.2)).getD ""
    let p := statSizesOfFile oracle code
    (acc.1 ++ p.1, acc.2 ++ p.2)) ([], [])
  ⟨if sizes.1.isEmpty then 0 else pyMedian sizes.1,
   if sizes.2.isEmpty then 0 else pyMedian sizes.2⟩

/-- Every size sample a file contributes is a count, hence nonnegative. -/
theorem statSizes_nonneg (oracle : ParseOracle) (code : String) :
    (∀ x ∈ (statSizesOfFile oracle code).1, 0 ≤ x) ∧
    (∀ x ∈ (statSizesOfFile oracle code).2, 0 ≤ x) := by
  unfold statSizesOfFile
  cases oracle code with
  | none =>
    constructor <;> intro x hx <;>
      obtain ⟨t, -, rfl⟩ := List.mem_map.mp hx <;> exact Nat.cast_nonneg _
  | some tree =>
    constructor <;> intro x hx <;>
      obtain ⟨n, -, hn⟩ := List.mem_filterMap.mp hx <;>
      (split at hn
       · rw [Option.some.injEq] at hn
         subst hn
         exact Nat.cast_nonneg _
       · exact Option.noConfusion hn)

/-- Nonnegativity of the computed medians (every size sample is a count). -/
theorem compute_project_stats_nonneg (oracle : ParseOracle)
    (all_files : List String) (file_contents : List (String × String)) :
    0 ≤ (compute_project_stats oracle all_files file_contents).class_median ∧
    0 ≤ (compute_project_stats oracle all_files file_contents).method_median := by
  have key : ∀ (init : List ℚ × List ℚ),
      (∀ x ∈ init.1, 0 ≤ x) → (∀ x ∈ init.2, 0 ≤ x) →
      (∀ x ∈ (all_files.foldl (fun (acc : List ℚ × List ℚ) fname =>
        let code := ((file_contents.find? (fun p => p.1 = fname)).map
          (fun p => p.2)).getD ""
        let p := statSizesOfFile oracle code
        (acc.1 ++ p.1, acc.2 ++ p.2)) init).1, 0 ≤ x) ∧
      (∀ x ∈ (all_files.foldl (fun (acc : List ℚ × List ℚ) fname =>
        let code := ((file_contents.find? (fun p => p.1 = fname)).map
          (fun p => p.2)).getD ""
        let p := statSizesOfFile oracle code
        (acc.1 ++ p.1, acc.2 ++ p.2)) init).2, 0 ≤ x) := by
    induction all_files with
    | nil => intro init h1 h2; exact ⟨h1, h2⟩
    | cons f rest ih =>
      intro init h1 h2
      rw [List.foldl_cons]
      apply ih
      · intro x hx
        rcases List.mem_append.mp hx with hx | hx
        · exact h1 x hx
        · exact (statSizes_nonneg oracle _).1 x hx
      · intro x hx
        rcases List.mem_append.mp hx with hx | hx
        · exact h2 x hx
        · exact (statSizes_nonneg oracle _).2 x hx
  obtain ⟨k1, k2⟩ := key ([], []) (by simp) (by simp)
  unfold compute_project_stats
  constructor
  · dsimp only
    split
    · exact le_refl 0
    · exact pyMedian_nonneg k1
  · dsimp only
    split
    · exact le_refl 0
    · exact pyMedian_nonneg k2

def codeZ : String := "class A extends B \x7b\x7d"

def treeZ : JTree := [.classDecl "A" (some "B") [] [] [] (some 1)]

def oracleZ : ParseOracle := fun _ => some treeZ

theorem classAstLoop_codeZ_zeroDiv :
    (classAstLoop codeZ "A.java" (some ⟨0, 0⟩) treeZ [] [] none []).2.2 =
      some PyExn.zeroDivision := by
  unfold treeZ classAstLoop classNodeStep classNodeStepTail
  dsimp only
  rw [show ((0 : ℚ) * 2) = 0 from by norm_num,
      show ((0 : ℚ) * 1.5) = 0 from by norm_num]
  rfl

/-- Claim C7 counterexample: the class-level detector has no median-zero
fallback — handed a zero class-median and an AST-parsed class, its Large
Class confidence divides by the median and raises `ZeroDivisionError`
(instead of using a fixed fallback constant as the claim states every
median-derived detector does). -/
theorem C7_class_agent_divides_by_zero_median :
    (classAstLoop codeZ "A.java" (some ⟨0, 0⟩) treeZ [] [] none []).2.2 =
      some PyExn.zeroDivision := classAstLoop_codeZ_zeroDiv

/-- Claim C7 as amended: (a) an empty corpus yields medians 0; (b) the
method-level detector's median-derived threshold falls back to the constant
50 when the method-median is 0; (c) any exception the class-level detector's
AST path raises (including its zero-median `ZeroDivisionError`) is caught by
its own handler, which switches to the regex fallback — so no
division-by-zero exception propagates to the caller. -/
theorem C7_zero_median_guard :
    (∀ oracle : ParseOracle, compute_project_stats oracle [] [] = ⟨0, 0⟩) ∧
    (∀ s : PStats, s.method_median = 0 → longMethodThreshold (some s) = 50) ∧
    (∀ (oracle : ParseOracle) (code fn : String) (stats : Option PStats)
       (af : Option (List String)) (fc : Option (List (String × String)))
       (tree : JTree) (e : PyExn),
      oracle code = some tree →
      (classAstLoop code fn stats tree [] [] none []).2.2 = some e →
      ClassSmellAgent.detect oracle code fn stats af fc =
        (classAstLoop code fn stats tree [] [] none []).1 ++
          classRegexFallback code fn) := by
  refine ⟨fun _ => rfl, ?_, ?_⟩
  · intro s hz
    simp [longMethodThreshold, hz]
  · intro oracle code fn stats af fc tree e ho he
    unfold ClassSmellAgent.detect
    rw [ho]
    dsimp only
    rw [he]

/-- Witness for the amended C7 at the zero-median input: the
`ZeroDivisionError` is raised internally and caught, and the run still
returns a plain report list. -/
theorem C7_zero_median_guard_witness :
    longMethodThreshold (some ⟨0, 0⟩) = 50 ∧
    ClassSmellAgent.detect oracleZ codeZ "A.java" (some ⟨0, 0⟩) none none =
      (classAstLoop codeZ "A.java" (some ⟨0, 0⟩) treeZ [] [] none []).1 ++
        classRegexFallback codeZ "A.java" := by
  constructor
  · exact C7_zero_median_guard.2.1 ⟨0, 0⟩ rfl
  · exact C7_zero_median_guard.2.2 oracleZ codeZ "A.java" (some ⟨0, 0⟩) none none
      treeZ PyExn.zeroDivision rfl classAstLoop_codeZ_zeroDiv

/-! ## ArchitectureSmellAgent (class `ArchitectureSmellAgent` in the source) -/

def archCategory : String := "Architecture-Level Code Smells"

/-- Matcher of `import\s+([\w\.]+);`. -/
def importMatchAt (s : List Char) : Option (List Char × List Char) :=
  match dropLit "import".data s with
  | none => none
  | some r =>
  match munch1 isPySpace r with
  | none => none
  | some (_, r1) =>
  match munch1 (fun c => isPyWord c || c = '.') r1 with
  | none => none
  | some (imp, r2) =>
  match r2 with
  | ';' :: r3 => some (imp, r3)
  | _ => none

def importsOf (code : String) : List String :=
  (scanCollect importMatchAt code.data.length code.data).map String.mk

/-- `import_graph = {fname: set(imports)}` in corpus (dict) order. -/
def buildImportGraph (file_contents : List (String × String)) :
    List (String × List String) :=
  file_contents.map (fun p => (p.1, firstDedup (importsOf p.2)))

def graphDeps (g : List (String × List String)) (v : String) : List String :=
  (((g.find? (fun p => p.1 = v)).map (fun p => p.2))).getD []

/-- `next((f for f in graph if f.endswith(dep.replace('.','/')+'.java')), None)`. -/
def resolveDep (g : List (String × List String)) (dep : String) : Option String :=
  ((g.find? (fun p =>
    (String.mk (dep.data.map (fun c => if c = '.' then '/' else c)) ++
      ".java").data.isSuffixOf p.1.data)).map (fun p => p.1))

structure DfsSt where
  visited : List String
  stack : List String
  deriving Repr

/-- The dependency loop inside `has_cycle`, parametric in the recursive call. -/
def visitDeps (g : List (String × List String))
    (f : String → DfsSt → Bool × DfsSt) :
    List String → DfsSt → Bool × DfsSt
  | [], st => (false, st)
  | d :: rest, st =>
    match resolveDep g d with
    | none => visitDeps g f rest st
    | some df =>
      if df ∈ st.visited then
        if df ∈ st.stack then (true, st) else visitDeps g f rest st
      else
        match f df st with
        | (true, st') => (true, st')
        | (false, st') => visitDeps g f rest st'

/-- `has_cycle`'s recursion, fuelled (each recursive call visits an
unvisited node, so `|graph| + 1` fuel is enough; exhausted fuel returns
`False`, which only makes the soundness theorem stronger). -/
def hcAux : Nat → List (String × List String) → String → DfsSt → Bool × DfsSt
  | 0, _, _, st => (false, st)
  | n + 1, g, v, st =>
    let st1 : DfsSt := ⟨v :: st.visited, v :: st.stack⟩
    match visitDeps g (hcAux n g) (graphDeps g v) st1 with
    | (true, st') => (true, st')
    | (false, st') => (false, ⟨st'.visited, st'.stack.erase v⟩)

def has_cycle (g : List (String × List String)) (start : String) : Bool :=
  (hcAux (g.length + 1) g start ⟨[], []⟩).1

/-- Matcher of `package\s+([\w\.]+);`. -/
def packageMatchAt (s : List Char) : Option (List Char × List Char) :=
  match dropLit "package".data s with
  | none => none
  | some r =>
  match munch1 isPySpace r with
  | none => none
  | some (_, r1) =>
  match munch1 (fun c => isPyWord c || c = '.') r1 with
  | none => none
  | some (pkg, r2) =>
  match r2 with
  | ';' :: r3 => some (pkg, r3)
  | _ => none

/-- Matcher of `import\s+{re.escape(package_name)}[\.;]`. -/
def importPkgMatchAt (pkg : List Char) (s : List Char) : Option (List Char) :=
  match dropLit "import".data s with
  | none => none
  | some r =>
  match munch1 isPySpace r with
  | none => none
  | some (_, r1) =>
  match dropLit pkg r1 with
  | none => none
  | some r2 =>
  match r2 with
  | '.' :: r3 => some r3
  | ';' :: r3 => some r3
  | _ => none

/-- Matcher of `(class|interface)\s+(\w+)[^{]*\{`. -/
def classIfaceMatchAt (s : List Char) : Option (List Char × List Char) :=
  let tail := fun (r : List Char) =>
    match munch1 isPySpace r with
    | none => none
    | some (_, r1) =>
    match munch1 isPyWord r1 with
    | none => none
    | some (cname, r2) =>
    match (span2 (fun c => !(c = '\x7b')) r2).2 with
    | '\x7b' :: r3 => some (cname, r3)
    | _ => none
  match dropLit "class".data s with
  | some r => tail r
  | none =>
    match dropLit "interface".data s with
    | some r => tail r
    | none => none

def ambiguousNames : List String := ["Service", "Manager", "Processor", "Handler", "Util"]

/-- Python `path.startswith(prefix)`. -/
def pyStartsWith (s p : String) : Bool := p.data.isPrefixOf s.data

def pkgSlash (pkg : String) : String :=
  String.mk (pkg.data.map (fun c => if c = '.' then '/' else c))

/-- Embedding of `ArchitectureSmellAgent.detect` (its `all_files` parameter
is unused by the source). -/
def ArchitectureSmellAgent.detect (code file_name : String)
    (file_contents : List (String × String)) : List SmellReport :=
  let import_graph := buildImportGraph file_contents
  let cyclicR : List SmellReport :=
    if has_cycle import_graph file_name then
      [{ file_name := file_name, location := file_name, category := archCategory
         smell_type := "Cyclic Dependency"
         description := "File '" ++ file_name ++ "' is part of a cyclic dependency."
         lines := "?"
         confidence := 1
         refactor := "Yes", suggestion := "Refactor dependencies, decouple modules"
         reason := "Import cycle detected in project." }]
    else []
  let pkg? := scanFirst packageMatchAt code.data.length code.data
  let gpR : List SmellReport :=
    match pkg? with
    | none => []
    | some pkg =>
      let package_name := String.mk pkg
      let class_count := (file_contents.filter (fun p =>
        p.1 ≠ file_name ∧ pyStartsWith p.1 (pkgSlash package_name))).length
      if class_count > 10 then
        [{ file_name := file_name, location := package_name, category := archCategory
           smell_type := "God Package"
           description := "Package '" ++ package_name ++ "' contains too many classes."
           lines := "?"
           confidence := pyMin 1 (((class_count : ℚ) - 10) / 10 + 1/2)
           refactor := "Yes", suggestion := "Split Package, Modularize"
           reason := "Package '" ++ package_name ++ "' has " ++
             toString class_count ++ " classes." }]
      else []
  let udR : List SmellReport :=
    match pkg? with
    | none => []
    | some pkg =>
      let package_name := String.mk pkg
      let outgoing := firstDedup ((file_contents.filter (fun p =>
        pyStartsWith p.1 (pkgSlash package_name))).map (fun p => importsOf p.2)).flatten
      let incoming := (file_contents.filter (fun p =>
        !(pyStartsWith p.1 (pkgSlash package_name)) &&
          scanExists (importPkgMatchAt package_name.data) p.2.data.length
            p.2.data)).map (fun p => p.1)
      if outgoing.length > 5 ∧ incoming.length < 2 then
        [{ file_name := file_name, location := package_name, category := archCategory
           smell_type := "Unstable Dependency"
           description := "Package '" ++ package_name ++
             "' is unstable (many outgoing, few incoming dependencies)."
           lines := "?"
           confidence := 0.8
           refactor := "Maybe", suggestion := "Refactor dependencies, stabilize package"
           reason := "Package '" ++ package_name ++ "' depends on " ++
             toString outgoing.length ++ " others, but only " ++
             toString incoming.length ++ " depend on it." }]
      else []
  let ambR : List SmellReport :=
    (scanCollect classIfaceMatchAt code.data.length code.data).filterMap (fun cn =>
      let cname := String.mk cn
      if ambiguousNames.any (fun x =>
          listContainsSub (pyLower x).data (pyLower cname).data) then
        let method_count := (scanCollect msigMatchAt code.data.length code.data).length
        if method_count < 3 then
          some { file_name := file_name, location := cname, category := archCategory
                 smell_type := "Ambiguous Service"
                 description := "Class/interface '" ++ cname ++
                   "' may be an ambiguous service."
                 lines := "?"
                 confidence := 0.7
                 refactor := "Maybe", suggestion := "Rename or clarify responsibility"
                 reason := "Class/interface '" ++ cname ++
                   "' has ambiguous name and few methods." }
        else none
      else none)
  let avR : List SmellReport :=
    match pkg? with
    | none => []
    | some pkg =>
      let package_name := String.mk pkg
      if (listContainsSub "controller".data package_name.data ∧
            listContainsSub "service".data code.data) ∨
          (listContainsSub "service".data package_name.data ∧
            listContainsSub "dao".data code.data) then
        [{ file_name := file_name, location := package_name, category := archCategory
           smell_type := "Architecture Violation"
           description := "Class in package '" ++ package_name ++
             "' may violate architecture layering."
           lines := "?"
           confidence := 0.8
           refactor := "Yes", suggestion := "Refactor to respect layering"
           reason := "Class in package '" ++ package_name ++
             "' references lower/higher layer." }]
      else []
  cyclicR ++ gpR ++ udR ++ ambR ++ avR

/-- The resolved import-edge relation of the corpus graph. -/
def EdgeB (g : List (String × List String)) (v w : String) : Bool :=
  (graphDeps g v).any (fun d => decide (resolveDep g d = some w))

def Reach (g : List (String × List String)) (a b : String) : Prop :=
  Relation.ReflTransGen (fun x y => EdgeB g x y = true) a b

/-- Existence of a (nonempty) directed cycle in the resolved import graph. -/
def CycleEx (g : List (String × List String)) : Prop :=
  ∃ a b, EdgeB g a b = true ∧ Reach g b a

theorem visitDeps_pres (g : List (String × List String))
    (f : String → DfsSt → Bool × DfsSt)
    (hfp : ∀ df st', (f df st').1 = false → (f df st').2.stack = st'.stack) :
    ∀ (deps : List String) (st : DfsSt),
      (visitDeps g f deps st).1 = false →
      (visitDeps g f deps st).2.stack = st.stack := by
  intro deps
  induction deps with
  | nil => intro st _; rfl
  | cons d rest ih =>
    intro st hres
    unfold visitDeps at hres ⊢
    cases hr : resolveDep g d with
    | none =>
      simp only [hr] at hres
      dsimp only
      exact ih st hres
    | some df =>
      simp only [hr] at hres
      dsimp only
      by_cases hvis : df ∈ st.visited
      · rw [if_pos hvis] at hres ⊢
        by_cases hstk : df ∈ st.stack
        · rw [if_pos hstk] at hres; exact absurd hres (by simp)
        · rw [if_neg hstk] at hres ⊢
          exact ih st hres
      · rw [if_neg hvis] at hres ⊢
        cases hfd : f df st with
        | mk b st' =>
          simp only [hfd] at hres
          cases b with
          | true => exact absurd hres (by simp)
          | false =>
            have hpre : st'.stack = st.stack := by
              have hx := hfp df st
              rw [hfd] at hx
              exact hx rfl
            rw [ih st' hres, hpre]

theorem hcAux_pres (g : List (String × List String)) :
    ∀ (n : Nat) (v : String) (st : DfsSt),
      (hcAux n g v st).1 = false → (hcAux n g v st).2.stack = st.stack := by
  intro n
  induction n with
  | zero => intro v st _; rfl
  | succ n ih =>
    intro v st hres
    unfold hcAux at hres ⊢
    dsimp only at hres ⊢
    rcases hv : visitDeps g (hcAux n g) (graphDeps g v)
        ⟨v :: st.visited, v :: st.stack⟩ with ⟨b, st'⟩
    cases b with
    | true => simp [hv] at hres
    | false =>
      have hpre : st'.stack = v :: st.stack := by
        have hx := visitDeps_pres g (hcAux n g)
          (fun df st' => ih df st') (graphDeps g v) ⟨v :: st.visited, v :: st.stack⟩
        rw [hv] at hx
        exact hx rfl
      simp [hv, hpre, List.erase_cons_head]

theorem visitDeps_sound (g : List (String × List String)) (v : String)
    (f : String → DfsSt → Bool × DfsSt)
    (hf : ∀ df st', (∀ s ∈ st'.stack, Reach g s df) →
      (f df st').1 = true → CycleEx g)
    (hfp : ∀ df st', (f df st').1 = false → (f df st').2.stack = st'.stack) :
    ∀ (deps : List String) (st : DfsSt),
      (∀ d ∈ deps, d ∈ graphDeps g v) →
      (∀ s ∈ st.stack, Reach g s v) →
      (visitDeps g f deps st).1 = true → CycleEx g := by
  intro deps
  induction deps with
  | nil => intro st _ _ hres; exact absurd hres (by simp [visitDeps])
  | cons d rest ih =>
    intro st hdeps hstack hres
    unfold visitDeps at hres
    cases hr : resolveDep g d with
    | none =>
      simp only [hr] at hres
      exact ih st (fun x hx => hdeps x (List.mem_cons_of_mem _ hx)) hstack hres
    | some df =>
      simp only [hr] at hres
      have hedge : EdgeB g v df = true := by
        unfold EdgeB
        rw [List.any_eq_true]
        exact ⟨d, hdeps d (List.mem_cons_self ..), by rw [hr]; exact decide_eq_true rfl⟩
      by_cases hvis : df ∈ st.visited
      · rw [if_pos hvis] at hres
        by_cases hstk : df ∈ st.stack
        · exact ⟨v, df, hedge, hstack df hstk⟩
        · rw [if_neg hstk] at hres
          exact ih st (fun x hx => hdeps x (List.mem_cons_of_mem _ hx)) hstack hres
      · rw [if_neg hvis] at hres
        cases hfd : f df st with
        | mk b st' =>
          simp only [hfd] at hres
          cases b with
          | true =>
            refine hf df st (fun s hs => ?_) (by rw [hfd])
            exact Relation.ReflTransGen.tail (hstack s hs) hedge
          | false =>
            have hpre : st'.stack = st.stack := by
              have hx := hfp df st
              rw [hfd] at hx
              exact hx rfl
            refine ih st' (fun x hx => hdeps x (List.mem_cons_of_mem _ hx))
              (fun s hs => hstack s (by rwa [hpre] at hs)) hres

theorem hcAux_sound (g : List (String × List String)) :
    ∀ (n : Nat) (v : String) (st : DfsSt),
      (∀ s ∈ st.stack, Reach g s v) →
      (hcAux n g v st).1 = true → CycleEx g := by
  intro n
  induction n with
  | zero => intro v st _ hres; exact absurd hres (by simp [hcAux])
  | succ n ih =>
    intro v st hstack hres
    unfold hcAux at hres
    dsimp only at hres
    rcases hv : visitDeps g (hcAux n g) (graphDeps g v)
        ⟨v :: st.visited, v :: st.stack⟩ with ⟨b, st'⟩
    cases b with
    | false => simp [hv] at hres
    | true =>
      refine visitDeps_sound g v (hcAux n g)
        (fun df st' hs ht => ih df st' hs ht)
        (fun df st' hf => hcAux_pres g n df st' hf)
        (graphDeps g v) ⟨v :: st.visited, v :: st.stack⟩
        (fun x hx => hx) ?_ (by rw [hv])
      intro s hs
      rcases List.mem_cons.mp hs with rfl | hs
      · exact Relation.ReflTransGen.refl
      · exact hstack s hs

/-- `has_cycle` only answers `True` when the resolved import graph really
contains a directed cycle. -/
theorem has_cycle_sound (g : List (String × List String)) (start : String)
    (h : has_cycle g start = true) : CycleEx g :=
  hcAux_sound g (g.length + 1) start ⟨[], []⟩ (by intro s hs; cases hs) h

def contents8 : List (String × String) :=
  [("A.java", "import B;"), ("B.java", "import C;"), ("C.java", "import A;")]

/-- Claim C8: on the corpus whose import edges form A→B→C→A the detector
reports each file as part of a cyclic dependency exactly once; and on any
corpus whose resolved import graph is acyclic, `has_cycle` answers `False`
for every file and no "Cyclic Dependency" report is produced. -/
theorem C8_cycle_detection
    (fc : List (String × String)) (code fn : String)
    (hdag : ¬ CycleEx (buildImportGraph fc)) :
    ((ArchitectureSmellAgent.detect "import B;" "A.java" contents8).countP
        (fun r => r.smell_type == "Cyclic Dependency") = 1 ∧
     (ArchitectureSmellAgent.detect "import C;" "B.java" contents8).countP
        (fun r => r.smell_type == "Cyclic Dependency") = 1 ∧
     (ArchitectureSmellAgent.detect "import A;" "C.java" contents8).countP
        (fun r => r.smell_type == "Cyclic Dependency") = 1) ∧
    has_cycle (buildImportGraph fc) fn = false ∧
    (ArchitectureSmellAgent.detect code fn fc).countP
      (fun r => r.smell_type == "Cyclic Dependency") = 0 := by
  have hcyc : has_cycle (buildImportGraph fc) fn = false := by
    by_contra h
    rw [Bool.not_eq_false] at h
    exact hdag (has_cycle_sound _ _ h)
  refine ⟨⟨rfl, rfl, rfl⟩, hcyc, ?_⟩
  apply List.countP_eq_zero.mpr
  intro r hr
  unfold ArchitectureSmellAgent.detect at hr
  dsimp only at hr
  rw [hcyc] at hr
  simp only [Bool.false_eq_true, if_false, List.nil_append] at hr
  rcases List.mem_append.mp hr with hr | hr
  · rcases List.mem_append.mp hr with hr | hr
    · rcases List.mem_append.mp hr with hr | hr
      · -- God Package section
        cases hp : scanFirst packageMatchAt code.data.length code.data with
        | none => rw [hp] at hr; cases hr
        | some pkg =>
          rw [hp] at hr
          dsimp only at hr
          split at hr
          · rcases List.mem_singleton.mp hr with rfl
            simp
          · cases hr
      · -- Unstable Dependency section
        cases hp : scanFirst packageMatchAt code.data.length code.data with
        | none => rw [hp] at hr; cases hr
        | some pkg =>
          rw [hp] at hr
          dsimp only at hr
          split at hr
          · rcases List.mem_singleton.mp hr with rfl
            simp
          · cases hr
    · -- Ambiguous Service section
      rcases List.mem_filterMap.mp hr with ⟨cn, _, hsome⟩
      split at hsome
      · split at hsome
        · rw [Option.some.injEq] at hsome
          subst hsome
          simp
        · exact Option.noConfusion hsome
      · exact Option.noConfusion hsome
  · -- Architecture Violation section
    cases hp : scanFirst packageMatchAt code.data.length code.data with
    | none => rw [hp] at hr; cases hr
    | some pkg =>
      rw [hp] at hr
      dsimp only at hr
      split at hr
      · rcases List.mem_singleton.mp hr with rfl
        simp
      · cases hr

/-- Witness for C8's acyclicity hypothesis: a two-file DAG (A imports B). -/
theorem C8_cycle_detection_witness :
    has_cycle (buildImportGraph [("A.java", "import B;"), ("B.java", "")])
      "A.java" = false ∧
    (ArchitectureSmellAgent.detect "import B;" "A.java"
      [("A.java", "import B;"), ("B.java", "")]).countP
      (fun r => r.smell_type == "Cyclic Dependency") = 0 := by
  have hedge : ∀ v w, EdgeB (buildImportGraph
      [("A.java", "import B;"), ("B.java", "")]) v w = true →
      v = "A.java" ∧ w = "B.java" := by
    intro v w h
    unfold EdgeB graphDeps buildImportGraph at h
    by_cases hv : v = "A.java"
    · subst hv
      constructor
      · rfl
      · rw [show (List.find? (fun p => p.1 = "A.java")
          (List.map (fun p => (p.1, firstDedup (importsOf p.2)))
            [("A.java", "import B;"), ("B.java", "")])) =
          some ("A.java", ["B"]) from rfl] at h
        simp only [Option.map_some, Option.getD_some, List.any_eq_true] at h
        obtain ⟨d, hd, hdec⟩ := h
        rcases List.mem_singleton.mp hd with rfl
        have := of_decide_eq_true hdec
        rw [show resolveDep (List.map (fun p => (p.1, firstDedup (importsOf p.2)))
          [("A.java", "import B;"), ("B.java", "")]) "B" =
          some "B.java" from rfl] at this
        exact (Option.some.injEq .. ▸ this).symm
    · exfalso
      by_cases hv2 : v = "B.java"
      · subst hv2
        rw [show (List.find? (fun p => p.1 = "B.java")
          (List.map (fun p => (p.1, firstDedup (importsOf p.2)))
            [("A.java", "import B;"), ("B.java", "")])) =
          some ("B.java", []) from rfl] at h
        simp at h
      · rw [List.find?_eq_none.mpr ?_] at h
        · simp at h
        · intro p hp
          simp only [List.map_cons, List.map_nil, List.mem_cons,
            List.mem_singleton] at hp
          rcases hp with rfl | hp
          · simp only [decide_eq_true_eq]
            intro he
            exact hv he.symm
          · rcases hp with rfl | hp
            · simp only [decide_eq_true_eq]
              intro he
              exact hv2 he.symm
            · cases hp
  have hdag : ¬ CycleEx (buildImportGraph
      [("A.java", "import B;"), ("B.java", "")]) := by
    rintro ⟨a, b, he, hrab⟩
    obtain ⟨rfl, rfl⟩ := hedge _ _ he
    rcases hrab.cases_head with heq | ⟨c, hbc, -⟩
    · exact absurd heq (by decide)
    · exact absurd (hedge _ _ hbc).1 (by decide)
  obtain ⟨-, h2, h3⟩ := C8_cycle_detection
    [("A.java", "import B;"), ("B.java", "")] "import B;" "A.java" hdag
  exact ⟨h2, h3⟩

/-! ## MiscSmellAgent (class `MiscSmellAgent` in the source)

The ten sections of `MiscSmellAgent.detect` are line or position scans with
fixed confidences.  `project_stats` is accepted and ignored, as in the
source. -/

def miscCategory : String := "Miscellaneous or General Code Smells"

/-- Matcher for `[^\w]([0-9]{2,})[^\w]`: a non-word character, a maximal
digit run of length at least two, then a non-word character.  The digit run
is maximal-munch exact: giving digits back would put a digit (a word
character) under the trailing `[^\w]`. -/
def magicNumMatchAt (s : List Char) : Option (List Char) :=
  match s with
  | c1 :: r1 =>
    if isPyWord c1 then none else
    match munch1 Char.isDigit r1 with
    | some (ds, r2) =>
      if ds.length < 2 then none else
      match r2 with
      | c2 :: r3 => if isPyWord c2 then none else some r3
      | [] => none
    | none => none
  | [] => none

/-- Matcher for `"[A-Za-z]{4,}"`. -/
def magicStrMatchAt (s : List Char) : Option (List Char) :=
  match s with
  | '"' :: r1 =>
    match munch1 Char.isAlpha r1 with
    | some (ls, r2) =>
      if ls.length < 4 then none else
      match r2 with
      | '"' :: r3 => some r3
      | _ => none
    | none => none
  | _ => none

def magicNumberReports (code file_name : String) : List SmellReport :=
  (List.enumFrom 1 (pySplitlines code)).filterMap (fun p =>
    if scanExists magicNumMatchAt p.2.data.length p.2.data then
      some { file_name := file_name, location := "?", category := miscCategory
             smell_type := "Magic Number"
             description := "Possible magic number in line: " ++ pyStrip p.2
             lines := toString p.1, confidence := 0.8
             refactor := "Yes", suggestion := "Replace with named constant"
             reason := "Possible magic number in line: " ++ pyStrip p.2 }
    else none)

def magicStringReports (code file_name : String) : List SmellReport :=
  (List.enumFrom 1 (pySplitlines code)).filterMap (fun p =>
    if scanExists magicStrMatchAt p.2.data.length p.2.data then
      some { file_name := file_name, location := "?", category := miscCategory
             smell_type := "Magic String"
             description := "Possible magic string in line: " ++ pyStrip p.2
             lines := toString p.1, confidence := 0.7
             refactor := "Yes", suggestion := "Replace with named constant"
             reason := "Possible magic string in line: " ++ pyStrip p.2 }
    else none)

/-- `\b` holds before the current position. -/
def wordBoundaryOk (prev : Option Char) : Bool :=
  match prev with
  | none => true
  | some c => !isPyWord c

/-- `\b` holds at the start of the remaining text. -/
def wbAfterOk : List Char → Bool
  | [] => true
  | c :: _ => !isPyWord c

/-- Try each `\b`-terminated alternative in source order at this position;
an alternative whose trailing `\b` fails backtracks to the next one. -/
def wbTryWords : List (List Char) → List Char → Option (List Char × List Char)
  | [], _ => none
  | w :: ws, s =>
    match dropLit w s with
    | some r => if wbAfterOk r then some (w, r) else wbTryWords ws s
    | none => wbTryWords ws s

/-- `len(re.findall(r'\b(w1|w2|...)\bb', code))`-style counting: scan left to
right, word-boundary before the match, alternatives in order, advance by the
match on success and by one character otherwise. -/
def wbAltCountAux (ws : List (List Char)) : Nat → Option Char → List Char → Nat
  | 0, _, _ => 0
  | _ + 1, _, [] => 0
  | fuel + 1, prev, c :: rest =>
    if wordBoundaryOk prev then
      match wbTryWords ws (c :: rest) with
      | some (w, r) => 1 + wbAltCountAux ws fuel w.reverse.head? r
      | none => wbAltCountAux ws fuel (some c) rest
    else wbAltCountAux ws fuel (some c) rest

def wbAltCount (ws : List String) (code : String) : Nat :=
  wbAltCountAux (ws.map String.data) code.data.length none code.data

/-- `len(re.findall(rf'\b\x7bw\x7d\b', code))` for a `\w+` word `w`. -/
def wbCountWord (w code : String) : Nat :=
  if w.data.isEmpty then 0 else wbAltCount [w] code

/-- The method names collected by the Dead Code section's
`(public|private|protected)?\s+\w+\s+(\w+)\s*\([^)]*\)\s*\{` scan. -/
def miscMethodNames (code : String) : List String :=
  ((scanCollect (fun s => (msigMatchAt s).map (fun p => (p.1.1, p.2)))
    code.data.length code.data).map String.mk)

def deadCodeReports (code file_name : String) : List SmellReport :=
  (miscMethodNames code).filterMap (fun mname =>
    if wbCountWord mname code = 1 then
      some { file_name := file_name, location := mname, category := miscCategory
             smell_type := "Dead Code"
             description := "Method '" ++ mname ++ "' appears to be unused."
             lines := "?", confidence := 0.9
             refactor := "Yes", suggestion := "Remove unused method"
             reason := "Method '" ++ mname ++ "' is never called in this file." }
    else none)

/-- `re.match(r'\s*//.*;|\s*//.*\x7b', line)`: after optional leading
whitespace the line starts with `//` and somewhere after it contains `;`
(first alternative) or `\x7b` (second). -/
def commentedOutLine (line : String) : Bool :=
  let t := line.data.dropWhile isPySpace
  match dropLit "//".data t with
  | some r => r.contains ';' || r.contains '\x7b'
  | none => false

def commentedOutReports (code file_name : String) : List SmellReport :=
  (List.enumFrom 1 (pySplitlines code)).filterMap (fun p =>
    if commentedOutLine p.2 then
      some { file_name := file_name, location := "?", category := miscCategory
             smell_type := "Commented-Out Code"
             description := "Possible commented-out code in line: " ++ pyStrip p.2
             lines := toString p.1, confidence := 0.7
             refactor := "Maybe", suggestion := "Remove or clarify comment"
             reason := "Possible commented-out code in line: " ++ pyStrip p.2 }
    else none)

def tooManyCommentsReports (code file_name : String) : List SmellReport :=
  let ls := pySplitlines code
  let commentLines := ls.filter (fun l =>
    pyStartsWith (pyStrip l) "//" || pyStartsWith (pyStrip l) "/*")
  if (commentLines.length : ℚ) > (ls.length : ℚ) * 0.3 then
    [{ file_name := file_name, location := "?", category := miscCategory
       smell_type := "Too Many Comments"
       description := "File has a high ratio of comments."
       lines := "?", confidence := 0.8
       refactor := "Maybe"
       suggestion := "Remove unnecessary comments, improve code clarity"
       reason := toString commentLines.length ++ " comment lines out of " ++
         toString ls.length ++ " total." }]
  else []

/-- Matcher for `catch\s*\([^)]*\)\s*\{\s*\}`. -/
def emptyCatchMatchAt (s : List Char) : Option (List Char) :=
  match dropLit "catch".data s with
  | none => none
  | some r1 =>
    match (span2 isPySpace r1).2 with
    | '(' :: r2 =>
      match (span2 (fun c => !(c = ')')) r2).2 with
      | ')' :: r3 =>
        match (span2 isPySpace r3).2 with
        | '\x7b' :: r4 =>
          match (span2 isPySpace r4).2 with
          | '\x7d' :: r5 => some r5
          | _ => none
        | _ => none
      | _ => none
    | _ => none

def emptyCatchReports (code file_name : String) : List SmellReport :=
  (scanCollectPos (fun s => (emptyCatchMatchAt s).map (fun r => ((), r)))
      code.data.length 0 code.data).map (fun t =>
    { file_name := file_name, location := "?", category := miscCategory
      smell_type := "Empty Catch Block"
      description := "Empty catch block detected."
      lines := toString t.2.1 ++ "-" ++ toString t.2.2, confidence := 0.9
      refactor := "Yes", suggestion := "Handle exception or log"
      reason := "Empty catch block detected." })

/-- Matcher for `catch\s*\([^)]*\)\s*\{([^}]*)\}` capturing the body. -/
def catchBodyMatchAt (s : List Char) : Option (List Char × List Char) :=
  match dropLit "catch".data s with
  | none => none
  | some r1 =>
    match (span2 isPySpace r1).2 with
    | '(' :: r2 =>
      match (span2 (fun c => !(c = ')')) r2).2 with
      | ')' :: r3 =>
        match (span2 isPySpace r3).2 with
        | '\x7b' :: r4 =>
          let p := span2 (fun c => !(c = '\x7d')) r4
          match p.2 with
          | '\x7d' :: r5 => some (p.1, r5)
          | _ => none
        | _ => none
      | _ => none
    | _ => none

/-- `re.match(r'\s*(//.*|log\.|logger\.)', body.strip())`: after stripping,
the body starts with `//`, `log.` or `logger.`. -/
def swallowBody (body : String) : Bool :=
  let b := (pyStrip body).data
  (dropLit "//".data b).isSome || (dropLit "log.".data b).isSome ||
    (dropLit "logger.".data b).isSome

def exceptionSwallowReports (code file_name : String) : List SmellReport :=
  (scanCollectPos catchBodyMatchAt code.data.length 0 code.data).filterMap
    (fun t =>
      if swallowBody (String.mk t.1) then
        some { file_name := file_name, location := "?", category := miscCategory
               smell_type := "Exception Swallowing"
               description := "Catch block may swallow exception."
               lines := toString t.2.1 ++ "-" ++ toString t.2.2
               confidence := 0.8
               refactor := "Maybe", suggestion := "Rethrow or handle exception"
               reason := "Catch block only logs or comments, may swallow exception." }
      else none)

/-- Matcher for `System\.(out|err)\.print`. -/
def sysOutMatchAt (s : List Char) : Option (List Char) :=
  match dropLit "System.".data s with
  | none => none
  | some r1 =>
    match dropLit "out".data r1 with
    | some r2 => dropLit ".print".data r2
    | none =>
      match dropLit "err".data r1 with
      | some r2 => dropLit ".print".data r2
      | none => none

def loggerMisuseReports (code file_name : String) : List SmellReport :=
  (List.enumFrom 1 (pySplitlines code)).filterMap (fun p =>
    if scanExists sysOutMatchAt p.2.data.length p.2.data then
      some { file_name := file_name, location := "?", category := miscCategory
             smell_type := "Logger Misuse"
             description := "System.out/err used for logging."
             lines := toString p.1, confidence := 0.8
             refactor := "Yes", suggestion := "Use proper logger"
             reason := "System.out/err used for logging in line: " ++ pyStrip p.2 }
    else none)

def MiscSmellAgent.detect (code file_name : String) (_stats : Option PStats) :
    List SmellReport :=
  magicNumberReports code file_name ++ magicStringReports code file_name ++
    deadCodeReports code file_name ++ commentedOutReports code file_name ++
    tooManyCommentsReports code file_name ++ emptyCatchReports code file_name ++
    exceptionSwallowReports code file_name ++ loggerMisuseReports code file_name

/-! ## DependencySmellAgent (class `DependencySmellAgent` in the source) -/

def depCategory : String := "Package and Dependency Smells"

/-- Matcher for `interface\s+(\w+)[^{]*\{`: captured name and the text after
the opening brace. -/
def ifaceHeadMatchAt (s : List Char) : Option (List Char × List Char) :=
  match dropLit "interface".data s with
  | none => none
  | some r1 =>
    match munch1 isPySpace r1 with
    | none => none
    | some (_, r2) =>
      match munch1 isPyWord r2 with
      | none => none
      | some (iname, r3) =>
        match (span2 (fun c => !(c = '\x7b')) r3).2 with
        | '\x7b' :: r4 => some (iname, r4)
        | _ => none

/-- Matcher for `\w+\s+\w+\s*\([^)]*\)\s*;` (one interface method). -/
def ifaceMethodMatchAt (s : List Char) : Option (List Char) :=
  match munch1 isPyWord s with
  | none => none
  | some (_, r1) =>
    match munch1 isPySpace r1 with
    | none => none
    | some (_, r2) =>
      match munch1 isPyWord r2 with
      | none => none
      | some (_, r3) =>
        match (span2 isPySpace r3).2 with
        | '(' :: r4 =>
          match (span2 (fun c => !(c = ')')) r4).2 with
          | ')' :: r5 =>
            match (span2 isPySpace r5).2 with
            | ';' :: r6 => some r6
            | _ => none
          | _ => none
        | _ => none

/-- Fat Interface: the body is carved with the brace loop that starts its
count at 1 and then re-reads the opening brace (count 2), the same overshoot
as the method extraction; `i = m.end() + k`. -/
def fatInterfaceReports (code file_name : String) : List SmellReport :=
  (scanCollectPos ifaceHeadMatchAt code.data.length 0 code.data).filterMap
    (fun t =>
      let iname := String.mk t.1
      let rest := code.data.drop t.2.2
      let k := braceReadCount rest 2
      let ibody := ('\x7b' :: rest).take k
      let mc := scanCount ifaceMethodMatchAt ibody.length ibody
      if mc > 10 then
        some { file_name := file_name, location := iname, category := depCategory
               smell_type := "Fat Interface"
               description := "Interface '" ++ iname ++ "' has " ++
                 toString mc ++ " methods."
               lines := toString t.2.1 ++ "-" ++ toString (t.2.2 + k)
               confidence := pyMin 1 (((mc : ℚ) - 10) / 10 + 1/2)
               refactor := "Yes"
               suggestion := "Split Interface, Apply Interface Segregation"
               reason := "Interface '" ++ iname ++ "' has " ++ toString mc ++
                 " methods." }
      else none)

/-- Matcher for `(abstract\s+class|interface)\s+\w+`.  The two alternatives
start with different characters, so no cross-alternative backtracking can
occur. -/
def absIfaceMatchAt (s : List Char) : Option (List Char) :=
  let tail := fun (r : List Char) =>
    (munch1 isPySpace r).bind (fun p => (munch1 isPyWord p.2).map (fun q => q.2))
  match dropLit "abstract".data s with
  | some r1 =>
    match munch1 isPySpace r1 with
    | some (_, r2) =>
      match dropLit "class".data r2 with
      | some r3 => tail r3
      | none => none
    | none => none
  | none =>
    match dropLit "interface".data s with
    | some r => tail r
    | none => none

/-- Matcher for `class\s+\w+`. -/
def clsWordMatchAt (s : List Char) : Option (List Char) :=
  match dropLit "class".data s with
  | none => none
  | some r1 =>
    (munch1 isPySpace r1).bind (fun p => (munch1 isPyWord p.2).map (fun q => q.2))

def unbalancedReports (code file_name : String)
    (file_contents : List (String × String)) : List SmellReport :=
  match scanFirst packageMatchAt code.data.length code.data with
  | none => []
  | some pkg =>
    let pkgName := String.mk pkg
    let inPkg := file_contents.filter (fun p => pyStartsWith p.1 (pkgSlash pkgName))
    let abstractions := (inPkg.filter (fun p =>
      scanExists absIfaceMatchAt p.2.data.length p.2.data)).length
    let concrete := (inPkg.filter (fun p =>
      !scanExists absIfaceMatchAt p.2.data.length p.2.data &&
        scanExists clsWordMatchAt p.2.data.length p.2.data)).length
    if concrete > 5 ∧ abstractions < 2 then
      [{ file_name := file_name, location := pkgName, category := depCategory
         smell_type := "Unbalanced Abstractions"
         description := "Package '" ++ pkgName ++
           "' has many concrete classes and few abstractions."
         lines := "?", confidence := 0.8
         refactor := "Yes", suggestion := "Add abstractions, refactor package"
         reason := toString concrete ++ " concrete classes, " ++
           toString abstractions ++ " abstractions in package." }]
    else []

def insufficientModReports (code file_name : String)
    (file_contents : List (String × String)) : List SmellReport :=
  match scanFirst packageMatchAt code.data.length code.data with
  | none => []
  | some pkg =>
    let pkgName := String.mk pkg
    let cc := (file_contents.filter (fun p =>
      pyStartsWith p.1 (pkgSlash pkgName) &&
        scanExists clsWordMatchAt p.2.data.length p.2.data)).length
    if cc > 15 then
      [{ file_name := file_name, location := pkgName, category := depCategory
         smell_type := "Insufficient Modularization"
         description := "Package '" ++ pkgName ++
           "' may lack modularization (too many classes)."
         lines := "?", confidence := pyMin 1 (((cc : ℚ) - 15) / 10 + 1/2)
         refactor := "Yes", suggestion := "Split package, modularize"
         reason := "Package '" ++ pkgName ++ "' has " ++ toString cc ++
           " classes." }]
    else []

def depConcentrationReports (code file_name : String)
    (file_contents : List (String × String)) : List SmellReport :=
  match scanFirst packageMatchAt code.data.length code.data with
  | none => []
  | some pkg =>
    let pkgName := String.mk pkg
    let inc := (file_contents.filter (fun p =>
      !(p.1 = file_name) &&
        scanExists (importPkgMatchAt pkg) p.2.data.length p.2.data)).length
    if inc > 8 then
      [{ file_name := file_name, location := pkgName, category := depCategory
         smell_type := "Dependency Concentration"
         description := "Package '" ++ pkgName ++
           "' is a dependency concentration point."
         lines := "?", confidence := pyMin 1 (((inc : ℚ) - 8) / 8 + 1/2)
         refactor := "Yes", suggestion := "Refactor, reduce coupling"
         reason := "Package '" ++ pkgName ++ "' has " ++ toString inc ++
           " incoming dependencies." }]
    else []

def DependencySmellAgent.detect (code file_name : String)
    (_all_files : List String) (file_contents : List (String × String)) :
    List SmellReport :=
  fatInterfaceReports code file_name ++
    unbalancedReports code file_name file_contents ++
    insufficientModReports code file_name file_contents ++
    depConcentrationReports code file_name file_contents

/-! ## SmellAgent (class `SmellAgent` in the source)

The app always supplies `all_files` and `file_contents` (the detectors that
call `.items()` on `file_contents` would raise otherwise), so the
composition is embedded over the supplied corpus.  `dst` is the incoming
`MethodSmellAgent._method_hashes` process state. -/

def SmellAgent.results (oracle : ParseOracle) (code file_name : String)
    (all_files : List String) (file_contents : List (String × String))
    (stats : Option PStats) (dst : DupState) :
    List SmellReport × DupState :=
  let c := ClassSmellAgent.detect oracle code file_name stats
    (some all_files) (some file_contents)
  let m := MethodSmellAgent.detect code file_name stats dst
  let f := FieldSmellAgent.detect code file_name
  let a := ArchitectureSmellAgent.detect code file_name file_contents
  let mi := MiscSmellAgent.detect code file_name stats
  let d := DependencySmellAgent.detect code file_name all_files file_contents
  (c ++ m.1 ++ f ++ a ++ mi ++ d, m.2)

/-! ## Confidence bounds (claim C2) -/

/-- A report's confidence lies in the closed unit interval. -/
def ConfOK (r : SmellReport) : Prop := 0 ≤ r.confidence ∧ r.confidence ≤ 1

theorem pyMin_one_unit {b : ℚ} (h : 0 ≤ b) : 0 ≤ pyMin 1 b ∧ pyMin 1 b ≤ 1 := by
  unfold pyMin
  split
  · exact ⟨by norm_num, le_refl 1⟩
  · exact ⟨h, by linarith [lt_of_not_le (by assumption : ¬ (1:ℚ) ≤ b)]⟩

theorem ratio_step_nonneg {n k d : ℚ} (hd : 0 < d) (h : k < n) :
    0 ≤ (n - k) / d + 1/2 := by
  have h1 : 0 ≤ (n - k) / d := div_nonneg (by linarith) (le_of_lt hd)
  linarith

theorem misc_conf (code file_name : String) (st : Option PStats) :
    ∀ r ∈ MiscSmellAgent.detect code file_name st, ConfOK r := by
  intro r hr
  unfold MiscSmellAgent.detect at hr
  simp only [List.mem_append] at hr
  rcases hr with ((((((hr | hr) | hr) | hr) | hr) | hr) | hr) | hr
  · obtain ⟨p, -, hs⟩ := List.mem_filterMap.mp hr
    split at hs
    · cases hs; exact ⟨by norm_num, by norm_num⟩
    · exact Option.noConfusion hs
  · obtain ⟨p, -, hs⟩ := List.mem_filterMap.mp hr
    split at hs
    · cases hs; exact ⟨by norm_num, by norm_num⟩
    · exact Option.noConfusion hs
  · obtain ⟨p, -, hs⟩ := List.mem_filterMap.mp hr
    split at hs
    · cases hs; exact ⟨by norm_num, by norm_num⟩
    · exact Option.noConfusion hs
  · obtain ⟨p, -, hs⟩ := List.mem_filterMap.mp hr
    split at hs
    · cases hs; exact ⟨by norm_num, by norm_num⟩
    · exact Option.noConfusion hs
  · unfold tooManyCommentsReports at hr
    dsimp only at hr
    split at hr
    · rcases List.mem_singleton.mp hr with rfl
      exact ⟨by norm_num, by norm_num⟩
    · cases hr
  · obtain ⟨p, -, rfl⟩ := List.mem_map.mp hr
    exact ⟨by norm_num, by norm_num⟩
  · obtain ⟨p, -, hs⟩ := List.mem_filterMap.mp hr
    split at hs
    · cases hs; exact ⟨by norm_num, by norm_num⟩
    · exact Option.noConfusion hs
  · obtain ⟨p, -, hs⟩ := List.mem_filterMap.mp hr
    split at hs
    · cases hs; exact ⟨by norm_num, by norm_num⟩
    · exact Option.noConfusion hs

theorem dep_conf (code file_name : String) (af : List String)
    (fc : List (String × String)) :
    ∀ r ∈ DependencySmellAgent.detect code file_name af fc, ConfOK r := by
  intro r hr
  unfold DependencySmellAgent.detect at hr
  simp only [List.mem_append] at hr
  rcases hr with ((hr | hr) | hr) | hr
  · obtain ⟨p, -, hs⟩ := List.mem_filterMap.mp hr
    dsimp only at hs
    split at hs
    · cases hs
      refine pyMin_one_unit (ratio_step_nonneg (by norm_num) ?_)
      exact_mod_cast (by assumption : _ > 10)
    · exact Option.noConfusion hs
  · unfold unbalancedReports at hr
    rcases hp : scanFirst packageMatchAt code.data.length code.data with - | pkg
    · rw [hp] at hr; cases hr
    · rw [hp] at hr
      dsimp only at hr
      split at hr
      · rcases List.mem_singleton.mp hr with rfl
        exact ⟨by norm_num, by norm_num⟩
      · cases hr
  · unfold insufficientModReports at hr
    rcases hp : scanFirst packageMatchAt code.data.length code.data with - | pkg
    · rw [hp] at hr; cases hr
    · rw [hp] at hr
      dsimp only at hr
      split at hr
      · rcases List.mem_singleton.mp hr with rfl
        refine pyMin_one_unit (ratio_step_nonneg (by norm_num) ?_)
        exact_mod_cast (by assumption : _ > 15)
      · cases hr
  · unfold depConcentrationReports at hr
    rcases hp : scanFirst packageMatchAt code.data.length code.data with - | pkg
    · rw [hp] at hr; cases hr
    · rw [hp] at hr
      dsimp only at hr
      split at hr
      · rcases List.mem_singleton.mp hr with rfl
        refine pyMin_one_unit (ratio_step_nonneg (by norm_num) ?_)
        exact_mod_cast (by assumption : _ > 8)
      · cases hr

theorem arch_conf (code file_name : String) (fc : List (String × String)) :
    ∀ r ∈ ArchitectureSmellAgent.detect code file_name fc, ConfOK r := by
  intro r hr
  unfold ArchitectureSmellAgent.detect at hr
  dsimp only at hr
  simp only [List.mem_append] at hr
  rcases hr with (((hr | hr) | hr) | hr) | hr
  · split at hr
    · rcases List.mem_singleton.mp hr with rfl
      exact ⟨by norm_num, by norm_num⟩
    · cases hr
  · rcases hp : scanFirst packageMatchAt code.data.length code.data with - | pkg
    · rw [hp] at hr; cases hr
    · rw [hp] at hr
      dsimp only at hr
      split at hr
      · rcases List.mem_singleton.mp hr with rfl
        refine pyMin_one_unit (ratio_step_nonneg (by norm_num) ?_)
        exact_mod_cast (by assumption : _ > 10)
      · cases hr
  · rcases hp : scanFirst packageMatchAt code.data.length code.data with - | pkg
    · rw [hp] at hr; cases hr
    · rw [hp] at hr
      dsimp only at hr
      split at hr
      · rcases List.mem_singleton.mp hr with rfl
        exact ⟨by norm_num, by norm_num⟩
      · cases hr
  · obtain ⟨p, -, hs⟩ := List.mem_filterMap.mp hr
    split at hs
    · split at hs
      · cases hs; exact ⟨by norm_num, by norm_num⟩
      · exact Option.noConfusion hs
    · exact Option.noConfusion hs
  · rcases hp : scanFirst packageMatchAt code.data.length code.data with - | pkg
    · rw [hp] at hr; cases hr
    · rw [hp] at hr
      dsimp only at hr
      split at hr
      · rcases List.mem_singleton.mp hr with rfl
        exact ⟨by norm_num, by norm_num⟩
      · cases hr

theorem longMethodThreshold_pos (stats : Option PStats)
    (hmm : ∀ s ∈ stats, 0 ≤ s.method_median) :
    0 < longMethodThreshold stats := by
  unfold longMethodThreshold
  match stats with
  | none => norm_num
  | some s =>
    have h0 : 0 ≤ s.method_median := hmm s rfl
    dsimp only
    split
    · norm_num
    · have : s.method_median ≠ 0 := by assumption
      have : 0 < s.method_median := lt_of_le_of_ne h0 (Ne.symm this)
      nlinarith

theorem perMethod_conf (file_name : String) (stats : Option PStats)
    (st : DupState) (m : PyMethod)
    (hmm : ∀ s ∈ stats, 0 ≤ s.method_median) :
    ∀ r ∈ (perMethodReports file_name stats st m).1, ConfOK r := by
  intro r hr
  unfold perMethodReports at hr
  dsimp only at hr
  simp only [List.mem_append] at hr
  rcases hr with ((((((hr | hr) | hr) | hr) | hr) | hr) | hr) | hr
  · split at hr
    · rcases List.mem_singleton.mp hr with rfl
      refine pyMin_one_unit (ratio_step_nonneg (by norm_num) ?_)
      exact_mod_cast (by assumption : _ > 3)
    · cases hr
  · split at hr
    · rcases List.mem_singleton.mp hr with rfl
      exact pyMin_one_unit (ratio_step_nonneg
        (longMethodThreshold_pos stats hmm) (by assumption))
    · cases hr
  · split at hr
    · rcases List.mem_singleton.mp hr with rfl
      refine pyMin_one_unit (ratio_step_nonneg (by norm_num) ?_)
      exact_mod_cast (by assumption : _ > 5)
    · cases hr
  · rcases hd : dupLookup st m.body with - | prev
    · rw [hd] at hr; cases hr
    · rw [hd] at hr
      rcases List.mem_singleton.mp hr with rfl
      exact ⟨by norm_num, by norm_num⟩
  · split at hr
    · rcases List.mem_singleton.mp hr with rfl
      exact ⟨by norm_num, by norm_num⟩
    · cases hr
  · split at hr
    · rcases List.mem_singleton.mp hr with rfl
      exact ⟨by norm_num, by norm_num⟩
    · cases hr
  · split at hr
    · rcases List.mem_singleton.mp hr with rfl
      refine pyMin_one_unit (ratio_step_nonneg (by norm_num) ?_)
      exact_mod_cast (by assumption : _ > 3)
    · cases hr
  · split at hr
    · rcases List.mem_singleton.mp hr with rfl
      exact ⟨by norm_num, by norm_num⟩
    · cases hr

theorem methodLoop_conf (file_name : String) (stats : Option PStats)
    (ms : List PyMethod) (st : DupState)
    (hmm : ∀ s ∈ stats, 0 ≤ s.method_median) :
    ∀ r ∈ (methodLoop file_name stats ms st).1, ConfOK r := by
  induction ms generalizing st with
  | nil => intro r hr; cases hr
  | cons m ms ih =>
    intro r hr
    unfold methodLoop at hr
    dsimp only at hr
    rcases List.mem_append.mp hr with hr | hr
    · exact perMethod_conf file_name stats st m hmm r hr
    · exact ih _ r hr

theorem method_conf (code file_name : String) (stats : Option PStats)
    (st : DupState) (hmm : ∀ s ∈ stats, 0 ≤ s.method_median) :
    ∀ r ∈ (MethodSmellAgent.detect code file_name stats st).1, ConfOK r := by
  intro r hr
  unfold MethodSmellAgent.detect MethodSmellAgent.detectFromMethods at hr
  dsimp only at hr
  simp only [List.mem_append] at hr
  rcases hr with (((hr | hr) | hr) | hr) | hr
  · exact methodLoop_conf file_name stats _ st hmm r hr
  · obtain ⟨p, -, hs⟩ := List.mem_filterMap.mp (by
      unfold repeatedSwitchReports at hr; exact hr)
    split at hs
    · cases hs
      refine pyMin_one_unit (ratio_step_nonneg (by norm_num) ?_)
      exact_mod_cast (by assumption : _ > 1)
    · exact Option.noConfusion hs
  · unfold speculativeReports at hr
    dsimp only at hr
    simp only [List.mem_append] at hr
    rcases hr with (hr | hr) | hr <;>
    · obtain ⟨p, -, hs⟩ := List.mem_filterMap.mp hr
      split at hs
      · cases hs; exact ⟨by norm_num, by norm_num⟩
      · exact Option.noConfusion hs
  · obtain ⟨p, -, hs⟩ := List.mem_filterMap.mp (by
      unfold hookReports at hr; exact hr)
    split at hs
    · cases hs; exact ⟨by norm_num, by norm_num⟩
    · exact Option.noConfusion hs
  · unfold controlFlagReports at hr
    obtain ⟨l, hl, hr⟩ := List.mem_flatten.mp hr
    obtain ⟨m, -, rfl⟩ := List.mem_map.mp hl
    obtain ⟨v, -, hs⟩ := List.mem_filterMap.mp hr
    dsimp only at hs
    split at hs
    · cases hs
      refine pyMin_one_unit (ratio_step_nonneg (by norm_num) ?_)
      have hb := (by assumption :
        (decide (_ = 1) && decide (_ > 1)) = true)
      simp only [Bool.and_eq_true, decide_eq_true_eq] at hb
      exact_mod_cast hb.2
    · exact Option.noConfusion hs

theorem confAppend {a b : List SmellReport} (ha : ∀ r ∈ a, ConfOK r)
    (hb : ∀ r ∈ b, ConfOK r) : ∀ r ∈ a ++ b, ConfOK r := by
  intro r hr
  rcases List.mem_append.mp hr with h | h
  · exact ha r h
  · exact hb r h

theorem confNil : ∀ r ∈ ([] : List SmellReport), ConfOK r := by
  intro r hr
  cases hr

theorem confSingleton {x : SmellReport} (h : ConfOK x) : ∀ r ∈ [x], ConfOK r := by
  intro r hr
  rcases List.mem_singleton.mp hr with rfl
  exact h

theorem confIf {c : Prop} [Decidable c] {a b : List SmellReport}
    (ha : c → ∀ r ∈ a, ConfOK r) (hb : ∀ r ∈ b, ConfOK r) :
    ∀ r ∈ (if c then a else b), ConfOK r := by
  intro r hr
  split at hr
  · exact ha (by assumption) r hr
  · exact hb r hr

theorem confMap {α : Type} {f : α → SmellReport} {l : List α}
    (h : ∀ a, ConfOK (f a)) : ∀ r ∈ l.map f, ConfOK r := by
  intro r hr
  obtain ⟨a, -, rfl⟩ := List.mem_map.mp hr
  exact h a

set_option maxHeartbeats 1600000 in
theorem classStepTail2_conf (file_name cname : String) (impls : List String)
    (cns : List String) (pm : List (String × String))
    (mf : Option (List JMethod × List JFieldDecl)) (ms : List JMethod)
    (fs : List JFieldDecl) (acc : List SmellReport)
    (hacc : ∀ r ∈ acc, ConfOK r) :
    ∀ r ∈ (classStepTail2 file_name cname impls cns pm mf ms fs acc).1,
      ConfOK r := by
  intro r hr
  unfold classStepTail2 at hr
  dsimp only at hr
  split at hr
  · dsimp only at hr
    exact confAppend hacc
      (confIf (fun _ => confSingleton ⟨by norm_num, by norm_num⟩) confNil) r hr
  · dsimp only at hr
    rcases List.mem_append.mp hr with hr | hr
    · rcases List.mem_append.mp hr with hr | hr
      · exact confAppend hacc
          (confIf (fun _ => confSingleton ⟨by norm_num, by norm_num⟩) confNil) r hr
      · exact confMap (fun f => ⟨by norm_num, by norm_num⟩) r hr
    · split at hr
      · rcases List.mem_singleton.mp hr with rfl
        refine pyMin_one_unit (ratio_step_nonneg (by norm_num) ?_)
        exact_mod_cast (by assumption : impls ≠ [] ∧ impls.length > 3).2
      · cases hr

set_option maxHeartbeats 1600000 in
theorem classStepTail_conf (file_name : String) (s : PStats) (cname : String)
    (impls : List String) (loc : ℚ) (cns : List String)
    (pm : List (String × String)) (mf : Option (List JMethod × List JFieldDecl))
    (acc : List SmellReport)
    (hcm : 0 ≤ s.class_median) (hacc : ∀ r ∈ acc, ConfOK r) :
    ∀ r ∈ (classNodeStepTail file_name s cname impls loc cns pm mf acc).1,
      ConfOK r := by
  intro r hr
  unfold classNodeStepTail at hr
  dsimp only at hr
  by_cases hL : loc > s.class_median * 1.5
  · by_cases hz : s.class_median = 0
    · rw [if_pos hL, if_pos hz] at hr
      dsimp only at hr
      exact confAppend hacc confNil r hr
    · rw [if_pos hL, if_neg hz] at hr
      dsimp only at hr
      have hpos : 0 < s.class_median := lt_of_le_of_ne hcm (Ne.symm hz)
      have hnum : 0 ≤ loc - s.class_median := by nlinarith
      rcases mf with - | ⟨ms, fs⟩
      · by_cases hLz : loc < s.class_median * 0.3
        · rw [if_pos hLz] at hr
          dsimp only at hr
          repeat
              first
              | exact hacc r hr
              | (rcases List.mem_append.mp hr with hr | hr)
              | (rcases List.mem_singleton.mp hr with rfl
                 first
                 | (refine ⟨?_, ?_⟩ <;> (norm_num; done))
                 | exact pyMin_one_unit (div_nonneg hnum (le_of_lt hpos)))
              | cases hr
        · rw [if_neg hLz] at hr
          dsimp only at hr
          repeat
              first
              | exact hacc r hr
              | (rcases List.mem_append.mp hr with hr | hr)
              | (rcases List.mem_singleton.mp hr with rfl
                 first
                 | (refine ⟨?_, ?_⟩ <;> (norm_num; done))
                 | exact pyMin_one_unit (div_nonneg hnum (le_of_lt hpos)))
              | cases hr
      · by_cases hLz : loc < s.class_median * 0.3
        · rw [if_pos hLz] at hr
          dsimp only at hr
          by_cases hms : ms.length < 2
          · rw [if_pos hms] at hr
            dsimp only at hr
            refine classStepTail2_conf _ _ _ _ _ _ _ _ _ ?_ r hr
            intro r hr
            repeat
              first
              | exact hacc r hr
              | (rcases List.mem_append.mp hr with hr | hr)
              | (rcases List.mem_singleton.mp hr with rfl
                 first
                 | (refine ⟨?_, ?_⟩ <;> (norm_num; done))
                 | exact pyMin_one_unit (div_nonneg hnum (le_of_lt hpos)))
              | cases hr
          · rw [if_neg hms] at hr
            dsimp only at hr
            refine classStepTail2_conf _ _ _ _ _ _ _ _ _ ?_ r hr
            intro r hr
            repeat
              first
              | exact hacc r hr
              | (rcases List.mem_append.mp hr with hr | hr)
              | (rcases List.mem_singleton.mp hr with rfl
                 first
                 | (refine ⟨?_, ?_⟩ <;> (norm_num; done))
                 | exact pyMin_one_unit (div_nonneg hnum (le_of_lt hpos)))
              | cases hr
        · rw [if_neg hLz] at hr
          dsimp only at hr
          refine classStepTail2_conf _ _ _ _ _ _ _ _ _ ?_ r hr
          intro r hr
          repeat
              first
              | exact hacc r hr
              | (rcases List.mem_append.mp hr with hr | hr)
              | (rcases List.mem_singleton.mp hr with rfl
                 first
                 | (refine ⟨?_, ?_⟩ <;> (norm_num; done))
                 | exact pyMin_one_unit (div_nonneg hnum (le_of_lt hpos)))
              | cases hr
  · rw [if_neg hL] at hr
    dsimp only at hr
    rcases mf with - | ⟨ms, fs⟩
    · by_cases hLz : loc < s.class_median * 0.3
      · rw [if_pos hLz] at hr
        dsimp only at hr
        repeat
              first
              | exact hacc r hr
              | (rcases List.mem_append.mp hr with hr | hr)
              | (rcases List.mem_singleton.mp hr with rfl
                 refine ⟨?_, ?_⟩ <;> (norm_num; done))
              | cases hr
      · rw [if_neg hLz] at hr
        dsimp only at hr
        repeat
              first
              | exact hacc r hr
              | (rcases List.mem_append.mp hr with hr | hr)
              | (rcases List.mem_singleton.mp hr with rfl
                 refine ⟨?_, ?_⟩ <;> (norm_num; done))
              | cases hr
    · by_cases hLz : loc < s.class_median * 0.3
      · rw [if_pos hLz] at hr
        dsimp only at hr
        by_cases hms : ms.length < 2
        · rw [if_pos hms] at hr
          dsimp only at hr
          refine classStepTail2_conf _ _ _ _ _ _ _ _ _ ?_ r hr
          intro r hr
          repeat
              first
              | exact hacc r hr
              | (rcases List.mem_append.mp hr with hr | hr)
              | (rcases List.mem_singleton.mp hr with rfl
                 refine ⟨?_, ?_⟩ <;> (norm_num; done))
              | cases hr
        · rw [if_neg hms] at hr
          dsimp only at hr
          refine classStepTail2_conf _ _ _ _ _ _ _ _ _ ?_ r hr
          intro r hr
          repeat
              first
              | exact hacc r hr
              | (rcases List.mem_append.mp hr with hr | hr)
              | (rcases List.mem_singleton.mp hr with rfl
                 refine ⟨?_, ?_⟩ <;> (norm_num; done))
              | cases hr
      · rw [if_neg hLz] at hr
        dsimp only at hr
        refine classStepTail2_conf _ _ _ _ _ _ _ _ _ ?_ r hr
        intro r hr
        repeat
              first
              | exact hacc r hr
              | (rcases List.mem_append.mp hr with hr | hr)
              | (rcases List.mem_singleton.mp hr with rfl
                 refine ⟨?_, ?_⟩ <;> (norm_num; done))
              | cases hr

theorem confFilterMap {α : Type} {g : α → Option SmellReport} {l : List α}
    (h : ∀ a r, g a = some r → ConfOK r) : ∀ r ∈ l.filterMap g, ConfOK r := by
  intro r hr
  obtain ⟨a, -, hs⟩ := List.mem_filterMap.mp hr
  exact h a r hs

set_option maxHeartbeats 1600000 in
theorem classNodeStep_conf (code file_name : String) (stats : Option PStats)
    (cname : String) (ext : Option String) (impls : List String)
    (nms : List JMethod) (nfs : List JFieldDecl)
    (cns : List String) (pm : List (String × String))
    (mf : Option (List JMethod × List JFieldDecl)) (acc : List SmellReport)
    (hcm : ∀ st ∈ stats, 0 ≤ st.class_median)
    (hacc : ∀ r ∈ acc, ConfOK r) :
    ∀ r ∈ (classNodeStep code file_name stats cname ext impls nms nfs
      cns pm mf acc).1, ConfOK r := by
  intro r hr
  unfold classNodeStep at hr
  try dsimp only at hr
  rcases stats with - | st
  · try dsimp only at hr
    rcases ext with - | parent <;> try dsimp only at hr <;>
      repeat
        first
        | exact hacc r hr
        | (rcases List.mem_append.mp hr with hr | hr)
        | (rcases List.mem_singleton.mp hr with rfl
           refine ⟨?_, ?_⟩ <;> (norm_num; done))
        | (obtain ⟨a, -, hs⟩ := List.mem_filterMap.mp hr
           split at hs <;>
             first
             | exact Option.noConfusion hs
             | (cases hs
                refine ⟨?_, ?_⟩ <;> (norm_num; done)))
        | (split at hr)
        | cases hr
  · try dsimp only at hr
    have hcm' : 0 ≤ st.class_median := hcm st rfl
    by_cases hG : ((pyLoc code : ℚ)) > st.class_median * 2
    · rw [if_pos hG] at hr
      rcases ext with - | parent <;> try dsimp only at hr
      · -- ext none: mf unchanged
        rcases mf with - | ⟨ms, fs⟩ <;> try dsimp only at hr
        · -- God reads unbound locals: exit with acc ++ intimacy
          repeat
            first
            | exact hacc r hr
            | (rcases List.mem_append.mp hr with hr | hr)
            | (obtain ⟨a, -, hs⟩ := List.mem_filterMap.mp hr
               split at hs <;>
                 first
                 | exact Option.noConfusion hs
                 | (cases hs
                    refine ⟨?_, ?_⟩ <;> (norm_num; done)))
            | cases hr
        · by_cases hmf : ms.length > 10 ∧ fs.length > 10
          · rw [if_pos hmf] at hr
            by_cases hz : st.class_median = 0
            · rw [if_pos hz] at hr
              try dsimp only at hr
              repeat
                first
                | exact hacc r hr
                | (rcases List.mem_append.mp hr with hr | hr)
                | (obtain ⟨a, -, hs⟩ := List.mem_filterMap.mp hr
                   split at hs <;>
                     first
                     | exact Option.noConfusion hs
                     | (cases hs
                        refine ⟨?_, ?_⟩ <;> (norm_num; done)))
                | cases hr
            · rw [if_neg hz] at hr
              try dsimp only at hr
              have hpos : 0 < st.class_median := lt_of_le_of_ne hcm' (Ne.symm hz)
              have hnum : 0 ≤ (pyLoc code : ℚ) - st.class_median := by nlinarith
              refine classStepTail_conf _ _ _ _ _ _ _ _ _ hcm' ?_ r hr
              intro r hr
              repeat
                first
                | exact hacc r hr
                | (rcases List.mem_append.mp hr with hr | hr)
                | (rcases List.mem_singleton.mp hr with rfl
                   exact pyMin_one_unit (div_nonneg hnum (le_of_lt hpos)))
                | (obtain ⟨a, -, hs⟩ := List.mem_filterMap.mp hr
                   split at hs <;>
                     first
                     | exact Option.noConfusion hs
                     | (cases hs
                        refine ⟨?_, ?_⟩ <;> (norm_num; done)))
                | cases hr
          · rw [if_neg hmf] at hr
            refine classStepTail_conf _ _ _ _ _ _ _ _ _ hcm' ?_ r hr
            intro r hr
            repeat
              first
              | exact hacc r hr
              | (rcases List.mem_append.mp hr with hr | hr)
              | (obtain ⟨a, -, hs⟩ := List.mem_filterMap.mp hr
                 split at hs <;>
                   first
                   | exact Option.noConfusion hs
                   | (cases hs
                      refine ⟨?_, ?_⟩ <;> (norm_num; done)))
              | cases hr
      · -- ext some: mf := some (nms, nfs)
        try dsimp only at hr
        by_cases hmf : nms.length > 10 ∧ nfs.length > 10
        · rw [if_pos hmf] at hr
          by_cases hz : st.class_median = 0
          · rw [if_pos hz] at hr
            try dsimp only at hr
            repeat
              first
              | exact hacc r hr
              | (rcases List.mem_append.mp hr with hr | hr)
              | (rcases List.mem_singleton.mp hr with rfl
                 refine ⟨?_, ?_⟩ <;> (norm_num; done))
              | (obtain ⟨a, -, hs⟩ := List.mem_filterMap.mp hr
                 split at hs <;>
                   first
                   | exact Option.noConfusion hs
                   | (cases hs
                      refine ⟨?_, ?_⟩ <;> (norm_num; done)))
              | (split at hr)
              | cases hr
          · rw [if_neg hz] at hr
            try dsimp only at hr
            have hpos : 0 < st.class_median := lt_of_le_of_ne hcm' (Ne.symm hz)
            have hnum : 0 ≤ (pyLoc code : ℚ) - st.class_median := by nlinarith
            refine classStepTail_conf _ _ _ _ _ _ _ _ _ hcm' ?_ r hr
            intro r hr
            repeat
              first
              | exact hacc r hr
              | (rcases List.mem_append.mp hr with hr | hr)
              | (rcases List.mem_singleton.mp hr with rfl
                 first
                 | (refine ⟨?_, ?_⟩ <;> (norm_num; done))
                 | exact pyMin_one_unit (div_nonneg hnum (le_of_lt hpos)))
              | (obtain ⟨a, -, hs⟩ := List.mem_filterMap.mp hr
                 split at hs <;>
                   first
                   | exact Option.noConfusion hs
                   | (cases hs
                      refine ⟨?_, ?_⟩ <;> (norm_num; done)))
              | (split at hr)
              | cases hr
        · rw [if_neg hmf] at hr
          refine classStepTail_conf _ _ _ _ _ _ _ _ _ hcm' ?_ r hr
          intro r hr
          repeat
            first
            | exact hacc r hr
            | (rcases List.mem_append.mp hr with hr | hr)
            | (rcases List.mem_singleton.mp hr with rfl
               refine ⟨?_, ?_⟩ <;> (norm_num; done))
            | (obtain ⟨a, -, hs⟩ := List.mem_filterMap.mp hr
               split at hs <;>
                 first
                 | exact Option.noConfusion hs
                 | (cases hs
                    refine ⟨?_, ?_⟩ <;> (norm_num; done)))
            | (split at hr)
            | cases hr
    · rw [if_neg hG] at hr
      refine classStepTail_conf _ _ _ _ _ _ _ _ _ hcm' ?_ r hr
      intro r hr
      rcases ext with - | parent <;> try dsimp only at hr <;>
        repeat
          first
          | exact hacc r hr
          | (rcases List.mem_append.mp hr with hr | hr)
          | (rcases List.mem_singleton.mp hr with rfl
             refine ⟨?_, ?_⟩ <;> (norm_num; done))
          | (obtain ⟨a, -, hs⟩ := List.mem_filterMap.mp hr
             split at hs <;>
               first
               | exact Option.noConfusion hs
               | (cases hs
                  refine ⟨?_, ?_⟩ <;> (norm_num; done)))
          | (split at hr)
          | cases hr

theorem classAstLoop_conf (code file_name : String) (stats : Option PStats)
    (tree : JTree) (cns : List String) (pm : List (String × String))
    (mf : Option (List JMethod × List JFieldDecl)) (acc : List SmellReport)
    (hcm : ∀ st ∈ stats, 0 ≤ st.class_median)
    (hacc : ∀ r ∈ acc, ConfOK r) :
    ∀ r ∈ (classAstLoop code file_name stats tree cns pm mf acc).1,
      ConfOK r := by
  induction tree generalizing cns pm mf acc with
  | nil => intro r hr; exact hacc r hr
  | cons node rest ih =>
    intro r hr
    unfold classAstLoop at hr
    cases node with
    | classDecl name ext impls ms fs pos =>
      dsimp only at hr
      split at hr
      · exact classNodeStep_conf code file_name stats name ext impls ms fs
          cns pm mf acc hcm hacc r hr
      · exact ih _ _ _ _ (classNodeStep_conf code file_name stats name ext
          impls ms fs cns pm mf acc hcm hacc) r hr
    | interfaceDecl name ms fs pos => exact ih _ _ _ _ hacc r hr
    | methodDecl name body pos => exact ih _ _ _ _ hacc r hr
    | packageDecl => exact ih _ _ _ _ hacc r hr
    | switchStmtNode => exact ih _ _ _ _ hacc r hr
    | loopOrIfNode => exact ih _ _ _ _ hacc r hr
    | otherNode => exact ih _ _ _ _ hacc r hr

theorem divergent_conf (file_name : String) (tree : JTree) :
    ∀ r ∈ divergentReports file_name tree, ConfOK r := by
  refine confFilterMap ?_
  intro a r hs
  rcases a with ⟨name, ext, impls, ms, fs, pos⟩ | _ | _ | _ | _ | _ | _ <;>
    first
    | exact Option.noConfusion hs
    | (dsimp only at hs
       split at hs <;>
         first
         | exact Option.noConfusion hs
         | (cases hs
            refine ⟨?_, ?_⟩ <;> (norm_num; done)))

theorem parallel_conf (oracle : ParseOracle) (file_name : String)
    (pm : List (String × String)) (af : Option (List String))
    (fc : Option (List (String × String))) :
    ∀ r ∈ parallelReports oracle file_name pm af fc, ConfOK r := by
  intro r hr
  unfold parallelReports at hr
  rcases af with - | af
  · dsimp only at hr; cases hr
  · rcases fc with - | fc
    · dsimp only at hr; cases hr
    · dsimp only at hr
      split at hr
      · cases hr
      · obtain ⟨l, hl, hr⟩ := List.mem_flatten.mp hr
        obtain ⟨entry, -, rfl⟩ := List.mem_map.mp hl
        split at hr
        · cases hr
        · rcases ho : oracle entry.2 with - | t2
          · rw [ho] at hr; cases hr
          · rw [ho] at hr
            obtain ⟨l2, hl2, hr⟩ := List.mem_flatten.mp hr
            obtain ⟨node2, -, rfl⟩ := List.mem_map.mp hl2
            rcases node2 with ⟨name2, ext2, impls2, ms2, fs2, pos2⟩ | _ | _ | _ | _ | _ | _ <;>
              try (cases hr)
            rcases ext2 with - | parent2
            · cases hr
            · obtain ⟨pme, -, hs⟩ := List.mem_filterMap.mp hr
              split at hs
              · cases hs
                refine ⟨?_, ?_⟩ <;> (norm_num; done)
              · exact Option.noConfusion hs

theorem classFallback_conf (code file_name : String) :
    ∀ r ∈ classRegexFallback code file_name, ConfOK r := by
  refine confFilterMap ?_
  intro a r hs
  dsimp only at hs
  rcases hf : scanFirst implMatchAt ((code.data.drop (a.2.1 - 100)).take
      (a.2.1 - (a.2.1 - 100))).length ((code.data.drop (a.2.1 - 100)).take
      (a.2.1 - (a.2.1 - 100))) with - | cap
  · rw [hf] at hs
    exact Option.noConfusion hs
  · rw [hf] at hs
    dsimp only at hs
    split at hs
    · cases hs
      refine pyMin_one_unit (ratio_step_nonneg (by norm_num) ?_)
      exact_mod_cast (by assumption : _ > 3)
    · exact Option.noConfusion hs

theorem class_conf (oracle : ParseOracle) (code file_name : String)
    (stats : Option PStats) (af : Option (List String))
    (fc : Option (List (String × String)))
    (hcm : ∀ st ∈ stats, 0 ≤ st.class_median) :
    ∀ r ∈ ClassSmellAgent.detect oracle code file_name stats af fc,
      ConfOK r := by
  intro r hr
  unfold ClassSmellAgent.detect at hr
  rcases ho : oracle code with - | tree
  · rw [ho] at hr
    exact classFallback_conf code file_name r hr
  · rw [ho] at hr
    dsimp only at hr
    split at hr
    · rcases List.mem_append.mp hr with hr | hr
      · exact classAstLoop_conf code file_name stats tree [] [] none []
          hcm (fun r hr => absurd hr (List.not_mem_nil r)) r hr
      · exact classFallback_conf code file_name r hr
    · rcases List.mem_append.mp hr with hr | hr
      · rcases List.mem_append.mp hr with hr | hr
        · exact classAstLoop_conf code file_name stats tree [] [] none []
            hcm (fun r hr => absurd hr (List.not_mem_nil r)) r hr
        · exact divergent_conf file_name tree r hr
      · exact parallel_conf oracle file_name _ af fc r hr

/-- Claim C2: every `SmellReport` emitted by any of the six smell detectors
(class, method, field, architecture, miscellaneous, dependency levels — the
lists concatenated by `SmellAgent.detect`) has a confidence in the closed
interval [0,1], for every input text, corpus, duplicated-code state and any
project statistics with nonnegative medians (`compute_project_stats` only
produces nonnegative medians). -/
theorem C2_confidence_in_unit_interval (oracle : ParseOracle)
    (code file_name : String) (all_files : List String)
    (file_contents : List (String × String)) (stats : Option PStats)
    (dst : DupState)
    (hcm : ∀ st ∈ stats, 0 ≤ st.class_median)
    (hmm : ∀ st ∈ stats, 0 ≤ st.method_median) :
    ∀ r ∈ (SmellAgent.results oracle code file_name all_files file_contents
      stats dst).1, 0 ≤ r.confidence ∧ r.confidence ≤ 1 := by
  intro r hr
  unfold SmellAgent.results at hr
  dsimp only at hr
  rcases List.mem_append.mp hr with hr | hr
  · rcases List.mem_append.mp hr with hr | hr
    · rcases List.mem_append.mp hr with hr | hr
      · rcases List.mem_append.mp hr with hr | hr
        · rcases List.mem_append.mp hr with hr | hr
          · exact class_conf oracle code file_name stats (some all_files)
              (some file_contents) hcm r hr
          · exact method_conf code file_name stats dst hmm r hr
        · have h1 := @fieldDetect_confidence_one code file_name r hr
          rw [h1]
          exact ⟨by norm_num, le_refl 1⟩
      · exact arch_conf code file_name file_contents r hr
    · exact misc_conf code file_name stats r hr
  · exact dep_conf code file_name all_files file_contents r hr

/-- Witness for C2's median hypotheses: a concrete corpus with medians
100 and 40. -/
theorem C2_confidence_in_unit_interval_witness :
    (∀ st ∈ (some (⟨100, 40⟩ : PStats)), 0 ≤ st.class_median) ∧
    (∀ st ∈ (some (⟨100, 40⟩ : PStats)), 0 ≤ st.method_median) ∧
    (∀ r ∈ (SmellAgent.results (fun _ => none) "public int x;" "A.java"
      ["A.java"] [("A.java", "public int x;")] (some ⟨100, 40⟩) []).1,
      0 ≤ r.confidence ∧ r.confidence ≤ 1) :=
  ⟨by intro st hst; cases hst; norm_num,
   by intro st hst; cases hst; norm_num,
   C2_confidence_in_unit_interval (fun _ => none) "public int x;" "A.java"
     ["A.java"] [("A.java", "public int x;")] (some ⟨100, 40⟩) []
     (by intro st hst; cases hst; norm_num)
     (by intro st hst; cases hst; norm_num)⟩

/-! ## MetricAgent (class `MetricAgent` in the source)

`analyze` first tries `javalang.parse.parse` (the oracle); on any exception
`e` it falls back to regex counts and keyword statistics.  Values are the
Python ints and strings of the result dict. -/

inductive MAVal where
  | num (n : Nat)
  | str (s : String)
  | strs (l : List String)
  | debugDict
  deriving DecidableEq, Repr

def isClassDeclNode : JNode → Bool
  | .classDecl _ _ _ _ _ _ => true
  | _ => false

def classMethodCount : JNode → Nat
  | .classDecl _ _ _ ms _ _ => ms.length
  | _ => 0

def metricKeywords : List String :=
  ["public", "private", "protected", "static", "final", "void", "int", "String"]

def MetricAgent.analyze (oracle : ParseOracle) (e : String) (code : String) :
    List (String × MAVal) :=
  match oracle code with
  | some tree =>
    ("Lines of Code (LOC)", .num (pySplitlines code).length) ::
    ("Number of classes", .num (tree.filter isClassDeclNode).length) ::
    ("Number of methods", .num (tree.map classMethodCount).sum) ::
    ("_strategy", .str "javalang") ::
    ("_warnings", .strs []) ::
    ("_debug", .debugDict) :: []
  | none =>
    ("Lines of Code (LOC)", .num (pySplitlines code).length) ::
    ("Number of classes", .num (scanCount clsWordMatchAt code.data.length code.data)) ::
    ("Number of methods",
      .num (scanCount (fun s => (msigMatchAt s).map (fun p => p.2))
        code.data.length code.data)) ::
    ("_strategy", .str "regex-fallback") ::
    ("_warnings", .strs ["javalang failed: " ++ e ++
        ". Falling back to regex/statistical analysis.",
      "Using regex/statistical fallback. Only basic metrics are available."]) ::
    ("_debug", .debugDict) ::
    metricKeywords.map (fun kw => ("Keyword: " ++ kw, .num (wbCountWord kw code)))

/-- Claim C10: under both parser strategies (parse success and the regex
fallback) `MetricAgent.analyze` returns a mapping containing the keys
"Lines of Code (LOC)", "Number of classes", "Number of methods",
"_strategy", "_warnings" and "_debug", and the "Lines of Code (LOC)" value
is the line count of the input under both strategies. -/
theorem C10_metric_agent_keys_and_loc (oracle : ParseOracle) (e code : String) :
    (∀ k ∈ ["Lines of Code (LOC)", "Number of classes", "Number of methods",
        "_strategy", "_warnings", "_debug"],
      ((MetricAgent.analyze oracle e code).lookup k).isSome = true) ∧
    (MetricAgent.analyze oracle e code).lookup "Lines of Code (LOC)" =
      some (.num (pySplitlines code).length) := by
  constructor
  · intro k hk
    unfold MetricAgent.analyze
    rcases ho : oracle code with - | tree <;>
      simp only [List.mem_cons, List.not_mem_nil, or_false] at hk <;>
      rcases hk with rfl | rfl | rfl | rfl | rfl | rfl <;> rfl
  · unfold MetricAgent.analyze
    rcases ho : oracle code with - | tree <;> rfl

/-! ## Metric-group helpers -/

/-- Python `round(x, 2)` (round-half-even), over the rational embedding of
floats. -/
def pyRound2 (q : ℚ) : ℚ :=
  let s := q * 100
  let f : ℤ := ⌊s⌋
  let frac := s - f
  let r : ℤ :=
    if frac < 1/2 then f
    else if frac > 1/2 then f + 1
    else if f % 2 = 0 then f else f + 1
  (r : ℚ) / 100

/-- The correct brace loop of the complexity fallback (count starts at 0 and
reads the opening brace once): offset of the character that zeroes the
count, `none` when the input ends unbalanced. -/
def braceMatchLen : List Char → Int → Option Nat
  | [], _ => none
  | c :: rest, bc =>
    let bc' := if c = '\x7b' then bc + 1 else if c = '\x7d' then bc - 1 else bc
    if bc' = 0 then some 0 else (braceMatchLen rest bc').map (· + 1)

/-- Maximum brace-nesting depth reached while scanning (`nest`/`max_nest`
loop of the complexity fallback). -/
def maxNestAux : List Char → Int → Int → Int
  | [], _, mx => mx
  | c :: rest, nest, mx =>
    if c = '\x7b' then maxNestAux rest (nest + 1) (max mx (nest + 1))
    else if c = '\x7d' then maxNestAux rest (nest - 1) mx
    else maxNestAux rest nest mx

/-- First literal alternative that matches at this position. -/
def litAltTry : List (List Char) → List Char → Option (List Char)
  | [], _ => none
  | w :: ws, s =>
    match dropLit w s with
    | some r => some r
    | none => litAltTry ws s

/-- `len(re.findall(r'w1|w2|...', code))` for literal alternatives. -/
def litAltCountAux (ws : List (List Char)) : Nat → List Char → Nat
  | 0, _ => 0
  | _ + 1, [] => 0
  | fuel + 1, s@(_ :: rest) =>
    match litAltTry ws s with
    | some r => 1 + litAltCountAux ws fuel r
    | none => litAltCountAux ws fuel rest

def litAltCount (ws : List String) (code : String) : Nat :=
  litAltCountAux (ws.map String.data) code.data.length code.data

/-- Matcher for the ternary pattern `\?\s*:`. -/
def ternMatchAt : List Char → Option (List Char)
  | '?' :: r =>
    match (span2 isPySpace r).2 with
    | ':' :: r2 => some r2
    | _ => none
  | _ => none

/-- Matcher for `case\s+[^:]+:`. -/
def caseColonMatchAt (s : List Char) : Option (List Char) :=
  match dropLit "case".data s with
  | none => none
  | some r1 =>
    match munch1 isPySpace r1 with
    | none => none
    | some (_, r2) =>
      match munch1 (fun c => !(c = ':')) r2 with
      | none => none
      | some (_, r3) =>
        match r3 with
        | ':' :: r4 => some r4
        | _ => none

/-- Matcher for `catch\s*\(`. -/
def catchParenMatchAt (s : List Char) : Option (List Char) :=
  match dropLit "catch".data s with
  | none => none
  | some r1 =>
    match (span2 isPySpace r1).2 with
    | '(' :: r2 => some r2
    | _ => none

/-- Matcher for `assert\s`. -/
def assertSpaceMatchAt (s : List Char) : Option (List Char) :=
  match dropLit "assert".data s with
  | none => none
  | some r1 =>
    match r1 with
    | c :: r2 => if isPySpace c then some r2 else none
    | _ => none

/-- Counting scan for a matcher whose pattern starts with `\b`. -/
def wbScanCountAux (m : List Char → Option (List Char)) :
    Nat → Option Char → List Char → Nat
  | 0, _, _ => 0
  | _ + 1, _, [] => 0
  | fuel + 1, prev, s@(c :: rest) =>
    if wordBoundaryOk prev then
      match m s with
      | some r =>
        1 + wbScanCountAux m fuel ((s.take (s.length - r.length)).getLast?) r
      | none => wbScanCountAux m fuel (some c) rest
    else wbScanCountAux m fuel (some c) rest

def wbScanCount (m : List Char → Option (List Char)) (code : String) : Nat :=
  wbScanCountAux m code.data.length none code.data

/-- Optional `(public|private|protected)?` group before a tail pattern, with
the one-level backtracking of the regex engine. -/
def optModMatchAt {α : Type} (tail : List Char → Option α) (s : List Char) :
    Option α :=
  match dropLit "public".data s with
  | some r =>
    match tail r with
    | some res => some res
    | none => tail s
  | none =>
  match dropLit "private".data s with
  | some r =>
    match tail r with
    | some res => some res
    | none => tail s
  | none =>
  match dropLit "protected".data s with
  | some r =>
    match tail r with
    | some res => some res
    | none => tail s
  | none => tail s

/-- `\s+\w+\s+\w+\s*(=|;)` — tail of the structural field count pattern. -/
def fieldSigTail (s : List Char) : Option (List Char) :=
  match munch1 isPySpace s with
  | none => none
  | some (_, r1) =>
    match munch1 isPyWord r1 with
    | none => none
    | some (_, r2) =>
      match munch1 isPySpace r2 with
      | none => none
      | some (_, r3) =>
        match munch1 isPyWord r3 with
        | none => none
        | some (_, r4) =>
          match (span2 isPySpace r4).2 with
          | '=' :: r5 => some r5
          | ';' :: r5 => some r5
          | _ => none

/-- `\s+\w+\s+\w+\s*;` — tail of the missing-modifier pattern. -/
def secModTail (s : List Char) : Option (List Char) :=
  match munch1 isPySpace s with
  | none => none
  | some (_, r1) =>
    match munch1 isPyWord r1 with
    | none => none
    | some (_, r2) =>
      match munch1 isPySpace r2 with
      | none => none
      | some (_, r3) =>
        match munch1 isPyWord r3 with
        | none => none
        | some (_, r4) =>
          match (span2 isPySpace r4).2 with
          | ';' :: r5 => some r5
          | _ => none

/-- Matcher for `(get|set)\w+\s*\(`. -/
def accessorMatchAt (s : List Char) : Option (List Char) :=
  let tail := fun (r : List Char) =>
    (munch1 isPyWord r).bind (fun p =>
      match (span2 isPySpace p.2).2 with
      | '(' :: r2 => some r2
      | _ => none)
  match dropLit "get".data s with
  | some r => tail r
  | none =>
    match dropLit "set".data s with
    | some r => tail r
    | none => none

/-- A stripped line that is neither empty nor a `//` or `/*` comment. -/
def elocLine (l : String) : Bool :=
  let t := pyStrip l
  !t.data.isEmpty && !pyStartsWith t "//" && !pyStartsWith t "/*"

/-- A stripped line starting a comment. -/
def commentLine (l : String) : Bool :=
  pyStartsWith (pyStrip l) "//" || pyStartsWith (pyStrip l) "/*"

/-- `hasattr(n, 'line')` for a javalang AST node: nodes expose `position`,
never a bare `line` attribute, so the structural `class_end` comprehension
collects nothing and `max(..., default=class_start.line)` always yields the
default. -/
def nodeLineAttr : JNode → Option Nat := fun _ => none

/-- Python `max(l, default := d)`. -/
def pyMaxD (l : List Nat) (d : Nat) : Nat :=
  match l with
  | [] => d
  | x :: xs => xs.foldl max x

/-- `hasattr(node, 'fields') and hasattr(node, 'methods')`: true for class
and interface declarations in javalang. -/
def hasFieldsMethods : JNode → Bool
  | .classDecl _ _ _ _ _ _ => true
  | .interfaceDecl _ _ _ _ => true
  | _ => false

def nodeMethodCount : JNode → Nat
  | .classDecl _ _ _ ms _ _ => ms.length
  | .interfaceDecl _ ms _ _ => ms.length
  | _ => 0

def nodeFieldCount : JNode → Nat
  | .classDecl _ _ _ _ fs _ => fs.length
  | .interfaceDecl _ _ fs _ => fs.length
  | _ => 0

def nodePosition : JNode → Option Nat
  | .classDecl _ _ _ _ _ p => p
  | .interfaceDecl _ _ _ p => p
  | .methodDecl _ _ p => p
  | _ => none

/-! ## analyze_structural_metrics -/

structure StructAcc where
  class_count : Nat := 0
  interface_count : Nat := 0
  method_counts : List Nat := []
  field_counts : List Nat := []
  accessor_count : Nat := 0
  package_count : Nat := 0
  max_class_size : Nat := 0
  max_method_size : Nat := 0
  deriving Repr

def structuralStep (tree : JTree) (a : StructAcc) (node : JNode) : StructAcc :=
  let a :=
    if hasFieldsMethods node then
      let a := { a with class_count := a.class_count + 1,
                        field_counts := a.field_counts ++ [nodeFieldCount node],
                        method_counts := a.method_counts ++ [nodeMethodCount node] }
      match nodePosition node with
      | some line =>
        let class_end := pyMaxD (tree.filterMap nodeLineAttr) line
        { a with max_class_size := max a.max_class_size (class_end - line + 1) }
      | none => a
    else a
  let a :=
    match node with
    | .interfaceDecl _ _ _ _ => { a with interface_count := a.interface_count + 1 }
    | _ => a
  let a :=
    match node with
    | .packageDecl => { a with package_count := a.package_count + 1 }
    | _ => a
  match node with
  | .methodDecl name body p =>
    let a :=
      match p with
      | some _ =>
        { a with max_method_size := max a.max_method_size ((body.getD []).length + 1) }
      | none => a
    if pyStartsWith name "get" || pyStartsWith name "set" then
      { a with accessor_count := a.accessor_count + 1 }
    else a
  | _ => a

def analyze_structural_metrics (code : String) (tree : JTree)
    (fallback : Bool) : List (String × ℚ) :=
  let lines := pySplitlines code
  let loc : ℚ := lines.length
  let eloc : ℚ := (lines.filter elocLine).length
  if fallback || tree.isEmpty then
    let d := code.data
    let class_count := scanCount clsWordMatchAt d.length d
    let interface_count :=
      scanCount (fun s => (ifaceNameMatchAt s).map (fun p => p.2)) d.length d
    let method_count :=
      scanCount (fun s => (msigMatchAt s).map (fun p => p.2)) d.length d
    let field_count := scanCount (optModMatchAt fieldSigTail) d.length d
    let accessor_count := scanCount accessorMatchAt d.length d
    let package_count :=
      scanCount (fun s => (packageMatchAt s).map (fun p => p.2)) d.length d
    [("Lines of Code (LOC)", loc),
     ("Effective Lines of Code (eLOC)", eloc),
     ("Number of Classes", class_count),
     ("Number of Interfaces", interface_count),
     ("Number of Methods per Class",
       if class_count = 0 then 0 else (method_count : ℚ) / class_count),
     ("Number of Fields per Class",
       if class_count = 0 then 0 else (field_count : ℚ) / class_count),
     ("Number of Packages", package_count),
     ("Maximum Class Size", 0),
     ("Maximum Method Size (in LOC)", 0),
     ("Number of Accessors (getters/setters)", accessor_count)]
  else
    let a := tree.foldl (structuralStep tree) {}
    [("Lines of Code (LOC)", loc),
     ("Effective Lines of Code (eLOC)", eloc),
     ("Number of Classes", a.class_count),
     ("Number of Interfaces", a.interface_count),
     ("Number of Methods per Class",
       if a.class_count = 0 then 0 else (a.method_counts.sum : ℚ) / a.class_count),
     ("Number of Fields per Class",
       if a.class_count = 0 then 0 else (a.field_counts.sum : ℚ) / a.class_count),
     ("Number of Packages", a.package_count),
     ("Maximum Class Size", a.max_class_size),
     ("Maximum Method Size (in LOC)", a.max_method_size),
     ("Number of Accessors (getters/setters)", a.accessor_count)]

/-! ## analyze_complexity_metrics -/

/-- One alternative of the dead AST-branch pattern
`\\b(if|for|while|case|catch|throw|&&|\\|\\|)\\b` (the doubled backslashes
make it match a literal backslash-b, and split the intended `\|\|` into two
lone-backslash alternatives), followed by the closing literal `\b`. -/
def deadAltTry : List (List Char) → List Char → Option (List Char)
  | [], _ => none
  | w :: ws, s =>
    match dropLit w s with
    | some r =>
      match r with
      | '\\' :: 'b' :: r2 => some r2
      | _ => deadAltTry ws s
    | none => deadAltTry ws s

def deadCycloAlts : List (List Char) :=
  ["if".data, "for".data, "while".data, "case".data, "catch".data,
   "throw".data, "&&".data, ['\\'], ['\\']]

def deadCycloMatchAt (s : List Char) : Option (List Char) :=
  match s with
  | '\\' :: 'b' :: r => deadAltTry deadCycloAlts r
  | _ => none

structure MMetrics where
  name : String
  cyclomatic : Nat
  cognitive : Int
  nesting : Int
  switch : Nat
  caseCnt : Nat
  control_flow : Nat
  num_conditions : Nat
  deriving Repr

/-- The complexity fallback's per-method metrics.  The header match ends
just after the opening brace, so `code.find('{', end-1)` is `end-1`; this
brace loop starts its count at 0 and is balanced (no double count). -/
def complexityFallbackMethods (code : String) : List MMetrics :=
  (scanCollectPos msigMatchAt code.data.length 0 code.data).map (fun t =>
    let bodyStart := t.2.2 - 1
    let rest := code.data.drop bodyStart
    let method_body := String.mk (match braceMatchLen rest 0 with
      | some k => (code.data.drop (bodyStart + 1)).take (k - 1)
      | none => code.data.drop (bodyStart + 1))
    let db := method_body.data
    let max_nest := maxNestAux db 0 0
    { name := String.mk t.1.1
      cyclomatic := 1 +
        wbAltCount ["if", "for", "while", "case", "catch", "throw"] method_body +
        litAltCount ["&&", "||"] method_body +
        scanCount ternMatchAt db.length db
      cognitive := (wbAltCount ["if", "for", "while", "case", "catch", "throw",
        "else", "finally", "break", "continue", "return"] method_body : Int) +
        max_nest
      nesting := max_nest
      switch := scanCount switchCallMatchAt db.length db
      caseCnt := scanCount caseColonMatchAt db.length db
      control_flow := wbAltCount ["if", "for", "while", "do", "switch", "case",
        "catch", "throw"] method_body
      num_conditions := wbAltCount ["if", "else if", "while", "for", "case"]
        method_body })

def jstmtCount (p : JStmt → Bool) (body : Option (List JStmt)) : Nat :=
  ((body.getD []).filter p).length

def analyze_complexity_metrics (code : String) (tree : JTree)
    (fallback : Bool) : List (String × ℚ) :=
  if fallback || tree.isEmpty then
    let mm := complexityFallbackMethods code
    if mm.isEmpty then
      [("Cyclomatic Complexity (approx)", 0),
       ("Cognitive Complexity (approx)", 0),
       ("Nesting Depth (approx)", 0),
       ("Switch Complexity", 0),
       ("Control Flow Complexity", 0),
       ("Number of Conditions per Method (approx)", 0)]
    else
      let nst : Int :=
        match mm.map (fun m => m.nesting) with
        | [] => 0
        | x :: xs => xs.foldl max x
      [("Cyclomatic Complexity (approx)", ((mm.map (fun m => m.cyclomatic)).sum : ℚ)),
       ("Cognitive Complexity (approx)", ((mm.map (fun m => m.cognitive)).sum : ℚ)),
       ("Nesting Depth (approx)", (Int.cast nst : ℚ)),
       ("Switch Complexity", ((mm.map (fun m => m.switch)).sum : ℚ)),
       ("Control Flow Complexity", ((mm.map (fun m => m.control_flow)).sum : ℚ)),
       ("Number of Conditions per Method (approx)",
         pyRound2 (((mm.map (fun m => m.num_conditions)).sum : ℚ) / mm.length))]
  else
    let cyclomatic := scanCount deadCycloMatchAt code.data.length code.data + 1 +
      (tree.map (fun n =>
        match n with
        | .methodDecl _ body _ => jstmtCount (fun st => st.hasStatement) body
        | _ => 0)).sum
    let cognitive := (tree.map (fun n =>
      match n with
      | .methodDecl _ body _ => jstmtCount (fun st => st.hasExpression) body
      | _ => 0)).sum
    let nesting := (tree.map (fun n =>
      match n with
      | .methodDecl _ body _ => jstmtCount (fun st => st.hasBlock) body
      | _ => 0)).sum
    let conditions := (tree.map (fun n =>
      match n with
      | .methodDecl _ body _ => jstmtCount (fun st => st.hasCondition) body
      | _ => 0)).sum
    let switch_complexity := (tree.filter (fun n =>
      match n with
      | .switchStmtNode => true
      | _ => false)).length
    let control_flow := (tree.filter (fun n =>
      match n with
      | .loopOrIfNode => true
      | _ => false)).length
    [("Cyclomatic Complexity (approx)", (cyclomatic : ℚ)),
     ("Cognitive Complexity (approx)", (cognitive : ℚ)),
     ("Nesting Depth (approx)", (nesting : ℚ)),
     ("Switch Complexity", (switch_complexity : ℚ)),
     ("Control Flow Complexity", (control_flow : ℚ)),
     ("Number of Conditions per Method (approx)", (conditions : ℚ))]

/-! ## DependencyAgent and analyze_coupling_metrics -/

def pyBasename (p : String) : String :=
  String.mk ((p.data.reverse.takeWhile (fun c => !(c = '/'))).reverse)

def pyRfindIdx (c : Char) (s : List Char) : Option Nat :=
  (s.reverse.findIdx? (fun x => x = c)).map (fun i => s.length - 1 - i)

/-- `os.path.splitext(p)[0]` (posixpath): split at the last dot, unless
every basename character before it is a dot. -/
def pySplitextBase (p : String) : String :=
  let d := p.data
  let sepIndex : Int :=
    match pyRfindIdx '/' d with
    | some i => (i : Int)
    | none => -1
  match pyRfindIdx '.' d with
  | none => p
  | some dot =>
    if (dot : Int) > sepIndex then
      let startIdx : Nat := (sepIndex + 1).toNat
      if ((d.drop startIdx).take (dot - startIdx)).any (fun c => !(c = '.')) then
        String.mk (d.take dot)
      else p
    else p

/-- The `.*{base}[;.]` tail of the dead import pattern: scan forward without
crossing a newline for the base name followed by `;` or `.`. -/
def deadImportTailSearch (base : List Char) : Nat → List Char → Bool
  | 0, _ => false
  | _ + 1, [] => false
  | fuel + 1, s@(c :: rest) =>
    (match dropLit base s with
     | some r =>
       match r with
       | ';' :: _ => true
       | '.' :: _ => true
       | _ => false
     | none => false) ||
    (if c = '\n' then false else deadImportTailSearch base fuel rest)

/-- `re.search(rf"import\\s+.*{base}[;.]", text)`: the doubled backslash in
the f-string makes the pattern require a literal backslash followed by at
least one letter `s` after `import`, so it matches no real Java code.  The
embedding assumes `\w`-only base names, as produced by Java file names. -/
def deadImportMatchAt (base : List Char) (s : List Char) : Option (List Char) :=
  match dropLit "import".data s with
  | none => none
  | some r1 =>
    match r1 with
    | '\\' :: 's' :: r3 =>
      if deadImportTailSearch base r3.length r3 then some r3 else none
    | _ => none

def deadImportSearch (base : List Char) (code : List Char) : Bool :=
  scanExists (deadImportMatchAt base) code.length code

/-- Embedding of `DependencyAgent.analyze`: the `incoming`/`outgoing` sets,
as insertion-ordered lists (only their sizes feed the metrics). -/
def DependencyAgent.analyze (selected_file code_content : String)
    (all_files : List String) (file_contents : List (String × String)) :
    List String × List String :=
  let this_base := pySplitextBase (pyBasename selected_file)
  let outgoing := firstDedup (all_files.filter (fun other =>
    !(other = selected_file) &&
      (let ob := pySplitextBase (pyBasename other)
       deadImportSearch ob.data code_content.data ||
         wbCountWord ob code_content > 0)))
  let incoming := firstDedup ((file_contents.filter (fun p =>
    !(p.1 = selected_file) &&
      (deadImportSearch this_base.data p.2.data ||
        wbCountWord this_base p.2 > 0))).map (fun p => p.1))
  (incoming, outgoing)

/-- Matcher for `^\s*import\s+[\w\.\*]+;` at a line start. -/
def anchoredImportMatchAt (s : List Char) : Option (List Char) :=
  let t := s.dropWhile isPySpace
  match dropLit "import".data t with
  | none => none
  | some r1 =>
    match munch1 isPySpace r1 with
    | none => none
    | some (_, r2) =>
      match munch1 (fun c => isPyWord c || c = '.' || c = '*') r2 with
      | none => none
      | some (_, r3) =>
        match r3 with
        | ';' :: r4 => some r4
        | _ => none

/-- `finditer` for a `^`-anchored MULTILINE pattern. -/
def anchoredScanCountAux (m : List Char → Option (List Char)) :
    Nat → Bool → List Char → Nat
  | 0, _, _ => 0
  | _ + 1, _, [] => 0
  | fuel + 1, atStart, s@(c :: rest) =>
    if atStart then
      match m s with
      | some r =>
        1 + anchoredScanCountAux m fuel
          (((s.take (s.length - r.length)).getLast?) = some '\n') r
      | none => anchoredScanCountAux m fuel (c = '\n') rest
    else anchoredScanCountAux m fuel (c = '\n') rest

def anchoredScanCount (m : List Char → Option (List Char)) (code : String) :
    Nat :=
  anchoredScanCountAux m code.data.length true code.data

/-- Matcher for `new\s+([A-Z][A-Za-z0-9_]*)\s*\(` with its capture. -/
def newClassMatchAt (s : List Char) : Option (List Char × List Char) :=
  match dropLit "new".data s with
  | none => none
  | some r1 =>
    match munch1 isPySpace r1 with
    | none => none
    | some (_, r2) =>
      match r2 with
      | c :: r3 =>
        if 'A' ≤ c ∧ c ≤ 'Z' then
          let p := span2 (fun ch => ch.isAlphanum || ch = '_') r3
          match (span2 isPySpace p.2).2 with
          | '(' :: r4 => some (c :: p.1, r4)
          | _ => none
        else none
      | [] => none

/-- Matcher for `public\s+\w+\s+\w+\s*\(` (after the leading `\b`). -/
def rfcMatchAt (s : List Char) : Option (List Char) :=
  match dropLit "public".data s with
  | none => none
  | some r1 =>
    (munch1 isPySpace r1).bind (fun p1 =>
    (munch1 isPyWord p1.2).bind (fun p2 =>
    (munch1 isPySpace p2.2).bind (fun p3 =>
    (munch1 isPyWord p3.2).bind (fun p4 =>
    match (span2 isPySpace p4.2).2 with
    | '(' :: r => some r
    | _ => none))))

def analyze_coupling_metrics (code : String) (_tree : JTree)
    (_fallback : Bool) (file_path : Option String)
    (ctx : Option (List String × List (String × String))) :
    List (String × ℚ) :=
  let fanInOut : Nat × Nat :=
    match ctx, file_path with
    | some (af, fc), some fp =>
      let dep := DependencyAgent.analyze fp code af fc
      (dep.1.length, dep.2.length)
    | _, _ =>
      (anchoredScanCount anchoredImportMatchAt code,
       (firstDedup ((scanCollect newClassMatchAt code.data.length
         code.data).map String.mk)).length)
  let fan_in := fanInOut.1
  let fan_out := fanInOut.2
  let cbo := wbCountWord "implements" code + wbCountWord "extends" code
  let rfc := wbScanCount rfcMatchAt code
  [("Coupling Between Object Classes (CBO)", (cbo : ℚ)),
   ("Response for a Class (RFC)", (rfc : ℚ)),
   ("Fan-In", (fan_in : ℚ)),
   ("Fan-Out", (fan_out : ℚ)),
   ("Afferent Coupling (Ca)", (fan_in : ℚ)),
   ("Number of External Dependencies", (fan_in : ℚ))]

/-! ## A small backtracking regex engine

The annotated field/method patterns of the cohesion and OO fallbacks mix a
starred modifier alternation with capture groups, which needs genuine
backtracking.  `reAll` returns every (captures, rest) outcome in the
engine's preference order (greedy stars and `?`, alternatives left to
right), so `head?` is the Python match. -/

inductive RE where
  | lit (cs : List Char)
  | cls (p : Char → Bool)
  | seq (a b : RE)
  | alt (a b : RE)
  | star (a : RE)
  | grp (i : Nat) (a : RE)

/-- One level of the matcher, structurally recursive on the pattern;
`next` resolves a star's body and continuation at the next-smaller fuel. -/
def reAllGo
    (next : RE → List Char → List (List (Nat × List Char) × List Char)) :
    RE → List Char → List (List (Nat × List Char) × List Char)
  | .lit cs, s =>
    match dropLit cs s with
    | some r => [([], r)]
    | none => []
  | .cls p, s =>
    match s with
    | c :: r => if p c then [([], r)] else []
    | [] => []
  | .seq a b, s =>
    (reAllGo next a s).flatMap (fun pr =>
      (reAllGo next b pr.2).map (fun qr => (pr.1 ++ qr.1, qr.2)))
  | .alt a b, s => reAllGo next a s ++ reAllGo next b s
  | .star a, s =>
    ((next a s).flatMap (fun pr =>
      (next (.star a) pr.2).map (fun qr => (pr.1 ++ qr.1, qr.2)))) ++
    [([], s)]
  | .grp i a, s =>
    (reAllGo next a s).map (fun pr =>
      (pr.1 ++ [(i, s.take (s.length - pr.2.length))], pr.2))

def reAll : Nat → RE → List Char → List (List (Nat × List Char) × List Char)
  | 0, re, s => reAllGo (fun _ _ => []) re s
  | fuel + 1, re, s => reAllGo (reAll fuel) re s

def reP (a : RE) : RE := .seq a (.star a)

def reFirst (re : RE) (s : List Char) :
    Option (List (Nat × List Char) × List Char) :=
  (reAll (s.length + 1) re s).head?

def reScanAux (re : RE) : Nat → Nat → List Char →
    List (List (Nat × List Char) × Nat × Nat)
  | 0, _, _ => []
  | _ + 1, _, [] => []
  | fuel + 1, pos, s@(c :: rest) =>
    match reFirst re s with
    | some (caps, r) =>
      let len := s.length - r.length
      if len = 0 then (caps, pos, pos) :: reScanAux re fuel (pos + 1) rest
      else (caps, pos, pos + len) :: reScanAux re fuel (pos + len) r
    | none => reScanAux re fuel (pos + 1) rest

def reScan (re : RE) (code : String) :
    List (List (Nat × List Char) × Nat × Nat) :=
  reScanAux re code.data.length 0 code.data

/-- Last binding of a group (Python keeps the final repetition). -/
def capGet (caps : List (Nat × List Char)) (i : Nat) : Option (List Char) :=
  (caps.reverse.find? (fun p => p.1 = i)).map (fun p => p.2)

def altList : List RE → RE
  | [] => .cls (fun _ => false)
  | [x] => x
  | x :: xs => .alt x (altList xs)

def wordC : RE := .cls isPyWord
def spaceC : RE := .cls isPySpace
def typeC : RE := .cls (fun c => isPyWord c || c = '<' || c = '>' ||
  c = '[' || c = ']')

/-- `(?:@[\w]+\s*)*` -/
def annotPrefix : RE := .star (.seq (.lit ['@']) (.seq (reP wordC) (.star spaceC)))

/-- `(?:private|protected|public|static|final|transient|volatile|\s)*` -/
def fieldModAlt : RE := altList
  [.lit "private".data, .lit "protected".data, .lit "public".data,
   .lit "static".data, .lit "final".data, .lit "transient".data,
   .lit "volatile".data, spaceC]

/-- `(?:public|private|protected|static|final|synchronized|abstract|native|\s)*` -/
def methodModAlt : RE := altList
  [.lit "public".data, .lit "private".data, .lit "protected".data,
   .lit "static".data, .lit "final".data, .lit "synchronized".data,
   .lit "abstract".data, .lit "native".data, spaceC]

/-- The cohesion/OO field pattern
`(?:@[\w]+\s*)*(?:mods|\s)*\s*([\w\<\>\[\]]+)\s+(\w+)\s*(=|;)`. -/
def reFieldPat : RE :=
  .seq annotPrefix (.seq (.star fieldModAlt) (.seq (.star spaceC)
    (.seq (.grp 1 (reP typeC)) (.seq (reP spaceC) (.seq (.grp 2 (reP wordC))
      (.seq (.star spaceC) (.grp 3 (.alt (.lit ['=']) (.lit [';'])))))))))

/-- The cohesion/OO method pattern
`(?:@[\w]+\s*)*(?:mods|\s)*\s*[\w\<\>\[\]]+\s+(\w+)\s*\([^)]*\)\s*\{`. -/
def reCohMethodPat : RE :=
  .seq annotPrefix (.seq (.star methodModAlt) (.seq (.star spaceC)
    (.seq (reP typeC) (.seq (reP spaceC) (.seq (.grp 1 (reP wordC))
      (.seq (.star spaceC) (.seq (.lit ['('])
        (.seq (.star (.cls (fun c => !(c = ')')))) (.seq (.lit [')'])
          (.seq (.star spaceC) (.lit ['\x7b'])))))))))))

/-- `extract_classes_with_braces`: the brace loop starts at 1 and re-reads
the opening brace (the usual overshoot). -/
def extract_classes_with_braces (code : String) : List (String × String) :=
  (scanCollectPos classDeclMatchAt code.data.length 0 code.data).map (fun t =>
    let rest := code.data.drop t.2.2
    let k := braceReadCount rest 2
    (String.mk t.1, String.mk (('\x7b' :: rest).take k)))

/-- The cohesion fallback's per-class method list, with the same overshoot
brace loop for the bodies. -/
def cohMethodsOf (class_body : String) : List (String × String) :=
  (reScan reCohMethodPat class_body).map (fun t =>
    let mname := String.mk ((capGet t.1 1).getD [])
    let rest := class_body.data.drop t.2.2
    let k := braceReadCount rest 2
    (mname, String.mk (('\x7b' :: rest).take k)))

def cohFieldNamesOf (class_body : String) : List String :=
  (reScan reFieldPat class_body).map (fun t =>
    String.mk ((capGet t.1 2).getD []))

/-- `re.search(r'\b(this\.)?' + fname + r'\b', mbody)` for a `\w+` name. -/
def fieldUseSearchAux (fname : List Char) : Nat → Option Char → List Char → Bool
  | 0, _, _ => false
  | _ + 1, _, [] => false
  | fuel + 1, prev, s@(c :: rest) =>
    (wordBoundaryOk prev &&
      ((match dropLit "this.".data s with
        | some r =>
          match dropLit fname r with
          | some r2 => wbAfterOk r2
          | none =>
            match dropLit fname s with
            | some r2 => wbAfterOk r2
            | none => false
        | none =>
          match dropLit fname s with
          | some r2 => wbAfterOk r2
          | none => false))) ||
    fieldUseSearchAux fname fuel (some c) rest

def fieldUseSearch (fname : List Char) (body : List Char) : Bool :=
  fieldUseSearchAux fname body.length none body

/-- The `i < j` pair loop over `method_field_usage`: (lcom, tcc, pairs). -/
def cohPairs : List (List String) → Nat × Nat × Nat
  | [] => (0, 0, 0)
  | u :: rest =>
    let head := rest.foldl (fun (acc : Nat × Nat × Nat) v =>
      if !u.isEmpty && !v.isEmpty then
        if u.any (fun x => v.contains x) then (acc.1, acc.2.1 + 1, acc.2.2 + 1)
        else (acc.1 + 1, acc.2.1, acc.2.2 + 1)
      else (acc.1, acc.2.1, acc.2.2 + 1)) (0, 0, 0)
    let tail := cohPairs rest
    (head.1 + tail.1, head.2.1 + tail.2.1, head.2.2 + tail.2.2)

def analyze_cohesion_metrics (code : String) (tree : JTree)
    (fallback : Bool) : List (String × ℚ) :=
  if fallback || tree.isEmpty then
    let totals := (extract_classes_with_braces code).foldl
      (fun (acc : Nat × Nat × Nat) blk =>
        let field_names := cohFieldNamesOf blk.2
        let methods := cohMethodsOf blk.2
        let usage := methods.map (fun m =>
          firstDedup (field_names.filter (fun fn =>
            fieldUseSearch fn.data m.2.data)))
        let p := cohPairs usage
        (acc.1 + p.1, acc.2.1 + p.2.1, acc.2.2 + p.2.2)) (0, 0, 0)
    [("Lack of Cohesion in Methods (LCOM)", (totals.1 : ℚ)),
     ("Tight Class Cohesion (TCC)", (totals.2.1 : ℚ)),
     ("Number of Method Pairs Sharing Fields", (totals.2.2 : ℚ))]
  else
    [("Lack of Cohesion in Methods (LCOM)", 0),
     ("Tight Class Cohesion (TCC)", 0),
     ("Number of Method Pairs Sharing Fields", 0)]

/-! ## analyze_oo_metrics (regex fallback) -/

def genC : RE := .cls (fun c => isPyWord c || c = '<' || c = '>')
def implC : RE := .cls (fun c => isPyWord c || c = ',' || isPySpace c ||
  c = '<' || c = '>')

def reOpt (a : RE) : RE := .alt a (.lit [])

/-- `(?:@[\w]+\s*)*(abstract\s+)?class\s+(\w+)(?:\s+extends\s+([\w<>]+))?`
`(?:\s+implements\s+([\w,\s<>]+))?` -/
def reClassPat : RE :=
  .seq annotPrefix (.seq (reOpt (.grp 1 (.seq (.lit "abstract".data) (reP spaceC))))
    (.seq (.lit "class".data) (.seq (reP spaceC) (.seq (.grp 2 (reP wordC))
      (.seq (reOpt (.seq (reP spaceC) (.seq (.lit "extends".data)
        (.seq (reP spaceC) (.grp 3 (reP genC))))))
        (reOpt (.seq (reP spaceC) (.seq (.lit "implements".data)
          (.seq (reP spaceC) (.grp 4 (reP implC)))))))))))

/-- `(?:@[\w]+\s*)*interface\s+(\w+)` -/
def reIfacePat : RE :=
  .seq annotPrefix (.seq (.lit "interface".data)
    (.seq (reP spaceC) (.grp 1 (reP wordC))))

structure OODef where
  abstract : Bool
  parent : Option String
  implementsStr : Option String
  methods : List String
  fields : List String
  overrides : Nat
  deriving Repr

structure OOSt where
  abstract_classes : List String := []
  parents : List (String × String) := []
  children : List (String × List String) := []
  class_defs : List (String × OODef) := []

def setAdd (l : List String) (x : String) : List String :=
  if x ∈ l then l else l ++ [x]

def childAdd (children : List (String × List String)) (k v : String) :
    List (String × List String) :=
  if (children.find? (fun p => p.1 = k)).isSome then
    children.map (fun p => if p.1 = k then (p.1, p.2 ++ [v]) else p)
  else children ++ [(k, [v])]

def oodefInsert (d : List (String × OODef)) (k : String) (v : OODef) :
    List (String × OODef) :=
  if (d.find? (fun p => p.1 = k)).isSome then
    d.map (fun p => if p.1 = k then (k, v) else p)
  else d ++ [(k, v)]

def ooFirstPass (code : String) : OOSt :=
  (reScan reClassPat code).foldl (fun st t =>
    let is_abstract := (capGet t.1 1).isSome
    let cname := String.mk ((capGet t.1 2).getD [])
    let parentO := (capGet t.1 3).map String.mk
    let implsO := (capGet t.1 4).map String.mk
    let st :=
      if is_abstract then
        { st with abstract_classes := setAdd st.abstract_classes cname }
      else st
    let st :=
      match parentO with
      | some parent =>
        { st with parents := dictInsert st.parents cname parent
                  children := childAdd st.children parent cname }
      | none => st
    let st :=
      match implsO with
      | some istr =>
        ((pySplitOn ',' istr.data).map (fun i => pyStrip (String.mk i))).foldl
          (fun (st : OOSt) (iface : String) =>
            if iface.data.isEmpty then st
            else
              { st with
                  parents := dictInsert st.parents (cname ++ ":" ++ iface) iface
                  children := childAdd st.children iface cname }) st
      | none => st
    let rec0 : OODef :=
      { abstract := is_abstract, parent := parentO, implementsStr := implsO,
        methods := [], fields := [], overrides := 0 }
    { st with class_defs := oodefInsert st.class_defs cname rec0 }) {}

/-- `class\s+` ++ cname ++ `[^{]*\{` (per-class body search of the OO
fallback). -/
def clsBodyMatchAt (cname : List Char) (s : List Char) : Option (List Char) :=
  match dropLit "class".data s with
  | none => none
  | some r1 =>
    (munch1 isPySpace r1).bind (fun p =>
      match dropLit cname p.2 with
      | none => none
      | some r2 =>
        match (span2 (fun c => !(c = '\x7b')) r2).2 with
        | '\x7b' :: r3 => some r3
        | _ => none)

/-- Second pass: fill methods/fields/overrides from the (overshoot-carved)
class body. -/
def ooSecondPass (code : String) (d : List (String × OODef)) :
    List (String × OODef) :=
  d.map (fun p =>
    match scanFirst (fun s => (clsBodyMatchAt p.1.data s).map (fun r => (r, r)))
        code.data.length code.data with
    | none => p
    | some r3 =>
      let body := String.mk (('\x7b' :: r3).take (braceReadCount r3 2))
      (p.1, { p.2 with
        methods := (reScan reCohMethodPat body).map (fun t =>
          String.mk ((capGet t.1 1).getD []))
        fields := (reScan reFieldPat body).map (fun t =>
          String.mk ((capGet t.1 2).getD []))
        overrides := pyCountSub body "@Override" }))

/-- Honest step-indexed model of the `get_dit` loop
`while cls in parents: cls = parents[cls]; depth += 1`: `none` means the
loop has not returned within `fuel` iterations, so the loop diverges
exactly when this is `none` at every fuel (the state is just `cls`, drawn
from a finite map, so a run that outlives every fuel revisits a state and
never exits). -/
def getDitStep (parents : List (String × String)) :
    Nat → String → Nat → Option Nat
  | 0, _, _ => none
  | fuel + 1, cls, depth =>
    match parents.find? (fun p => p.1 = cls) with
    | some p => getDitStep parents fuel p.2 (depth + 1)
    | none => some depth

/-- `get_dit`, truncated at `fuel` so the surrounding metric pipeline stays
a function.  CAUTION: the source loop has no cycle guard and diverges on a
cyclic `parents` map, which this total wrapper collapses; divergence is
modeled by `getDitStep` being `none` at every fuel, and claim C1 exhibits a
parse-failing input whose fallback reaches such a diverging call. -/
def getDit (parents : List (String × String)) : Nat → String → Nat
  | 0, _ => 0
  | fuel + 1, cls =>
    match parents.find? (fun p => p.1 = cls) with
    | some p => 1 + getDit parents fuel p.2
    | none => 0

def analyze_oo_metrics (code : String) (tree : JTree) (fallback : Bool) :
    List (String × ℚ) :=
  if fallback || tree.isEmpty then
    let interfaces := firstDedup ((reScan reIfacePat code).map (fun t =>
      String.mk ((capGet t.1 1).getD [])))
    let st := ooFirstPass code
    let class_defs := ooSecondPass code st.class_defs
    let wmc := (class_defs.map (fun p => p.2.methods.length)).sum
    let dit := pyMaxD (class_defs.map (fun p =>
      getDit st.parents (st.parents.length + 1) p.1)) 0
    let noc := (st.children.filter (fun c =>
      (class_defs.find? (fun p => p.1 = c.1)).isSome)).map (fun c => c.2.length)
    let total_methods := wmc
    let total_fields := (class_defs.map (fun p => p.2.fields.length)).sum
    let total_overrides := (class_defs.map (fun p => p.2.overrides)).sum
    let mif : ℚ := (total_overrides : ℚ) /
      (if total_methods = 0 then 1 else total_methods)
    let total_types := class_defs.length + interfaces.length
    let abstractness : ℚ :=
      ((st.abstract_classes.length + interfaces.length : Nat) : ℚ) /
        (if total_types = 0 then 1 else total_types)
    let _ := total_fields
    [("Weighted Methods per Class (WMC)", (wmc : ℚ)),
     ("Depth of Inheritance Tree (DIT)", (dit : ℚ)),
     ("Number of Children (NOC)", (noc.sum : ℚ)),
     ("Method Inheritance Factor (MIF)", pyRound2 mif),
     ("Attribute Inheritance Factor (AIF)", pyRound2 0),
     ("Abstractness (A)", pyRound2 abstractness),
     ("Specialization Index", pyRound2 mif)]
  else
    [("Weighted Methods per Class (WMC)", 0),
     ("Depth of Inheritance Tree (DIT)", 0),
     ("Number of Children (NOC)", 0),
     ("Method Inheritance Factor (MIF)", 0),
     ("Attribute Inheritance Factor (AIF)", 0),
     ("Abstractness (A)", 0),
     ("Specialization Index", 0)]

/-! ## Remaining metric groups -/

/-- Both branches of `analyze_maintainability_metrics` compute identical
values from `code` alone. -/
def maintainabilityVals (code : String) : List (String × ℚ) :=
  let lines := pySplitlines code
  let denom : ℚ := if lines.length = 0 then 1 else lines.length
  let slashLines := lines.filter (fun l => pyStartsWith (pyStrip l) "//")
  let slashDenom : ℚ := if slashLines.length = 0 then 1 else slashLines.length
  [("Maintainability Index (approx)", 0),
   ("Comment Density", ((lines.filter commentLine).length : ℚ) / denom),
   ("Javadoc Density",
     ((lines.filter (fun l => pyStartsWith (pyStrip l) "/**")).length : ℚ) / denom),
   ("Average Comment Length",
     ((slashLines.map (fun l => l.data.length)).sum : ℚ) / slashDenom),
   ("Ratio of Commented vs. Un-commented Classes", 0)]

def analyze_maintainability_metrics (code : String) (tree : JTree)
    (fallback : Bool) : List (String × ℚ) :=
  if fallback || tree.isEmpty then maintainabilityVals code
  else maintainabilityVals code

/-- Identical in both branches of `analyze_reliability_metrics`. -/
def reliabilityVals (code : String) : List (String × ℚ) :=
  let d := code.data
  let eh := scanCount catchParenMatchAt d.length d
  let denom : ℚ := if (pySplitlines code).length = 0 then 1
    else (pySplitlines code).length
  [("Number of Exception Handlers", (eh : ℚ)),
   ("Catch Block Density", (eh : ℚ) / denom),
   ("Assertions per Method", (scanCount assertSpaceMatchAt d.length d : ℚ)),
   ("Ratio of Tested vs. Untested Classes", 0),
   ("Number of Unit Test Methods", (pyCountSub code "@Test" : ℚ))]

def analyze_reliability_metrics (code : String) (tree : JTree)
    (fallback : Bool) : List (String × ℚ) :=
  if fallback || tree.isEmpty then reliabilityVals code
  else reliabilityVals code

def analyze_duplication_metrics (code : String) (tree : JTree)
    (fallback : Bool) : List (String × ℚ) :=
  if fallback || tree.isEmpty then
    let lines := pySplitlines code
    [("Number of Duplicated Blocks",
       (wbAltCount ["if", "for", "while", "switch"] code : ℚ)),
     ("Duplicated Lines Density (%)",
       ((lines.filter (fun l => lines.count l > 1)).length : ℚ)),
     ("Number of Similar Methods",
       (scanCount (fun s => (msigMatchAt s).map (fun p => p.2))
         code.data.length code.data : ℚ))]
  else
    [("Number of Duplicated Blocks", 0),
     ("Duplicated Lines Density (%)", 0),
     ("Number of Similar Methods", 0)]

/-- Matcher for `[^a-zA-Z0-9_](var|tmp|foo|bar)[^a-zA-Z0-9_]`. -/
def namingAltTry : List (List Char) → List Char → Option (List Char)
  | [], _ => none
  | w :: ws, s =>
    match dropLit w s with
    | some r =>
      match r with
      | c2 :: r2 => if isPyWord c2 then namingAltTry ws s else some r2
      | [] => namingAltTry ws s
    | none => namingAltTry ws s

def namingMatchAt (s : List Char) : Option (List Char) :=
  match s with
  | c1 :: r1 =>
    if isPyWord c1 then none
    else namingAltTry ["var".data, "tmp".data, "foo".data, "bar".data] r1
  | [] => none

def analyze_documentation_metrics (code : String) (tree : JTree)
    (fallback : Bool) : List (String × ℚ) :=
  let lines := pySplitlines code
  let denom : ℚ := if lines.length = 0 then 1 else lines.length
  let todo : ℚ := litAltCount ["TODO", "FIXME"] code
  let blank : ℚ :=
    ((lines.filter (fun l => (pyStrip l).data.isEmpty)).length : ℚ) / denom
  if fallback || tree.isEmpty then
    let words := scanCollect wordRunMatchAt code.data.length code.data
    let wdenom : ℚ := if words.length = 0 then 1 else words.length
    [("Number of TODO / FIXME Tags", todo),
     ("Naming Convention Violations",
       (scanCount namingMatchAt code.data.length code.data : ℚ)),
     ("Blank Line Density", blank),
     ("Identifier Length Average",
       ((words.map (fun w => w.length)).sum : ℚ) / wdenom)]
  else
    [("Number of TODO / FIXME Tags", todo),
     ("Naming Convention Violations", 0),
     ("Blank Line Density", blank),
     ("Identifier Length Average", 0)]

/-- IGNORECASE matcher for `password|passwd|secret|api[_-]?key`, applied to
the lowercased text. -/
def credMatchAt (s : List Char) : Option (List Char) :=
  match dropLit "password".data s with
  | some r => some r
  | none =>
  match dropLit "passwd".data s with
  | some r => some r
  | none =>
  match dropLit "secret".data s with
  | some r => some r
  | none =>
  match dropLit "api".data s with
  | some r =>
    match r with
    | c :: r2 =>
      if c = '_' || c = '-' then dropLit "key".data r2
      else dropLit "key".data r
    | [] => none
  | none => none

/-- Matcher for `import\s+\w+;\s*$` under MULTILINE: the greedy `\s*`
backtracks to the last line end inside the whitespace run. -/
def unusedImportMatchAt (s : List Char) : Option (List Char) :=
  match dropLit "import".data s with
  | none => none
  | some r1 =>
    (munch1 isPySpace r1).bind (fun p1 =>
      (munch1 isPyWord p1.2).bind (fun p2 =>
        match p2.2 with
        | ';' :: r4 =>
          let run := r4.takeWhile isPySpace
          if r4.drop run.length = [] then some (r4.drop run.length)
          else
            match (run.reverse.findIdx? (fun c => c = '\n')).map
                (fun i => run.length - 1 - i) with
            | some j => some (r4.drop j)
            | none => none
        | _ => none))

/-- Matcher for `public\s+\w+\s+\w+;`. -/
def pubDataMatchAt (s : List Char) : Option (List Char) :=
  match dropLit "public".data s with
  | none => none
  | some r1 =>
    (munch1 isPySpace r1).bind (fun p1 =>
      (munch1 isPyWord p1.2).bind (fun p2 =>
        (munch1 isPySpace p2.2).bind (fun p3 =>
          (munch1 isPyWord p3.2).bind (fun p4 =>
            match p4.2 with
            | ';' :: r => some r
            | _ => none))))

/-- Matcher for `\([A-Za-z0-9_]+\)\s*\w+`. -/
def unsafeCastMatchAt (s : List Char) : Option (List Char) :=
  match s with
  | '(' :: r1 =>
    (munch1 isPyWord r1).bind (fun p1 =>
      match p1.2 with
      | ')' :: r2 =>
        (munch1 isPyWord ((span2 isPySpace r2).2)).map (fun p => p.2)
      | _ => none)
  | _ => none

def analyze_security_metrics (code : String) (tree : JTree)
    (fallback : Bool) : List (String × ℚ) :=
  let low := pyLower code
  let d := code.data
  let creds : ℚ := scanCount credMatchAt low.data.length low.data
  let depr : ℚ := pyCountSub code "@Deprecated"
  let unusedImp : ℚ := scanCount unusedImportMatchAt d.length d
  let unsafe_casts : ℚ := scanCount unsafeCastMatchAt d.length d
  if fallback || tree.isEmpty then
    [("Number of Hardcoded Credentials", creds),
     ("Use of Deprecated APIs", depr),
     ("Unused Imports or Variables", unusedImp),
     ("Missing or Incomplete Access Modifiers",
       (scanCount (optModMatchAt secModTail) d.length d : ℚ)),
     ("Public Data Members Count", (scanCount pubDataMatchAt d.length d : ℚ)),
     ("Unsafe Type Casts", unsafe_casts)]
  else
    [("Number of Hardcoded Credentials", creds),
     ("Use of Deprecated APIs", depr),
     ("Unused Imports or Variables", unusedImp),
     ("Missing or Incomplete Access Modifiers", 0),
     ("Public Data Members Count", 0),
     ("Unsafe Type Casts", unsafe_casts)]

/-! ## analyze_java_code -/

structure JavaMetrics where
  groups : List (String × List (String × ℚ))
  /-- `some …` exactly when the fallback added a `_warnings` key. -/
  warnings : Option (List String)
  /-- Whether a `_debug` key is present (fallback only). -/
  hasDebug : Bool
  deriving Repr

/-- Embedding of `analyze_java_code`: `oracle` stands for
`javalang.parse.parse`; on a raising parse `tree = []` and `fallback` is
set.  `ctx` models the `st.session_state['uploaded_files']` corpus (absent
→ `none`). -/
def analyze_java_code (oracle : ParseOracle) (code : String)
    (file_path : Option String)
    (ctx : Option (List String × List (String × String))) : JavaMetrics :=
  let pr := oracle code
  let fallback := pr.isNone
  let tree := pr.getD []
  { groups :=
      [("Structural Metrics", analyze_structural_metrics code tree fallback),
       ("Complexity Metrics", analyze_complexity_metrics code tree fallback),
       ("Coupling and Dependency Metrics",
         analyze_coupling_metrics code tree fallback file_path ctx),
       ("Cohesion Metrics", analyze_cohesion_metrics code tree fallback),
       ("Object-Oriented Design Metrics", analyze_oo_metrics code tree fallback),
       ("Maintainability and Readability",
         analyze_maintainability_metrics code tree fallback),
       ("Reliability and Testability Metrics",
         analyze_reliability_metrics code tree fallback),
       ("Code Duplication and Redundancy",
         analyze_duplication_metrics code tree fallback),
       ("Documentation and Style",
         analyze_documentation_metrics code tree fallback),
       ("Security and Quality Flags",
         analyze_security_metrics code tree fallback)]
    warnings :=
      if fallback then
        some ["javalang parsing failed, using regex/statistical fallback. Metrics are approximate."]
      else none
    hasDebug := fallback }

/-! ## Empty-input behaviour (claim C9) -/

/-- `javalang.parse.parse("")` succeeds, returning an empty compilation
unit; the walk over the parse tree yields just that root node, so the AST
branches of the metric groups run. -/
def oracleEmptyTree : ParseOracle := fun _ => some [.otherNode]

theorem pyRound2_zero : pyRound2 0 = 0 := by
  unfold pyRound2
  norm_num

theorem emptyStructFb : analyze_structural_metrics "" [] true =
    [("Lines of Code (LOC)", 0), ("Effective Lines of Code (eLOC)", 0),
     ("Number of Classes", 0), ("Number of Interfaces", 0),
     ("Number of Methods per Class", 0), ("Number of Fields per Class", 0),
     ("Number of Packages", 0), ("Maximum Class Size", 0),
     ("Maximum Method Size (in LOC)", 0),
     ("Number of Accessors (getters/setters)", 0)] := by decide

theorem emptyStructAst : analyze_structural_metrics "" [.otherNode] false =
    [("Lines of Code (LOC)", 0), ("Effective Lines of Code (eLOC)", 0),
     ("Number of Classes", 0), ("Number of Interfaces", 0),
     ("Number of Methods per Class", 0), ("Number of Fields per Class", 0),
     ("Number of Packages", 0), ("Maximum Class Size", 0),
     ("Maximum Method Size (in LOC)", 0),
     ("Number of Accessors (getters/setters)", 0)] := by decide

theorem emptyCplxFb : analyze_complexity_metrics "" [] true =
    [("Cyclomatic Complexity (approx)", 0), ("Cognitive Complexity (approx)", 0),
     ("Nesting Depth (approx)", 0), ("Switch Complexity", 0),
     ("Control Flow Complexity", 0),
     ("Number of Conditions per Method (approx)", 0)] := by decide

/-- On a parsed empty file the AST cyclomatic count is the dead-pattern
match count plus one, i.e. `0 + 1 = 1`, not `0`. -/
theorem emptyCplxAst : analyze_complexity_metrics "" [.otherNode] false =
    [("Cyclomatic Complexity (approx)", 1), ("Cognitive Complexity (approx)", 0),
     ("Nesting Depth (approx)", 0), ("Switch Complexity", 0),
     ("Control Flow Complexity", 0),
     ("Number of Conditions per Method (approx)", 0)] := by
  simp only [analyze_complexity_metrics]
  norm_num
  decide

theorem emptyCoupling (t : JTree) (b : Bool) :
    analyze_coupling_metrics "" t b none none =
    [("Coupling Between Object Classes (CBO)", 0),
     ("Response for a Class (RFC)", 0), ("Fan-In", 0), ("Fan-Out", 0),
     ("Afferent Coupling (Ca)", 0), ("Number of External Dependencies", 0)] := by
  have h1 : wbCountWord "implements" "" = 0 := by decide
  have h2 : wbCountWord "extends" "" = 0 := by decide
  have h3 : wbScanCount rfcMatchAt "" = 0 := by decide
  have h4 : anchoredScanCount anchoredImportMatchAt "" = 0 := by decide
  have h5 : scanCollect newClassMatchAt 0 ([] : List Char) = [] := by decide
  simp only [analyze_coupling_metrics]
  norm_num [h1, h2, h3, h4, h5, firstDedup, firstDedupAux]

theorem emptyCohFb : analyze_cohesion_metrics "" [] true =
    [("Lack of Cohesion in Methods (LCOM)", 0),
     ("Tight Class Cohesion (TCC)", 0),
     ("Number of Method Pairs Sharing Fields", 0)] := by decide

theorem emptyCohAst : analyze_cohesion_metrics "" [.otherNode] false =
    [("Lack of Cohesion in Methods (LCOM)", 0),
     ("Tight Class Cohesion (TCC)", 0),
     ("Number of Method Pairs Sharing Fields", 0)] := by decide

theorem emptyOoFb : analyze_oo_metrics "" [] true =
    [("Weighted Methods per Class (WMC)", 0),
     ("Depth of Inheritance Tree (DIT)", 0), ("Number of Children (NOC)", 0),
     ("Method Inheritance Factor (MIF)", 0),
     ("Attribute Inheritance Factor (AIF)", 0), ("Abstractness (A)", 0),
     ("Specialization Index", 0)] := by
  have h1 : ooFirstPass "" = { } := rfl
  have h2 : ooSecondPass "" ([] : List (String × OODef)) = [] := rfl
  have h3 : reScan reIfacePat "" = [] := by decide
  simp only [analyze_oo_metrics, h1, h2, h3]
  norm_num [pyRound2_zero, firstDedup, firstDedupAux, pyMaxD]

theorem emptyOoAst : analyze_oo_metrics "" [.otherNode] false =
    [("Weighted Methods per Class (WMC)", 0),
     ("Depth of Inheritance Tree (DIT)", 0), ("Number of Children (NOC)", 0),
     ("Method Inheritance Factor (MIF)", 0),
     ("Attribute Inheritance Factor (AIF)", 0), ("Abstractness (A)", 0),
     ("Specialization Index", 0)] := by decide

theorem emptyMaintVals : maintainabilityVals "" =
    [("Maintainability Index (approx)", 0), ("Comment Density", 0),
     ("Javadoc Density", 0), ("Average Comment Length", 0),
     ("Ratio of Commented vs. Un-commented Classes", 0)] := by
  simp only [maintainabilityVals]
  norm_num
  decide

theorem emptyMaint (t : JTree) (b : Bool) :
    analyze_maintainability_metrics "" t b =
    [("Maintainability Index (approx)", 0), ("Comment Density", 0),
     ("Javadoc Density", 0), ("Average Comment Length", 0),
     ("Ratio of Commented vs. Un-commented Classes", 0)] := by
  unfold analyze_maintainability_metrics
  rw [ite_self]
  exact emptyMaintVals

theorem emptyReliVals : reliabilityVals "" =
    [("Number of Exception Handlers", 0), ("Catch Block Density", 0),
     ("Assertions per Method", 0), ("Ratio of Tested vs. Untested Classes", 0),
     ("Number of Unit Test Methods", 0)] := by
  simp only [reliabilityVals]
  norm_num
  decide

theorem emptyReli (t : JTree) (b : Bool) :
    analyze_reliability_metrics "" t b =
    [("Number of Exception Handlers", 0), ("Catch Block Density", 0),
     ("Assertions per Method", 0), ("Ratio of Tested vs. Untested Classes", 0),
     ("Number of Unit Test Methods", 0)] := by
  unfold analyze_reliability_metrics
  rw [ite_self]
  exact emptyReliVals

theorem emptyDupFb : analyze_duplication_metrics "" [] true =
    [("Number of Duplicated Blocks", 0), ("Duplicated Lines Density (%)", 0),
     ("Number of Similar Methods", 0)] := by decide

theorem emptyDupAst : analyze_duplication_metrics "" [.otherNode] false =
    [("Number of Duplicated Blocks", 0), ("Duplicated Lines Density (%)", 0),
     ("Number of Similar Methods", 0)] := by decide

theorem emptyDocFb : analyze_documentation_metrics "" [] true =
    [("Number of TODO / FIXME Tags", 0), ("Naming Convention Violations", 0),
     ("Blank Line Density", 0), ("Identifier Length Average", 0)] := by
  simp only [analyze_documentation_metrics]
  norm_num
  decide

theorem emptyDocAst : analyze_documentation_metrics "" [.otherNode] false =
    [("Number of TODO / FIXME Tags", 0), ("Naming Convention Violations", 0),
     ("Blank Line Density", 0), ("Identifier Length Average", 0)] := by
  simp only [analyze_documentation_metrics]
  norm_num
  decide

theorem emptySecFb : analyze_security_metrics "" [] true =
    [("Number of Hardcoded Credentials", 0), ("Use of Deprecated APIs", 0),
     ("Unused Imports or Variables", 0),
     ("Missing or Incomplete Access Modifiers", 0),
     ("Public Data Members Count", 0), ("Unsafe Type Casts", 0)] := by decide

theorem emptySecAst : analyze_security_metrics "" [.otherNode] false =
    [("Number of Hardcoded Credentials", 0), ("Use of Deprecated APIs", 0),
     ("Unused Imports or Variables", 0),
     ("Missing or Incomplete Access Modifiers", 0),
     ("Public Data Members Count", 0), ("Unsafe Type Casts", 0)] := by decide

/-- All ten groups on the empty text under the regex fallback. -/
theorem empty_fallback_groups :
    (analyze_java_code (fun _ => none) "" none none).groups =
    [("Structural Metrics",
      [("Lines of Code (LOC)", 0), ("Effective Lines of Code (eLOC)", 0),
       ("Number of Classes", 0), ("Number of Interfaces", 0),
       ("Number of Methods per Class", 0), ("Number of Fields per Class", 0),
       ("Number of Packages", 0), ("Maximum Class Size", 0),
       ("Maximum Method Size (in LOC)", 0),
       ("Number of Accessors (getters/setters)", 0)]),
     ("Complexity Metrics",
      [("Cyclomatic Complexity (approx)", 0), ("Cognitive Complexity (approx)", 0),
       ("Nesting Depth (approx)", 0), ("Switch Complexity", 0),
       ("Control Flow Complexity", 0),
       ("Number of Conditions per Method (approx)", 0)]),
     ("Coupling and Dependency Metrics",
      [("Coupling Between Object Classes (CBO)", 0),
       ("Response for a Class (RFC)", 0), ("Fan-In", 0), ("Fan-Out", 0),
       ("Afferent Coupling (Ca)", 0), ("Number of External Dependencies", 0)]),
     ("Cohesion Metrics",
      [("Lack of Cohesion in Methods (LCOM)", 0),
       ("Tight Class Cohesion (TCC)", 0),
       ("Number of Method Pairs Sharing Fields", 0)]),
     ("Object-Oriented Design Metrics",
      [("Weighted Methods per Class (WMC)", 0),
       ("Depth of Inheritance Tree (DIT)", 0), ("Number of Children (NOC)", 0),
       ("Method Inheritance Factor (MIF)", 0),
       ("Attribute Inheritance Factor (AIF)", 0), ("Abstractness (A)", 0),
       ("Specialization Index", 0)]),
     ("Maintainability and Readability",
      [("Maintainability Index (approx)", 0), ("Comment Density", 0),
       ("Javadoc Density", 0), ("Average Comment Length", 0),
       ("Ratio of Commented vs. Un-commented Classes", 0)]),
     ("Reliability and Testability Metrics",
      [("Number of Exception Handlers", 0), ("Catch Block Density", 0),
       ("Assertions per Method", 0), ("Ratio of Tested vs. Untested Classes", 0),
       ("Number of Unit Test Methods", 0)]),
     ("Code Duplication and Redundancy",
      [("Number of Duplicated Blocks", 0), ("Duplicated Lines Density (%)", 0),
       ("Number of Similar Methods", 0)]),
     ("Documentation and Style",
      [("Number of TODO / FIXME Tags", 0), ("Naming Convention Violations", 0),
       ("Blank Line Density", 0), ("Identifier Length Average", 0)]),
     ("Security and Quality Flags",
      [("Number of Hardcoded Credentials", 0), ("Use of Deprecated APIs", 0),
       ("Unused Imports or Variables", 0),
       ("Missing or Incomplete Access Modifiers", 0),
       ("Public Data Members Count", 0), ("Unsafe Type Casts", 0)])] := by
  show [("Structural Metrics", analyze_structural_metrics "" [] true),
        ("Complexity Metrics", analyze_complexity_metrics "" [] true),
        ("Coupling and Dependency Metrics",
          analyze_coupling_metrics "" [] true none none),
        ("Cohesion Metrics", analyze_cohesion_metrics "" [] true),
        ("Object-Oriented Design Metrics", analyze_oo_metrics "" [] true),
        ("Maintainability and Readability",
          analyze_maintainability_metrics "" [] true),
        ("Reliability and Testability Metrics",
          analyze_reliability_metrics "" [] true),
        ("Code Duplication and Redundancy",
          analyze_duplication_metrics "" [] true),
        ("Documentation and Style", analyze_documentation_metrics "" [] true),
        ("Security and Quality Flags", analyze_security_metrics "" [] true)] = _
  rw [emptyStructFb, emptyCplxFb, emptyCoupling, emptyCohFb, emptyOoFb,
      emptyMaint, emptyReli, emptyDupFb, emptyDocFb, emptySecFb]

/-- All ten groups on the empty text under a successful parse. -/
theorem empty_ast_groups :
    (analyze_java_code oracleEmptyTree "" none none).groups =
    [("Structural Metrics",
      [("Lines of Code (LOC)", 0), ("Effective Lines of Code (eLOC)", 0),
       ("Number of Classes", 0), ("Number of Interfaces", 0),
       ("Number of Methods per Class", 0), ("Number of Fields per Class", 0),
       ("Number of Packages", 0), ("Maximum Class Size", 0),
       ("Maximum Method Size (in LOC)", 0),
       ("Number of Accessors (getters/setters)", 0)]),
     ("Complexity Metrics",
      [("Cyclomatic Complexity (approx)", 1), ("Cognitive Complexity (approx)", 0),
       ("Nesting Depth (approx)", 0), ("Switch Complexity", 0),
       ("Control Flow Complexity", 0),
       ("Number of Conditions per Method (approx)", 0)]),
     ("Coupling and Dependency Metrics",
      [("Coupling Between Object Classes (CBO)", 0),
       ("Response for a Class (RFC)", 0), ("Fan-In", 0), ("Fan-Out", 0),
       ("Afferent Coupling (Ca)", 0), ("Number of External Dependencies", 0)]),
     ("Cohesion Metrics",
      [("Lack of Cohesion in Methods (LCOM)", 0),
       ("Tight Class Cohesion (TCC)", 0),
       ("Number of Method Pairs Sharing Fields", 0)]),
     ("Object-Oriented Design Metrics",
      [("Weighted Methods per Class (WMC)", 0),
       ("Depth of Inheritance Tree (DIT)", 0), ("Number of Children (NOC)", 0),
       ("Method Inheritance Factor (MIF)", 0),
       ("Attribute Inheritance Factor (AIF)", 0), ("Abstractness (A)", 0),
       ("Specialization Index", 0)]),
     ("Maintainability and Readability",
      [("Maintainability Index (approx)", 0), ("Comment Density", 0),
       ("Javadoc Density", 0), ("Average Comment Length", 0),
       ("Ratio of Commented vs. Un-commented Classes", 0)]),
     ("Reliability and Testability Metrics",
      [("Number of Exception Handlers", 0), ("Catch Block Density", 0),
       ("Assertions per Method", 0), ("Ratio of Tested vs. Untested Classes", 0),
       ("Number of Unit Test Methods", 0)]),
     ("Code Duplication and Redundancy",
      [("Number of Duplicated Blocks", 0), ("Duplicated Lines Density (%)", 0),
       ("Number of Similar Methods", 0)]),
     ("Documentation and Style",
      [("Number of TODO / FIXME Tags", 0), ("Naming Convention Violations", 0),
       ("Blank Line Density", 0), ("Identifier Length Average", 0)]),
     ("Security and Quality Flags",
      [("Number of Hardcoded Credentials", 0), ("Use of Deprecated APIs", 0),
       ("Unused Imports or Variables", 0),
       ("Missing or Incomplete Access Modifiers", 0),
       ("Public Data Members Count", 0), ("Unsafe Type Casts", 0)])] := by
  show [("Structural Metrics", analyze_structural_metrics "" [.otherNode] false),
        ("Complexity Metrics", analyze_complexity_metrics "" [.otherNode] false),
        ("Coupling and Dependency Metrics",
          analyze_coupling_metrics "" [.otherNode] false none none),
        ("Cohesion Metrics", analyze_cohesion_metrics "" [.otherNode] false),
        ("Object-Oriented Design Metrics",
          analyze_oo_metrics "" [.otherNode] false),
        ("Maintainability and Readability",
          analyze_maintainability_metrics "" [.otherNode] false),
        ("Reliability and Testability Metrics",
          analyze_reliability_metrics "" [.otherNode] false),
        ("Code Duplication and Redundancy",
          analyze_duplication_metrics "" [.otherNode] false),
        ("Documentation and Style",
          analyze_documentation_metrics "" [.otherNode] false),
        ("Security and Quality Flags",
          analyze_security_metrics "" [.otherNode] false)] = _
  rw [emptyStructAst, emptyCplxAst, emptyCoupling, emptyCohAst, emptyOoAst,
      emptyMaint, emptyReli, emptyDupAst, emptyDocAst, emptySecAst]

/-- On the empty text the comment ratio is not above the 30% bar, so no
"Too Many Comments" report is produced. -/
theorem tooManyCommentsEmpty (fn : String) : tooManyCommentsReports "" fn = [] := by
  unfold tooManyCommentsReports
  have h : pySplitlines "" = [] := by decide
  dsimp only
  simp only [h]
  norm_num

theorem miscEmpty (fn : String) (st : Option PStats) :
    MiscSmellAgent.detect "" fn st = [] := by
  unfold MiscSmellAgent.detect
  rw [tooManyCommentsEmpty]
  rfl

/-- C9 (as amended): on empty input the regex-fallback run returns all-zero
values in every metric group; a successfully parsed empty compilation unit
returns zeros everywhere except the AST branch's
"Cyclomatic Complexity (approx)", whose count starts at `+ 1` and is
therefore `1`; the smell agents emit no report under either parser outcome;
the class agent's AST pass raises no internal exception; and no cycle is
detected in the empty corpus's import graph. -/
theorem C9_empty_input_behavior :
    (∀ p ∈ (analyze_java_code (fun _ => none) "" none none).groups,
       ∀ kv ∈ p.2, kv.2 = 0) ∧
    (∀ p ∈ (analyze_java_code oracleEmptyTree "" none none).groups,
       ∀ kv ∈ p.2, kv.2 = 0 ∨
         (p.1 = "Complexity Metrics" ∧
          kv.1 = "Cyclomatic Complexity (approx)" ∧ kv.2 = 1)) ∧
    (∀ fn : String,
       (SmellAgent.results (fun _ => none) "" fn [] []
         (some (compute_project_stats (fun _ => none) [] [])) []).1 = []) ∧
    (∀ fn : String,
       (SmellAgent.results oracleEmptyTree "" fn [] []
         (some (compute_project_stats oracleEmptyTree [] [])) []).1 = []) ∧
    (∀ fn : String,
       (classAstLoop "" fn (some (compute_project_stats oracleEmptyTree [] []))
         [.otherNode] [] [] none []).2.2 = none) ∧
    (∀ fn : String, has_cycle (buildImportGraph []) fn = false) := by
  refine ⟨?_, ?_, ?_, ?_, ?_, ?_⟩
  · rw [empty_fallback_groups]
    decide
  · rw [empty_ast_groups]
    decide
  · intro fn
    unfold SmellAgent.results
    dsimp only
    rw [miscEmpty]
    rfl
  · intro fn
    unfold SmellAgent.results
    dsimp only
    rw [miscEmpty]
    rfl
  · intro fn
    rfl
  · intro fn
    rfl

/-- C9 counterexample: the claim requires every metric group to be all-zero
on empty input, but under a successful parse of the empty text the
complexity group reports a cyclomatic complexity of `1`, because the AST
branch's count starts at `+ 1`. -/
theorem C9_empty_input_cyclomatic_one :
    ((analyze_java_code oracleEmptyTree "" none none).groups.lookup
        "Complexity Metrics").map
      (fun g => g.lookup "Cyclomatic Complexity (approx)") =
      some (some (1 : ℚ)) ∧ (1 : ℚ) ≠ 0 := by
  constructor
  · rw [empty_ast_groups]
    rfl
  · norm_num

/-- Claim C1's failing input: javalang raises on the stray trailing brace,
so the analyzer takes the regex/statistical fallback, whose class/extends
scan extracts the mutually-extending classes A and B. -/
def codeCyc : String :=
  "class A extends B \x7b\x7d class B extends A \x7b\x7d \x7d"

/-- On the cyclic two-entry parents map the `get_dit` loop alternates
between A and B and never exits, whatever the fuel. -/
theorem getDitStep_cyc (fuel depth : Nat) :
    getDitStep [("A", "B"), ("B", "A")] fuel "A" depth = none ∧
    getDitStep [("A", "B"), ("B", "A")] fuel "B" depth = none := by
  induction fuel generalizing depth with
  | zero => exact ⟨rfl, rfl⟩
  | succ n ih => exact ⟨(ih (depth + 1)).2, (ih (depth + 1)).1⟩

set_option maxRecDepth 100000 in
/-- C1 fails by non-termination: on a parse-failing text whose regex scan
extracts mutually-extending classes, `analyze_java_code`'s fallback OO
group maps `get_dit` over the extracted classes (class "A" among them) with
the parents map A→B, B→A; the source's unguarded `while cls in parents`
loop then walks A→B→A forever (`getDitStep` is `none` at every fuel), so
the analyzer never returns the complete metrics mapping the claim
promises for every parse-failing input. -/
theorem C1_fallback_diverges_on_cyclic_extends :
    (analyze_java_code (fun _ => none) codeCyc none none).groups.lookup
      "Object-Oriented Design Metrics" =
      some (analyze_oo_metrics codeCyc [] true) ∧
    (ooFirstPass codeCyc).parents = [("A", "B"), ("B", "A")] ∧
    "A" ∈ (ooSecondPass codeCyc (ooFirstPass codeCyc).class_defs).map
      (fun p => p.1) ∧
    (∀ fuel depth : Nat,
      getDitStep (ooFirstPass codeCyc).parents fuel "A" depth = none) := by
  have hpar : (ooFirstPass codeCyc).parents = [("A", "B"), ("B", "A")] := by
    decide
  refine ⟨rfl, hpar, by decide, ?_⟩
  intro fuel depth
  rw [hpar]
  exact (getDitStep_cyc fuel depth).1
